import Mathlib

/-!
# Twili host daemon (twibd): device registry and dispatcher

A shallow embedding of `src/twib/twibd/Twibd.cpp` and `src/twib/twibd/TCPBackend.cpp`, of the
request and response paths of the client library in `src/twib/twib/Twib.cpp`, and, on the device
side, of the socket thread in `src/bridge/tcp/TCPBridge.cpp` and the pipe reader object in
`src/ITwibPipeReader.cpp`.

Conventions of the embedding

* Heap objects (`Device`, `Client`, `BridgeObject`) live in association lists keyed by their
  address.  A `std::shared_ptr` / `std::weak_ptr` is the address; a weak pointer is expired
  exactly when its address is no longer a key of the heap, and `lock()` is a heap lookup.
* `std::map<uint32_t, V>` is a key-ordered association list (`mapFind`, `mapAssign`, `mapErase`).
* Machine integers are natural numbers; byte strings are lists of natural numbers.
* Calls of virtual methods whose bodies are transport specific (`Device::SendRequest`,
  `Client::PostResponse`) are additionally recorded in a log field of the receiving object
  (`Device.received`, `Client.posted`).
* Undefined behaviour of the C++ code (dereferencing a null `shared_ptr`, erasing the end
  iterator) and a blocking dequeue on an empty queue are the result `none`.
* `LogMessage` calls are not modelled, except that a null pointer dereferenced in an argument
  of a log call is undefined behaviour like any other.
-/

namespace Twili

/-! ## `std::map` as an association list -/

/-- The model of `std::map<uint32_t, V>`: an association list, kept ordered by key. -/
abbrev Map (β : Type) := List (Nat × β)

/-- Lookup `m.find(k)`; `none` stands for `m.end()`. -/
def mapFind {β : Type} : Map β → Nat → Option β
  | [], _ => none
  | (k', v) :: rest, k => if k' = k then some v else mapFind rest k

/-- Assignment `m[k] = v`: overwrite the entry of `k`, or insert it at its place in key order. -/
def mapAssign {β : Type} (k : Nat) (v : β) : Map β → Map β
  | [] => [(k, v)]
  | (k', v') :: rest =>
    if k < k' then (k, v) :: (k', v') :: rest
    else if k = k' then (k, v) :: rest
    else (k', v') :: mapAssign k v rest

/-- Removal `m.erase(k)` of the entry with key `k`. -/
def mapErase {β : Type} (k : Nat) (m : Map β) : Map β :=
  m.filter (fun e => e.1 != k)

/-! ## MessagePack values (library `msgpack11`) -/

mutual
/-- A MessagePack value, as far as the daemon builds and stores them. -/
inductive MsgPack where
  | nil
  | uint (n : Nat)
  | str (s : String)
  | bin (b : List Nat)
  | array (xs : MsgPackList)
  | object (kvs : MsgPackFields)
/-- The elements of a MessagePack array. -/
inductive MsgPackList where
  | nil
  | cons (x : MsgPack) (xs : MsgPackList)
/-- The fields of a MessagePack object. -/
inductive MsgPackFields where
  | nil
  | cons (k : String) (v : MsgPack) (rest : MsgPackFields)
end

deriving instance DecidableEq for MsgPack, MsgPackList, MsgPackFields

/-- The MessagePack array holding the values of a list, in order. -/
def MsgPackList.ofList : List MsgPack → MsgPackList
  | [] => MsgPackList.nil
  | x :: xs => MsgPackList.cons x (MsgPackList.ofList xs)

/-! ## Data model -/

/-- The two transports a device can be reached over. -/
inductive Bridge where
  | usb
  | tcp
  deriving DecidableEq, Repr

/-- A `twibd::Request`: `client` is the `std::shared_ptr<Client>` of the issuer (`none` is the
null pointer). -/
structure Request where
  client : Option Nat
  device_id : Nat
  object_id : Nat
  command_id : Nat
  tag : Nat
  payload : List Nat
  deriving DecidableEq, Repr

/-- A `twibd::Response`; `objects` are `std::shared_ptr<BridgeObject>`. -/
structure Response where
  device_id : Nat
  client_id : Nat
  object_id : Nat
  result_code : Nat
  tag : Nat
  payload : List Nat
  objects : List Nat
  deriving DecidableEq, Repr

/-- Modelled from the spec: `WeakRequest` (declared in `Messages.hpp`, which is not part of the
sources) is the pending-request entry, a weak reference to the issuing client together with the
tag of the call. -/
structure WeakRequest where
  client : Option Nat
  tag : Nat
  deriving DecidableEq, Repr

/-- Modelled from the spec: `Request::Weak()` (in `Messages.cpp`, not part of the sources) keeps
the client reference and the tag of the request. -/
def Request.Weak (r : Request) : WeakRequest :=
  { client := r.client, tag := r.tag }

/-- A `twibd::Device` together with the `MessageConnection` that owns it (TCP devices): the
connection and its device are created and destroyed together and are one heap object here.
`received` logs the requests handed to `SendRequest`; `device_nickname` and `serial_number` are
the strings `Identified` extracts, empty until then. -/
structure Device where
  bridge : Bridge
  device_id : Nat
  identification : MsgPack
  deletion_flag : Bool
  ready_flag : Bool
  added_flag : Bool
  pending_requests : List WeakRequest
  fd : Nat
  out_buffer : List Nat
  received : List Request
  device_nickname : String := ""
  serial_number : List Nat := []
  deriving DecidableEq

/-- A `twibd::Client`; `owned_objects` are `std::shared_ptr<BridgeObject>`, `posted` logs the
responses handed to the virtual `Client::PostResponse`. -/
structure Client where
  client_id : Nat
  deletion_flag : Bool
  owned_objects : List Nat
  posted : List Response
  deriving DecidableEq, Repr

/-- A `twibd::BridgeObject`, the daemon-side handle of a remote object. -/
structure BridgeObject where
  device_id : Nat
  object_id : Nat
  valid : Bool
  deriving DecidableEq, Repr

/-- An element of the dispatch queue, `std::variant<Request, Response>`. -/
inductive Job where
  | request (rq : Request)
  | response (rs : Response)
  deriving DecidableEq, Repr

/-- The daemon state: the fields of `Twibd` and of its `TCPBackend`, and the heaps.
`devices` and `clients` hold weak pointers, `connections` owns the TCP devices,
`nextRef` is the next address handed out by an allocation, and `local_tags` holds the tags
that the local client chooses for the requests it sends next, in order. -/
structure Twibd where
  devices : Map Nat
  clients : Map Nat
  dispatch_queue : List Job
  local_client : Nat
  connections : List Nat
  deviceHeap : Map Device
  clientHeap : Map Client
  objectHeap : Map BridgeObject
  nextRef : Nat
  local_tags : List Nat := []
  deriving DecidableEq

/-- What the operating system answers to the calls of `TCPBackend::Connect(hostname, port)`. -/
inductive ConnectOutcome where
  | gaiError (msg : List Nat)
  | socketError (msg : List Nat)
  | connectError (msg : List Nat)
  | connected (fd : Nat)
  deriving DecidableEq, Repr

/-- A socket address as the network stack hands it over, read as a `sockaddr_in`: the address
family, the IPv4 address and the port (in host byte order). -/
structure SockAddr where
  sa_family : Nat
  sin_addr : Nat
  sin_port : Nat
  deriving DecidableEq, Repr

/-- The address family of IPv4. -/
def AF_INET : Nat := 2

/-- What the operating system answers to the calls of `TCPBackend::Connect(addr, addr_len)`:
`socket` fails, or `connect` fails, or the connection stands on the descriptor `fd`. -/
inductive SocketOutcome where
  | socketError
  | connectError
  | connected (fd : Nat)
  deriving DecidableEq, Repr

/-- What the sources leave open: the protocol constants of `err.hpp` and `Protocol.hpp`, the
serialiser `dump` and the parser `parse` of `msgpack11`, the answers of the network stack, and
the host's `std::hash<std::string>`. -/
structure Env where
  UNRECOGNIZED_DEVICE : Nat
  UNRECOGNIZED_OBJECT : Nat
  UNRECOGNIZED_FUNCTION : Nat
  BAD_REQUEST : Nat
  IDENTIFY : Nat
  dump : MsgPack → List Nat
  connect : List Nat → List Nat → ConnectOutcome
  connectTo : SockAddr → SocketOutcome
  parse : List Nat → MsgPack
  hash : List Nat → Nat

/-! ## Devices -/

/-- The priority of a TCP device, `TCPBackend::Device::GetPriority` (TCPBackend.cpp:190-192). -/
def TCPBackend_Device_GetPriority : Nat := 1

/-- Modelled from the spec: `USBBackend::Device::GetPriority` (`USBBackend.cpp` is not part of
the sources); USB devices use priority 2. -/
def USBBackend_Device_GetPriority : Nat := 2

/-- The virtual `Device::GetPriority`. -/
def Device.GetPriority (d : Device) : Nat :=
  match d.bridge with
  | Bridge.tcp => TCPBackend_Device_GetPriority
  | Bridge.usb => USBBackend_Device_GetPriority

/-- The bridge type of a TCP device, `TCPBackend::Device::GetBridgeType`
(TCPBackend.cpp:194-196). -/
def TCPBackend_Device_GetBridgeType : String := "tcp"

/-- Modelled from the spec: `USBBackend::Device::GetBridgeType` (`USBBackend.cpp` is not part of
the sources); the bridge type is `"usb"`. -/
def USBBackend_Device_GetBridgeType : String := "usb"

/-- The virtual `Device::GetBridgeType`. -/
def Device.GetBridgeType (d : Device) : String :=
  match d.bridge with
  | Bridge.tcp => TCPBackend_Device_GetBridgeType
  | Bridge.usb => USBBackend_Device_GetBridgeType

/-! ## Twibd: queue and registries -/

/-- Method `Twibd::PostRequest`: enqueue on the dispatch queue. -/
def Twibd.PostRequest (s : Twibd) (request : Request) : Twibd :=
  { s with dispatch_queue := s.dispatch_queue ++ [Job.request request] }

/-- Method `Twibd::PostResponse`: enqueue on the dispatch queue. -/
def Twibd.PostResponse (s : Twibd) (response : Response) : Twibd :=
  { s with dispatch_queue := s.dispatch_queue ++ [Job.response response] }

/-- Modelled from the spec: `LocalClient::SendRequest` (`LocalClient.cpp` is not part of the
sources) sends the request on behalf of the local system client: it makes the local client the
issuer, gives the request the tag that the client chooses for this call (every request carries
a tag chosen by the client; the tag the caller filled in is replaced), and posts the request to
the dispatcher.  The tag is the next of `local_tags`, and 0 when none is listed; that the pair
of client and tag identifies an outstanding call is a property of the tags listed. -/
def Twibd.LocalClient_SendRequest (s : Twibd) (rq : Request) : Twibd :=
  Twibd.PostRequest { s with local_tags := s.local_tags.tail }
    { rq with client := some s.local_client, tag := s.local_tags.headD 0 }

/-- Method `Twibd::AddDevice` (Twibd.cpp:41-53).  `entry_lock` is `devices[device_id].lock()`; an entry
that `operator[]` has just created holds an empty weak pointer, whose lock is null like that of
a missing entry, and is assigned at once. -/
def Twibd.AddDevice (s : Twibd) (device : Nat) : Option Twibd :=
  match mapFind s.deviceHeap device with
  | none => none
  | some d =>
    let entry_lock : Option Device := (mapFind s.devices d.device_id).bind (mapFind s.deviceHeap)
    let devices :=
      match entry_lock with
      | none => mapAssign d.device_id device s.devices
      | some e =>
        if e.GetPriority ≤ d.GetPriority then mapAssign d.device_id device s.devices
        else s.devices
    some (Twibd.LocalClient_SendRequest { s with devices := devices }
      { client := none, device_id := d.device_id, object_id := 0, command_id := 0xffffffff,
        tag := 0, payload := [] })

/-- Method `Twibd::RemoveDevice` (Twibd.cpp:82-86): `devices.erase(devices.find(device->device_id))`.
Erasing the end iterator is undefined behaviour. -/
def Twibd.RemoveDevice (s : Twibd) (device : Nat) : Option Twibd :=
  match mapFind s.deviceHeap device with
  | none => none
  | some d =>
    match mapFind s.devices d.device_id with
    | none => none
    | some _ => some { s with devices := mapErase d.device_id s.devices }

/-- Method `Twibd::GetClient` (Twibd.cpp:220-240). -/
def Twibd.GetClient (s : Twibd) (client_id : Nat) : Option Nat :=
  match mapFind s.clients client_id with
  | none => none
  | some i =>
    match mapFind s.clientHeap i with
    | none => none
    | some client => if client.deletion_flag then none else some i

/-! ## Wire format and buffers -/

/-- The `width` low bytes of `n`, least significant first. -/
def leBytes : Nat → Nat → List Nat
  | 0, _ => []
  | width + 1, n => (n % 256) :: leBytes width (n / 256)

/-- The number a little-endian byte string stands for. -/
def leValue : List Nat → Nat
  | [] => 0
  | b :: rest => b + 256 * leValue rest

/-- A `protocol::MessageHeader` (declared in `Protocol.hpp`, not part of the sources); the first
word is `device_id` or `client_id`, the third `command_id` or `result_code`, depending on the
direction. -/
structure MessageHeader where
  client_id : Nat
  object_id : Nat
  command_id : Nat
  tag : Nat
  payload_size : Nat
  object_count : Nat
  deriving DecidableEq, Repr

/-- Modelled from the spec: the wire frame header of section 6, four 32-bit words and two 64-bit
words, all little endian, 32 bytes. -/
def MessageHeader.encode (h : MessageHeader) : List Nat :=
  leBytes 4 h.client_id ++ leBytes 4 h.object_id ++ leBytes 4 h.command_id ++ leBytes 4 h.tag
    ++ leBytes 8 h.payload_size ++ leBytes 8 h.object_count

/-- Modelled from the spec: `util::Buffer::Read(size_t&)` (`Buffer.hpp` is not part of the
sources) takes a 64-bit little-endian length off the front of the buffer and fails when fewer
than eight bytes are left. -/
def Buffer_ReadSize (buffer : List Nat) : Option (Nat × List Nat) :=
  if buffer.length < 8 then none else some (leValue (buffer.take 8), buffer.drop 8)

/-- Modelled from the spec: `util::Buffer::Read(std::string&, size_t)` takes `len` bytes off
the front of the buffer and fails when fewer are left. -/
def Buffer_ReadString (buffer : List Nat) (len : Nat) : Option (List Nat × List Nat) :=
  if buffer.length < len then none else some (buffer.take len, buffer.drop len)

/-- Modelled from the spec: command number of `ITwibMetaInterface::Command::LIST_DEVICES`. -/
def LIST_DEVICES : Nat := 10

/-- Modelled from the spec: command number of `ITwibMetaInterface::Command::CONNECT_TCP`. -/
def CONNECT_TCP : Nat := 11

/-! ## Requests and responses -/

/-- Modelled from the spec: `Request::RespondError` (`Messages.cpp` is not part of the sources)
answers the caller: the response carries the issuing client's id, the given result code and the
request's tag (and the request's device and object ids), with no payload and no objects.
Dereferencing a null client is undefined. -/
def Twibd.RespondError (s : Twibd) (rq : Request) (code : Nat) : Option Response :=
  match rq.client.bind (mapFind s.clientHeap) with
  | none => none
  | some client =>
    some { device_id := rq.device_id, client_id := client.client_id, object_id := rq.object_id,
           result_code := code, tag := rq.tag, payload := [], objects := [] }

/-- Modelled from the spec: `Request::RespondOk` is the answer with result code 0. -/
def Twibd.RespondOk (s : Twibd) (rq : Request) : Option Response :=
  s.RespondError rq 0

/-! ## TCP backend -/

/-- Method `TCPBackend::Device::SendRequest` (TCPBackend.cpp:166-188).  `out_buffer` collects what is
written to the connection's output buffer; `PumpOutput`, which moves buffered bytes on to the
socket, is not modelled. -/
def Twibd.TCPBackend_Device_SendRequest (s : Twibd) (dev : Nat) (r : Request) : Option Twibd :=
  let client_id : Option Nat :=
    match r.client with
    | none => some 0xffffffff
    | some c => (mapFind s.clientHeap c).map (fun client => client.client_id)
  match client_id, mapFind s.deviceHeap dev with
  | some cid, some d =>
    let mhdr : MessageHeader :=
      { client_id := cid, object_id := r.object_id, command_id := r.command_id, tag := r.tag,
        payload_size := r.payload.length, object_count := 0 }
    let d1 : Device :=
      { d with pending_requests := d.pending_requests ++ [r.Weak],
               out_buffer := d.out_buffer ++ mhdr.encode ++ r.payload,
               received := d.received ++ [r] }
    some { s with deviceHeap := mapAssign dev d1 s.deviceHeap }
  | _, _ => none

/-- Modelled from the spec: `USBBackend::Device::SendRequest` (`USBBackend.cpp` is not part of
the sources) hands the request to the USB transport; of this only the hand-over is recorded. -/
def Twibd.USBBackend_Device_SendRequest (s : Twibd) (dev : Nat) (r : Request) : Option Twibd :=
  match mapFind s.deviceHeap dev with
  | none => none
  | some d =>
    some { s with deviceHeap := mapAssign dev { d with received := d.received ++ [r] } s.deviceHeap }

/-- The virtual `Device::SendRequest`, dispatched on the transport of the device. -/
def Twibd.Device_SendRequest (s : Twibd) (dev : Nat) (r : Request) : Option Twibd :=
  match mapFind s.deviceHeap dev with
  | none => none
  | some d =>
    match d.bridge with
    | Bridge.tcp => s.TCPBackend_Device_SendRequest dev r
    | Bridge.usb => s.USBBackend_Device_SendRequest dev r

/-- Method `TCPBackend::Device::Begin` (TCPBackend.cpp:108-110). -/
def Twibd.TCPBackend_Device_Begin (env : Env) (s : Twibd) (dev : Nat) : Option Twibd :=
  s.TCPBackend_Device_SendRequest dev
    { client := none, device_id := 0, object_id := 0, command_id := env.IDENTIFY,
      tag := 0xFFFFFFFF, payload := [] }

/-- A freshly constructed TCP device and its connection on socket `fd`: the flags start out
false (as `USBBackend.hpp` declares them for the USB device), nothing is pending or buffered,
and the fields that `Identified` writes are still empty. -/
def Device.fresh (fd : Nat) : Device :=
  { bridge := Bridge.tcp, device_id := 0, identification := MsgPack.nil, deletion_flag := false,
    ready_flag := false, added_flag := false, pending_requests := [], fd := fd, out_buffer := [],
    received := [] }

/-- Method `TCPBackend::Connect(std::string hostname, std::string port)` (TCPBackend.cpp:47-72); the
result is the returned text.  `NotifyEventThread` only wakes the event thread. -/
def Twibd.TCPBackend_Connect (env : Env) (s : Twibd) (hostname port : List Nat) :
    Option (Twibd × List Nat) :=
  match env.connect hostname port with
  | ConnectOutcome.gaiError msg => some (s, msg)
  | ConnectOutcome.socketError msg => some (s, msg)
  | ConnectOutcome.connectError msg => some (s, msg)
  | ConnectOutcome.connected fd =>
    let dev := s.nextRef
    let s1 : Twibd :=
      { s with nextRef := dev + 1,
               deviceHeap := mapAssign dev (Device.fresh fd) s.deviceHeap,
               connections := s.connections ++ [dev] }
    (s1.TCPBackend_Device_Begin env dev).map (fun s2 => (s2, [79, 107]))

/-- Method `TCPBackend::Connect(sockaddr *addr, socklen_t addr_len)` (TCPBackend.cpp:74-98).  The
result holds, next to the state, the targets of the calls of `connect` that were made (none when
the address is not IPv4 or no socket could be created).  `NotifyEventThread` only wakes the event
thread. -/
def Twibd.TCPBackend_Connect_addr (env : Env) (s : Twibd) (addr : SockAddr) :
    Option (Twibd × List SockAddr) :=
  if addr.sa_family = AF_INET then
    let target : SockAddr := { addr with sin_port := 15152 }
    match env.connectTo target with
    | SocketOutcome.socketError => some (s, [])
    | SocketOutcome.connectError => some (s, [target])
    | SocketOutcome.connected fd =>
      let dev := s.nextRef
      let s1 : Twibd :=
        { s with nextRef := dev + 1,
                 deviceHeap := mapAssign dev (Device.fresh fd) s.deviceHeap,
                 connections := s.connections ++ [dev] }
      (s1.TCPBackend_Device_Begin env dev).map (fun s2 => (s2, [target]))
  else some (s, [])

/-- The bytes of the string literal `"twili-announce"`, without the terminating NUL. -/
def announcement : List Nat :=
  [116, 119, 105, 108, 105, 45, 97, 110, 110, 111, 117, 110, 99, 101]

/-- The C string that a `char` buffer holds: the bytes before the first NUL. -/
def cString (buffer : List Nat) : List Nat :=
  buffer.takeWhile (fun b => b != 0)

/-- The listen-socket branch of `TCPBackend::event_thread_func` (TCPBackend.cpp:235-252) for a
datagram with the given payload and source address: `recvfrom` stores at most 255 bytes of the
payload, `buffer[r] = 0` terminates them, and `strcmp` compares the C string in the buffer with
`"twili-announce"`.  The result holds the targets of the calls of `connect` that were made.  (The
address length passed to `recvfrom` is the size of a pointer; the family, the port and the IPv4
address of the source lie within the first eight bytes.) -/
def Twibd.event_thread_datagram (env : Env) (s : Twibd) (payload : List Nat)
    (source : SockAddr) : Option (Twibd × List SockAddr) :=
  let buffer := payload.take 255 ++ [0]
  if cString buffer = announcement then s.TCPBackend_Connect_addr env source
  else some (s, [])

/-! ## Twibd: meta object and dispatcher -/

/-- The element built for one device by the `LIST_DEVICES` loop (Twibd.cpp:183-187). -/
def devicePack (device : Device) : MsgPack :=
  MsgPack.object
    (MsgPackFields.cons "device_id" (MsgPack.uint device.device_id)
      (MsgPackFields.cons "bridge_type" (MsgPack.str device.GetBridgeType)
        (MsgPackFields.cons "identification" device.identification MsgPackFields.nil)))

/-- The `LIST_DEVICES` loop over the registry (Twibd.cpp:180-188).  The locked pointer is
dereferenced without a check: an expired entry is a null pointer dereference. -/
def device_packs (heap : Map Device) : Map Nat → Option (List MsgPack)
  | [] => some []
  | (_, w) :: rest =>
    match mapFind heap w with
    | none => none
    | some device => (device_packs heap rest).map (fun packs => devicePack device :: packs)

/-- Method `Twibd::HandleRequest` (Twibd.cpp:171-218), returning the response and the state after it. -/
def Twibd.HandleRequest (env : Env) (s : Twibd) (rq : Request) : Option (Twibd × Response) :=
  if rq.object_id = 0 then
    if rq.command_id = LIST_DEVICES then
      match s.RespondOk rq, device_packs s.deviceHeap s.devices with
      | some r, some packs =>
        some (s, { r with payload := env.dump (MsgPack.array (MsgPackList.ofList packs)) })
      | _, _ => none
    else if rq.command_id = CONNECT_TCP then
      let parsed : Option (List Nat × List Nat) :=
        (Buffer_ReadSize rq.payload).bind fun (hostname_len, b1) =>
        (Buffer_ReadSize b1).bind fun (port_len, b2) =>
        (Buffer_ReadString b2 hostname_len).bind fun (hostname, b3) =>
        (Buffer_ReadString b3 port_len).bind fun (port, _) =>
        some (hostname, port)
      match parsed with
      | none => (s.RespondError rq env.BAD_REQUEST).map (fun r => (s, r))
      | some (hostname, port) =>
        match s.RespondOk rq with
        | none => none
        | some r =>
          (s.TCPBackend_Connect env hostname port).map
            (fun (s1, msg) => (s1, { r with payload := msg }))
    else (s.RespondError rq env.UNRECOGNIZED_FUNCTION).map (fun r => (s, r))
  else (s.RespondError rq env.UNRECOGNIZED_OBJECT).map (fun r => (s, r))

/-- The disowning loop of `Twibd::Process` (Twibd.cpp:125-134) over `owned_objects`: the objects
kept by the client and the object heap after the loop.  (An address without heap object cannot
be held by a `shared_ptr`; such an entry is stepped over.) -/
def disown (object_id : Nat) : List Nat → Map BridgeObject → List Nat × Map BridgeObject
  | [], heap => ([], heap)
  | i :: rest, heap =>
    match mapFind heap i with
    | none => (i :: (disown object_id rest heap).1, (disown object_id rest heap).2)
    | some obj =>
      if obj.object_id = object_id then
        disown object_id rest (mapAssign i { obj with valid := false } heap)
      else (i :: (disown object_id rest heap).1, (disown object_id rest heap).2)

/-- Whether the disowning loop steps over the entry `o` of `owned_objects` (Twibd.cpp:126): the
object id of its object differs from the one being closed. -/
def keeps (object_id : Nat) (heap : Map BridgeObject) (o : Nat) : Bool :=
  match mapFind heap o with
  | none => true
  | some obj => obj.object_id != object_id

/-- The close-request branch of `Twibd::Process` (Twibd.cpp:120-138) for the client `c`. -/
def Twibd.disownObjects (s : Twibd) (c : Nat) (object_id : Nat) : Twibd :=
  match mapFind s.clientHeap c with
  | none => s
  | some client =>
    let loop := disown object_id client.owned_objects s.objectHeap
    { s with clientHeap := mapAssign c { client with owned_objects := loop.1 } s.clientHeap,
             objectHeap := loop.2 }

/-- The request branch of `Twibd::Process` (Twibd.cpp:95-142).  Line 97 dereferences
`rq.client`, so a request without client is undefined behaviour. -/
def Twibd.ProcessRequest (env : Env) (s : Twibd) (rq : Request) : Option Twibd :=
  match rq.client with
  | none => none
  | some c =>
    match mapFind s.clientHeap c with
    | none => none
    | some _ =>
      if rq.device_id = 0 then
        (s.HandleRequest env rq).map (fun (s1, r) => s1.PostResponse r)
      else
        match mapFind s.devices rq.device_id with
        | none => (s.RespondError rq env.UNRECOGNIZED_DEVICE).map s.PostResponse
        | some i =>
          match mapFind s.deviceHeap i with
          | none => (s.RespondError rq env.UNRECOGNIZED_DEVICE).map s.PostResponse
          | some device =>
            if device.deletion_flag then
              (s.RespondError rq env.UNRECOGNIZED_DEVICE).map s.PostResponse
            else
              let s1 := if rq.command_id = 0xffffffff then s.disownObjects c rq.object_id else s
              s1.Device_SendRequest i rq

/-- The response branch of `Twibd::Process` (Twibd.cpp:143-167). -/
def Twibd.ProcessResponse (s : Twibd) (rs : Response) : Option Twibd :=
  match s.GetClient rs.client_id with
  | none => some s
  | some c =>
    match mapFind s.clientHeap c with
    | none => none
    | some client =>
      let client1 : Client :=
        { client with owned_objects := client.owned_objects ++ rs.objects,
                      posted := client.posted ++ [rs] }
      some { s with clientHeap := mapAssign c client1 s.clientHeap }

/-- Method `Twibd::Process` (Twibd.cpp:88-169): take the next job off the dispatch queue and dispatch
it.  On an empty queue `wait_dequeue` blocks. -/
def Twibd.Process (env : Env) (s : Twibd) : Option Twibd :=
  match s.dispatch_queue with
  | [] => none
  | Job.request rq :: queue => Twibd.ProcessRequest env { s with dispatch_queue := queue } rq
  | Job.response rs :: queue => Twibd.ProcessResponse { s with dispatch_queue := queue } rs

/-- The body of the last loop of `TCPBackend::event_thread_func` after `(*i)->Process()`
(TCPBackend.cpp:274-282) for the connection `i`.  Erasing the connection destroys its device;
`TCPBackend::Device::~Device` (TCPBackend.cpp:105-106) is empty. -/
def Twibd.event_thread_reap (s : Twibd) (i : Nat) : Option Twibd :=
  match mapFind s.deviceHeap i with
  | none => none
  | some obj =>
    if obj.deletion_flag then
      let removed : Option Twibd := if obj.added_flag then s.RemoveDevice i else some s
      removed.map fun s1 =>
        { s1 with connections := s1.connections.filter (fun j => j != i),
                  deviceHeap := mapErase i s1.deviceHeap }
    else some s

/-- The last loop of `TCPBackend::event_thread_func` (TCPBackend.cpp:271-283) over the
connections.  `MessageConnection::Process` is not part of the sources and is the parameter
`process`. -/
def Twibd.event_thread_reap_all (process : Twibd → Nat → Twibd) :
    List Nat → Twibd → Option Twibd
  | [], s => some s
  | i :: rest, s =>
    match Twibd.event_thread_reap (process s i) i with
    | none => none
    | some s1 => Twibd.event_thread_reap_all process rest s1

/-- The registration step of `TCPBackend::event_thread_func` for the connection `c`
(TCPBackend.cpp:215-218): a device that is ready and not yet added is passed to
`Twibd::AddDevice` and marked as added, whether or not the registry stored it. -/
def Twibd.event_thread_add (s : Twibd) (c : Nat) : Option Twibd :=
  match mapFind s.deviceHeap c with
  | none => none
  | some obj =>
    if obj.ready_flag && !obj.added_flag then
      (s.AddDevice c).map fun s1 =>
        { s1 with deviceHeap := mapAssign c { obj with added_flag := true } s1.deviceHeap }
    else some s

/-- The error branch of the i/o loop of `TCPBackend::event_thread_func` (TCPBackend.cpp:257-260):
an error on the socket of connection `i` flags its device for deletion. -/
def Twibd.connection_error (s : Twibd) (i : Nat) : Twibd :=
  match mapFind s.deviceHeap i with
  | none => s
  | some obj => { s with deviceHeap := mapAssign i { obj with deletion_flag := true } s.deviceHeap }

/-! ## TCP backend: incoming messages -/

/-- The first word of a message header read as `device_id` (it shares its place with
`client_id`). -/
def MessageHeader.device_id (h : MessageHeader) : Nat := h.client_id

/-- The third word of a message header read as `result_code` (it shares its place with
`command_id`). -/
def MessageHeader.result_code (h : MessageHeader) : Nat := h.command_id

/-- Field access `obj[key]` of `msgpack11`: the value of the field, the nil value when there is
none. -/
def MsgPackFields.get : MsgPackFields → String → MsgPack
  | MsgPackFields.nil, _ => MsgPack.nil
  | MsgPackFields.cons k v rest, key => if k = key then v else MsgPackFields.get rest key

/-- Field access `obj[key]` of `msgpack11` on a value: nil unless the value is an object. -/
def MsgPack.get (obj : MsgPack) (key : String) : MsgPack :=
  match obj with
  | MsgPack.object kvs => kvs.get key
  | _ => MsgPack.nil

/-- Accessor `string_value()` of `msgpack11`: the empty string unless the value is a string. -/
def MsgPack.string_value : MsgPack → String
  | MsgPack.str v => v
  | _ => ""

/-- Accessor `binary_items()` of `msgpack11`: empty unless the value is binary. -/
def MsgPack.binary_items : MsgPack → List Nat
  | MsgPack.bin b => b
  | _ => []

/-- Modelled from the spec: `util::Buffer::Read(uint32_t&)` (`Buffer.hpp` is not part of the
sources) takes a 32-bit little-endian word off the front of the buffer and fails when fewer than
four bytes are left. -/
def Buffer_ReadU32 (buffer : List Nat) : Option (Nat × List Nat) :=
  if buffer.length < 4 then none else some (leValue (buffer.take 4), buffer.drop 4)

/-- The loop of `IncomingMessage` that creates the `BridgeObject`s (TCPBackend.cpp:121-129) for
`count` object ids read from `object_ids`: the created objects (`none` when the ids run out and
the method returns), the object heap and the next free address.  The objects created before the
ids ran out exist all the same.  The constructor of `BridgeObject` (`BridgeObject.cpp` is not
part of the sources) stores the two ids; the object starts out valid. -/
def createBridgeObjects (device_id : Nat) :
    Nat → List Nat → Map BridgeObject → Nat → Option (List Nat) × Map BridgeObject × Nat
  | 0, _, heap, next => (some [], heap, next)
  | count + 1, object_ids, heap, next =>
    match Buffer_ReadU32 object_ids with
    | none => (none, heap, next)
    | some (id, rest) =>
      let made := createBridgeObjects device_id count rest
        (mapAssign next { device_id := device_id, object_id := id, valid := true } heap)
        (next + 1)
      (made.1.map (fun objects => next :: objects), made.2.1, made.2.2)

/-- Method `TCPBackend::Device::Identified` (TCPBackend.cpp:143-164); the hash is stored into the
`uint32_t device_id`. -/
def Twibd.TCPBackend_Device_Identified (env : Env) (s : Twibd) (dev : Nat) (r : Response) :
    Option Twibd :=
  match mapFind s.deviceHeap dev with
  | none => none
  | some d =>
    if r.result_code ≠ 0 then
      some { s with deviceHeap := mapAssign dev { d with deletion_flag := true } s.deviceHeap }
    else
      let obj := env.parse r.payload
      let sn := (obj.get "serial_number").binary_items
      let d1 : Device :=
        { d with identification := obj,
                 device_nickname := (obj.get "device_nickname").string_value,
                 serial_number := sn,
                 device_id := env.hash sn % 4294967296,
                 ready_flag := true }
      some { s with deviceHeap := mapAssign dev d1 s.deviceHeap }

/-- Method `TCPBackend::Device::IncomingMessage` (TCPBackend.cpp:112-141) of the device `dev` for
a header, the payload and the object-id bytes that came with it. -/
def Twibd.TCPBackend_Device_IncomingMessage (env : Env) (s : Twibd) (dev : Nat)
    (mh : MessageHeader) (payload object_ids : List Nat) : Option Twibd :=
  match mapFind s.deviceHeap dev with
  | none => none
  | some d =>
    let made := createBridgeObjects mh.device_id mh.object_count object_ids s.objectHeap s.nextRef
    let s1 : Twibd := { s with objectHeap := made.2.1, nextRef := made.2.2 }
    match made.1 with
    | none => some s1
    | some objects =>
      let response_in : Response :=
        { device_id := d.device_id, client_id := mh.client_id, object_id := mh.object_id,
          result_code := mh.result_code, tag := mh.tag, payload := payload,
          objects := objects }
      let d1 : Device :=
        { d with pending_requests := d.pending_requests.filter
                   (fun r => r.tag != response_in.tag) }
      let s2 : Twibd := { s1 with deviceHeap := mapAssign dev d1 s1.deviceHeap }
      if response_in.client_id = 0xFFFFFFFF then
        s2.TCPBackend_Device_Identified env dev response_in
      else some (s2.PostResponse response_in)

/-! ## Framing -/

/-- The object ids of a frame on the wire (section 6 of the spec): 32-bit little-endian words. -/
def encodeObjectIds : List Nat → List Nat
  | [] => []
  | id :: rest => leBytes 4 id ++ encodeObjectIds rest

/-- The frame of a header, a payload and object ids on the wire (section 6 of the spec): header,
payload bytes, object ids. -/
def encodeFrame (h : MessageHeader) (payload object_ids : List Nat) : List Nat :=
  h.encode ++ payload ++ encodeObjectIds object_ids

/-- Modelled from the spec: reading a header off the wire, the inverse of `MessageHeader.encode`
on the 32 bytes of a header. -/
def MessageHeader.decode (bytes : List Nat) : MessageHeader :=
  { client_id := leValue (bytes.take 4),
    object_id := leValue ((bytes.drop 4).take 4),
    command_id := leValue ((bytes.drop 8).take 4),
    tag := leValue ((bytes.drop 12).take 4),
    payload_size := leValue ((bytes.drop 16).take 8),
    object_count := leValue ((bytes.drop 24).take 8) }

/-- Modelled from the spec: the default maximum of `payload_size` in strict parsing, 256 MiB. -/
def MAX_PAYLOAD_SIZE : Nat := 268435456

/-- Modelled from the spec: the default maximum of `object_count` in strict parsing, 64. -/
def MAX_OBJECT_COUNT : Nat := 64

/-- What parsing the inbound buffer of a connection yields. -/
inductive Parsed where
  | incomplete
  | oversized
  | frame (mh : MessageHeader) (payload object_ids rest : List Nat)
  deriving DecidableEq, Repr

/-- Modelled from the spec: the parsing step of `MessageConnection::Process`
(`MessageConnection.hpp` is not part of the sources), section 4.1.  Parsing is strict: a
`payload_size` or `object_count` above the configured maximum flags the connection for
deletion; a frame becomes available exactly when header, payload and `object_count` times four
bytes are present; a partial frame remains buffered. -/
def MessageConnection_parse (max_payload_size max_object_count : Nat) (in_buffer : List Nat) :
    Parsed :=
  if in_buffer.length < 32 then Parsed.incomplete
  else
    let mh := MessageHeader.decode (in_buffer.take 32)
    if max_payload_size < mh.payload_size ∨ max_object_count < mh.object_count then
      Parsed.oversized
    else if in_buffer.length < 32 + mh.payload_size + 4 * mh.object_count then
      Parsed.incomplete
    else
      Parsed.frame mh ((in_buffer.drop 32).take mh.payload_size)
        ((in_buffer.drop (32 + mh.payload_size)).take (4 * mh.object_count))
        (in_buffer.drop (32 + mh.payload_size + 4 * mh.object_count))

/-- The object ids that the loops of the `IncomingMessage` methods read (TCPBackend.cpp:122-129,
Twib.cpp:107-114): `count` 32-bit words, `none` when the buffer runs out. -/
def readObjectIds : Nat → List Nat → Option (List Nat)
  | 0, _ => some []
  | count + 1, object_ids =>
    match Buffer_ReadU32 object_ids with
    | none => none
    | some (id, rest) => (readObjectIds count rest).map (fun ids => id :: ids)

/-! ## The client library (twib) -/

/-- A `twib::Request`. -/
structure TwibRequest where
  device_id : Nat
  object_id : Nat
  command_id : Nat
  tag : Nat
  payload : List Nat
  deriving DecidableEq, Repr

/-- A `twib::Response`; `objects` are the `RemoteObject`s made for it, each with its device id
and object id. -/
structure TwibResponse where
  device_id : Nat
  object_id : Nat
  result_code : Nat
  tag : Nat
  payload : List Nat
  objects : List (Nat × Nat)
  deriving DecidableEq, Repr

/-- The shared state of a `std::promise<Response>` and its future: not yet set, set to a value,
or abandoned by its promise (the future then throws `broken_promise`). -/
inductive PromiseState where
  | pending
  | ready (r : TwibResponse)
  | broken
  deriving DecidableEq, Repr

/-- A `twib::Client` with the output buffer of its connection: `response_map` maps a tag to the
promise of the call, `promises` holds the shared states by address. -/
structure TwibClient where
  response_map : Map Nat
  out_buffer : List Nat
  promises : Map PromiseState
  nextPromise : Nat
  deriving DecidableEq, Repr

/-- Abandoning the promise at address `p`, as the destructor and the move assignment of
`std::promise` do: a shared state that is not yet set becomes broken. -/
def abandonPromise (promises : Map PromiseState) (p : Nat) : Map PromiseState :=
  match mapFind promises p with
  | some PromiseState.pending => mapAssign p PromiseState.broken promises
  | _ => promises

/-- Method `twib::Client::SendRequest` (Twib.cpp:139-169) when `rng()` returns `draw`; the result
is the client and the future (the address of its shared state).  The assignment
`response_map[tag] = std::move(promise)` abandons the promise that was stored under the tag. -/
def TwibClient.SendRequest (c : TwibClient) (rq : TwibRequest) (draw : Nat) :
    TwibClient × Nat :=
  let tag := draw % 4294967296
  let rq1 : TwibRequest := { rq with tag := tag }
  let future := c.nextPromise
  let promises1 := mapAssign future PromiseState.pending c.promises
  let promises2 :=
    match mapFind c.response_map tag with
    | none => promises1
    | some old => abandonPromise promises1 old
  let mh : MessageHeader :=
    { client_id := rq1.device_id, object_id := rq1.object_id, command_id := rq1.command_id,
      tag := rq1.tag, payload_size := rq1.payload.length, object_count := 0 }
  ({ response_map := mapAssign tag future c.response_map,
     out_buffer := c.out_buffer ++ mh.encode ++ rq1.payload,
     promises := promises2,
     nextPromise := future + 1 }, future)

/-- Method `twib::Client::IncomingMessage` (Twib.cpp:104-137). -/
def TwibClient.IncomingMessage (c : TwibClient) (mh : MessageHeader)
    (payload object_ids : List Nat) : TwibClient :=
  match readObjectIds mh.object_count object_ids with
  | none => c
  | some ids =>
    match mapFind c.response_map mh.tag with
    | none => c
    | some promise =>
      let response : TwibResponse :=
        { device_id := mh.device_id, object_id := mh.object_id, result_code := mh.result_code,
          tag := mh.tag, payload := payload,
          objects := ids.map (fun id => (mh.device_id, id)) }
      { c with response_map := mapErase mh.tag c.response_map,
               promises := mapAssign promise (PromiseState.ready response) c.promises }

/-- A header whose words fit their fields: four 32-bit words and two 64-bit words. -/
def MessageHeader.fits (h : MessageHeader) : Prop :=
  h.client_id < 4294967296 ∧ h.object_id < 4294967296 ∧ h.command_id < 4294967296 ∧
  h.tag < 4294967296 ∧ h.payload_size < 18446744073709551616 ∧
  h.object_count < 18446744073709551616

/-! ## Twibd: the client map -/

/-- The loop of `Twibd::AddClient` (Twibd.cpp:58-61), `do client_id = rng(); while` the id is a
key of the client map.  The list holds the values the successive calls of `rng()` return, each
stored into the `uint32_t client_id`; the result is `none` when the loop is still running after
all of them. -/
def drawClientId (clients : Map Nat) : List Nat → Option Nat
  | [] => none
  | x :: rest =>
    match mapFind clients (x % 4294967296) with
    | none => some (x % 4294967296)
    | some _ => drawClientId clients rest

/-- Method `Twibd::AddClient` (Twibd.cpp:55-66) for the values `rng` that the random generator
returns. -/
def Twibd.AddClient (s : Twibd) (client : Nat) (rng : List Nat) : Option Twibd :=
  match mapFind s.clientHeap client, drawClientId s.clients rng with
  | some cl, some client_id =>
    some { s with clientHeap := mapAssign client { cl with client_id := client_id } s.clientHeap,
                  clients := mapAssign client_id client s.clients }
  | _, _ => none

/-- Method `Twibd::RemoveClient` (Twibd.cpp:76-80): `clients.erase(clients.find(client_id))`.
Erasing the end iterator is undefined behaviour. -/
def Twibd.RemoveClient (s : Twibd) (client : Nat) : Option Twibd :=
  match mapFind s.clientHeap client with
  | none => none
  | some cl =>
    match mapFind s.clients cl.client_id with
    | none => none
    | some _ => some { s with clients := mapErase cl.client_id s.clients }

/-- Every live client in the client map is registered under the id it carries. -/
def Twibd.clientsCarryTheirId (s : Twibd) : Prop :=
  ∀ k c cl, mapFind s.clients k = some c → mapFind s.clientHeap c = some cl → cl.client_id = k

/-- No two different live clients in the client map carry the same `client_id`. -/
def Twibd.clientIdsDistinct (s : Twibd) : Prop :=
  ∀ k1 k2 c1 c2 cl1 cl2, mapFind s.clients k1 = some c1 → mapFind s.clients k2 = some c2 →
    mapFind s.clientHeap c1 = some cl1 → mapFind s.clientHeap c2 = some cl2 →
    c1 ≠ c2 → cl1.client_id ≠ cl2.client_id

/-! ## Frontends -/

/-- A `sockaddr_in6`: family, port (in host byte order), flow information, the 16 bytes of the
address, scope id. -/
structure SockAddrIn6 where
  sin6_family : Nat
  sin6_port : Nat
  sin6_flowinfo : Nat
  sin6_addr : List Nat
  sin6_scope_id : Nat
  deriving DecidableEq, Repr

/-- The address family of IPv6 (its value on Linux). -/
def AF_INET6 : Nat := 10

/-- The socket type of a byte stream. -/
def SOCK_STREAM : Nat := 1

/-- The IPv6 wildcard address `in6addr_any`, `::`. -/
def in6addr_any : List Nat := List.replicate 16 0

/-- The IPv6 loopback address `in6addr_loopback`, `::1`. -/
def in6addr_loopback : List Nat := List.replicate 15 0 ++ [1]

/-- What the constructor of `frontend::SocketFrontend` is given (`SocketFrontend.cpp` is not
part of the sources): address family, socket type and the address to listen on. -/
structure SocketFrontend where
  address_family : Nat
  socktype : Nat
  addr : SockAddrIn6
  deriving DecidableEq, Repr

/-- Function `CreateTCPFrontend` (Twibd.cpp:243-250) for a `uint16_t port`: the address is zeroed
by `memset`, then family, port and address are set. -/
def CreateTCPFrontend (port : Nat) : SocketFrontend :=
  { address_family := AF_INET6, socktype := SOCK_STREAM,
    addr := { sin6_family := AF_INET6, sin6_port := port % 65536, sin6_flowinfo := 0,
              sin6_addr := in6addr_any, sin6_scope_id := 0 } }

/-! ## Device side: the pipe reader object -/

/-- A call on the `bridge::ResponseOpener` of a request or on the response writer it returns
(`ResponseOpener.hpp` is not part of the sources); the calls are recorded as they are made. -/
inductive OpenerCall where
  | BeginError (code : Nat)
  | BeginOk (payload_size : Nat)
  | Write (data : List Nat)
  | Finalize
  deriving DecidableEq, Repr

/-- What `TwibPipe::Read` (`TwibPipe.cpp` is not part of the sources) does with the callback it
is given: it calls it with the bytes it delivers, or it keeps it for later. -/
inductive PipeRead where
  | delivers (data : List Nat)
  | holds
  deriving DecidableEq, Repr

/-- The constants of `err.hpp` and `Protocol.hpp` that the pipe reader uses. -/
structure PipeReaderCodes where
  READ : Nat
  TWILI_ERR_EOF : Nat
  TWILI_ERR_BAD_REQUEST : Nat
  TWILI_ERR_PROTOCOL_UNRECOGNIZED_FUNCTION : Nat
  deriving DecidableEq, Repr

/-- What a call of `ITwibPipeReader::HandleRequest` did: the calls on the opener, the
`ResultError` thrown, and the number of bytes the callback reported to the pipe as consumed. -/
structure PipeReaderOutcome where
  calls : List OpenerCall
  thrown : Option Nat
  consumed : Option Nat
  deriving DecidableEq, Repr

/-- The callback `ITwibPipeReader::Read` hands to the pipe (ITwibPipeReader.cpp:32-41), called
with `data` of `actual_size` bytes: the calls on the opener and the returned size. -/
def ITwibPipeReader_Read_callback (codes : PipeReaderCodes) (data : List Nat) :
    List OpenerCall × Nat :=
  let actual_size := data.length
  if actual_size = 0 then
    ([OpenerCall.BeginError codes.TWILI_ERR_EOF, OpenerCall.Finalize], actual_size)
  else
    ([OpenerCall.BeginOk actual_size, OpenerCall.Write data, OpenerCall.Finalize], actual_size)

/-- Method `ITwibPipeReader::Read` (ITwibPipeReader.cpp:25-45); `pipe` is what `pipe.lock()`
gives, `none` for an expired pipe. -/
def ITwibPipeReader_Read (codes : PipeReaderCodes) (pipe : Option PipeRead)
    (payload : List Nat) : PipeReaderOutcome :=
  if payload.length ≠ 0 then
    { calls := [], thrown := some codes.TWILI_ERR_BAD_REQUEST, consumed := none }
  else
    match pipe with
    | some (PipeRead.delivers data) =>
      { calls := (ITwibPipeReader_Read_callback codes data).1, thrown := none,
        consumed := some (ITwibPipeReader_Read_callback codes data).2 }
    | some PipeRead.holds => { calls := [], thrown := none, consumed := none }
    | none =>
      { calls := [OpenerCall.BeginError codes.TWILI_ERR_EOF, OpenerCall.Finalize],
        thrown := none, consumed := none }

/-- Method `ITwibPipeReader::HandleRequest` (ITwibPipeReader.cpp:14-23). -/
def ITwibPipeReader_HandleRequest (codes : PipeReaderCodes) (pipe : Option PipeRead)
    (command_id : Nat) (payload : List Nat) : PipeReaderOutcome :=
  if command_id = codes.READ then ITwibPipeReader_Read codes pipe payload
  else
    { calls := [OpenerCall.BeginError codes.TWILI_ERR_PROTOCOL_UNRECOGNIZED_FUNCTION,
                OpenerCall.Finalize],
      thrown := none, consumed := none }

/-! ## Device side: the socket thread of the TCP bridge -/

/-- The `revents` of a `pollfd` after `bsd_poll`, as far as the socket thread looks at them:
whether `POLLIN` is set, and whether one of `POLLERR`, `POLLHUP`, `POLLNVAL` is set. -/
structure Revents where
  pollin : Bool
  fault : Bool
  deriving DecidableEq, Repr

/-- A `TCPBridge::Connection`: its socket, its `deletion_flag`, and the number of calls of
`PumpInput` on it. -/
structure BridgeConnection where
  fd : Nat
  deletion_flag : Bool
  pumped : Nat
  deriving DecidableEq, Repr

/-- The per-connection loop of `TCPBridge::SocketThread` (TCPBridge.cpp:145-156), from the index
`fdi` on over the connections that are left: the indices at which `fds` was read, and the
connections that stay in the list.  A connection with an error is erased, and `continue` still
runs the `fdi++` of the loop header.  Reading `fds[fdi]` outside the vector is undefined: the
loop result is `none` from there. -/
def TCPBridge_pollLoop (fds : List Revents) :
    Nat → List BridgeConnection → List Nat × Option (List BridgeConnection)
  | _, [] => ([], some [])
  | fdi, ci :: rest =>
    match fds[fdi]? with
    | none => ([fdi], none)
    | some r =>
      let tail := TCPBridge_pollLoop fds (fdi + 1) rest
      if r.fault then (fdi :: tail.1, tail.2)
      else
        (fdi :: tail.1,
          tail.2.map (fun l => (if r.pollin then { ci with pumped := ci.pumped + 1 } else ci) :: l))

/-- One pass of the loop body of `TCPBridge::SocketThread` from the construction of `fds` on
(TCPBridge.cpp:102-156), when `bsd_poll` succeeds: `poll i` is what `bsd_poll` reports for
`fds[i]`, `accepted` the socket `bsd_accept` returns (`none` for a negative one).  The result is
the size of `fds`, the indices at which the per-connection loop read `fds`, and the connections
afterwards. -/
def TCPBridge_SocketThread_pass (connections : List BridgeConnection) (poll : Nat → Revents)
    (accepted : Option Nat) : Nat × List Nat × Option (List BridgeConnection) :=
  let fds := (List.range (1 + connections.length)).map poll
  if (poll 0).fault then (fds.length, [], some connections)
  else
    let connections1 :=
      if (poll 0).pollin then
        match accepted with
        | none => connections
        | some fd => connections ++ [{ fd := fd, deletion_flag := false, pumped := 0 }]
      else connections
    let loop := TCPBridge_pollLoop fds 1 connections1
    (fds.length, loop.1, loop.2)

/-! ## TCP backend: the event loop -/

/-- The calls of the event thread that make up the lifecycle of a device: the two calls into
the registry, and `connections.erase(i)`, which destroys the connection and its device. -/
inductive LifecycleCall where
  | AddDevice (dev : Nat)
  | RemoveDevice (dev : Nat)
  | erase (dev : Nat)
  deriving DecidableEq, Repr

/-- What a pass of the event loop finds on one connection: whether `select` reports an error on
its socket, the complete frames its input buffer holds when `Process` runs, and whether an
oversized header follows them. -/
structure Arrival where
  error : Bool
  frames : List (MessageHeader × List Nat × List Nat)
  oversized : Bool

/-- What a pass of the event loop finds: the datagram on the listen socket, if there is one, and
the state of each connection. -/
structure LoopInput where
  datagram : Option (List Nat × SockAddr)
  arrival : Nat → Arrival

/-- The calls made so far and the state reached; the state is `none` once the behaviour is
undefined. -/
abbrev Traced := List LifecycleCall × Option Twibd

/-- Sequencing: `f` runs in the state reached, and its calls follow the calls made so far. -/
def Traced.andThen (t : Traced) (f : Twibd → Traced) : Traced :=
  match t.2 with
  | none => t
  | some s => (t.1 ++ (f s).1, (f s).2)

/-- A loop over connections: `f` for each of them in turn. -/
def forEachConnection (f : Nat → Twibd → Traced) : List Nat → Twibd → Traced
  | [], s => ([], some s)
  | c :: rest, s => (f c s).andThen (forEachConnection f rest)

/-- The registration step of the event thread for the connection `c` (TCPBackend.cpp:215-218)
with the call it makes. -/
def Twibd.event_thread_add_logged (s : Twibd) (c : Nat) : Traced :=
  match mapFind s.deviceHeap c with
  | none => ([], none)
  | some obj =>
    if obj.ready_flag && !obj.added_flag then
      ([LifecycleCall.AddDevice c], s.event_thread_add c)
    else ([], some s)

/-- The listen-socket branch of the event thread (TCPBackend.cpp:235-252) when `select` reports
the datagram, if any. -/
def Twibd.event_thread_listen (env : Env) (s : Twibd) :
    Option (List Nat × SockAddr) → Option Twibd
  | none => some s
  | some (payload, source) => (s.event_thread_datagram env payload source).map Prod.fst

/-- The error branch of the i/o loop of the event thread (TCPBackend.cpp:255-261) over the
connections: a connection with an error on its socket has its device flagged for deletion.
`PumpOutput` and `PumpInput` move bytes between the socket and the buffers. -/
def Twibd.event_thread_pump (s : Twibd) (input : LoopInput) : Twibd :=
  s.connections.foldl
    (fun s1 mc => if (input.arrival mc).error then s1.connection_error mc else s1) s

/-- Modelled from the spec: `MessageConnection::Process` (not part of the sources) hands the
complete frames of the input buffer to `IncomingMessage`, one after the other. -/
def Twibd.MessageConnection_frames (env : Env) (i : Nat) :
    List (MessageHeader × List Nat × List Nat) → Twibd → Option Twibd
  | [], s => some s
  | (mh, payload, object_ids) :: rest, s =>
    (s.TCPBackend_Device_IncomingMessage env i mh payload object_ids).bind
      (Twibd.MessageConnection_frames env i rest)

/-- Modelled from the spec: `MessageConnection::Process` delivers the complete frames and flags
the connection for deletion when the header that follows is oversized. -/
def Twibd.MessageConnection_Process (env : Env) (s : Twibd) (i : Nat) (arrival : Arrival) :
    Option Twibd :=
  (Twibd.MessageConnection_frames env i arrival.frames s).map fun s1 =>
    if arrival.oversized then s1.connection_error i else s1

/-- The body of the last loop of the event thread after `(*i)->Process()`
(TCPBackend.cpp:274-282) with the calls it makes; a call of `RemoveDevice` whose behaviour is
undefined is the last call. -/
def Twibd.event_thread_reap_logged (s : Twibd) (i : Nat) : Traced :=
  match mapFind s.deviceHeap i with
  | none => ([], none)
  | some obj =>
    if obj.deletion_flag then
      if obj.added_flag then
        match s.RemoveDevice i with
        | none => ([LifecycleCall.RemoveDevice i], none)
        | some _ => ([LifecycleCall.RemoveDevice i, LifecycleCall.erase i], s.event_thread_reap i)
      else ([LifecycleCall.erase i], s.event_thread_reap i)
    else ([], some s)

/-- The last loop of the event thread (TCPBackend.cpp:271-283) for the connection `i`. -/
def Twibd.event_thread_finish (env : Env) (input : LoopInput) (i : Nat) (s : Twibd) : Traced :=
  Traced.andThen ([], s.MessageConnection_Process env i (input.arrival i))
    (fun s1 => s1.event_thread_reap_logged i)

/-- One pass of the loop of `TCPBackend::event_thread_func` (TCPBackend.cpp:203-284): the
registration loop, the listen socket, the i/o loop and the last loop, each over the connections
there are when it starts. -/
def Twibd.event_thread_pass (env : Env) (input : LoopInput) (s : Twibd) : Traced :=
  Traced.andThen (forEachConnection (fun c s0 => s0.event_thread_add_logged c) s.connections s)
    fun s1 =>
  Traced.andThen ([], s1.event_thread_listen env input.datagram) fun s2 =>
  forEachConnection (Twibd.event_thread_finish env input) (s2.event_thread_pump input).connections
    (s2.event_thread_pump input)

/-- What happens in a run of the event loop: a pass of the loop, or, between two passes, a
connection that the dispatcher opens for a `CONNECT_TCP` request (Twibd.cpp:209). -/
inductive LoopEvent where
  | pass (input : LoopInput)
  | connect (hostname port : List Nat)

/-- One event of a run with the calls of the event thread in it. -/
def Twibd.event_thread_event (env : Env) (s : Twibd) : LoopEvent → Traced
  | LoopEvent.pass input => s.event_thread_pass env input
  | LoopEvent.connect hostname port =>
    ([], (s.TCPBackend_Connect env hostname port).map Prod.fst)

/-- A run of the event loop: the events in turn. -/
def Twibd.event_thread_run (env : Env) : List LoopEvent → Twibd → Traced
  | [], s => ([], some s)
  | event :: rest, s =>
    Traced.andThen (s.event_thread_event env event) (Twibd.event_thread_run env rest)

/-- Property of a log of calls: `AddDevice` is called at most once for each device. -/
def addedAtMostOnce (log : List LifecycleCall) : Prop :=
  ∀ dev, log.count (LifecycleCall.AddDevice dev) ≤ 1

/-- Property of a log of calls: before every call of `RemoveDevice` for a device there is a call
of `AddDevice` for that device. -/
def removedAfterAdded (log : List LifecycleCall) : Prop :=
  ∀ pre dev post, log = pre ++ LifecycleCall.RemoveDevice dev :: post →
    LifecycleCall.AddDevice dev ∈ pre

/-- Property of a log of calls: every call of `RemoveDevice` for a device is directly followed
by the erasure of its connection. -/
def erasedAfterRemoved (log : List LifecycleCall) : Prop :=
  ∀ pre dev post, log = pre ++ LifecycleCall.RemoveDevice dev :: post →
    ∃ post1, post = LifecycleCall.erase dev :: post1

/-- What the event loop keeps true of the state and the calls made so far: the connections are
distinct addresses that have been handed out, a device added was at an address handed out, and a
device of a connection has `added_flag` exactly when `AddDevice` was called for it. -/
def Twibd.lifecycleInvariant (s : Twibd) (log : List LifecycleCall) : Prop :=
  s.connections.Nodup ∧
  (∀ c ∈ s.connections, c < s.nextRef) ∧
  (∀ c, LifecycleCall.AddDevice c ∈ log → c < s.nextRef) ∧
  (∀ c ∈ s.connections, ∀ d, mapFind s.deviceHeap c = some d →
    (d.added_flag = true ↔ LifecycleCall.AddDevice c ∈ log))

/-- The calls of `t`, made after the calls `log`, keep the two properties of the log, and the
state reached, when it is defined, satisfies the invariant of the event loop. -/
def Traced.lawful (log : List LifecycleCall) (t : Traced) : Prop :=
  addedAtMostOnce (log ++ t.1) ∧ removedAfterAdded (log ++ t.1) ∧
  ∀ s, t.2 = some s → s.lifecycleInvariant (log ++ t.1)

/-- The calls of `t` are tidy when, unless the behaviour became undefined, every call of
`RemoveDevice` is directly followed by the erasure of the connection. -/
def Traced.tidy (t : Traced) : Prop :=
  t.2 ≠ none → erasedAfterRemoved t.1

/-- The state `s1` arises from `s` by changes that keep the connection list and the `added_flag`
of every device there is, and hand out addresses upwards. -/
def Twibd.sameLifecycle (s s1 : Twibd) : Prop :=
  s1.connections = s.connections ∧ s.nextRef ≤ s1.nextRef ∧
  ∀ c d1, mapFind s1.deviceHeap c = some d1 →
    ∃ d, mapFind s.deviceHeap c = some d ∧ d1.added_flag = d.added_flag

/-! ## Example states -/

/-- A USB device with device id 5 that has been identified and added. -/
def exampleUsb : Device :=
  { bridge := Bridge.usb, device_id := 5, identification := MsgPack.nil, deletion_flag := false,
    ready_flag := true, added_flag := true, pending_requests := [], fd := 0, out_buffer := [],
    received := [] }

/-- A TCP device with the same device id 5, identified on socket 4. -/
def exampleTcp : Device :=
  { bridge := Bridge.tcp, device_id := 5, identification := MsgPack.nil, deletion_flag := false,
    ready_flag := true, added_flag := false, pending_requests := [], fd := 4, out_buffer := [],
    received := [] }

/-- A second TCP connection to the same console (device id 5), on socket 7. -/
def exampleTcpSecond : Device :=
  { exampleTcp with fd := 7 }

/-- The local client, registered under the client id 9. -/
def exampleLocalClient : Client :=
  { client_id := 9, deletion_flag := false, owned_objects := [], posted := [] }

/-- A daemon in which the USB device (address 1) is registered under id 5, and two TCP devices
(addresses 2 and 6) for the same console have just been identified. -/
def exampleState : Twibd :=
  { devices := [(5, 1)], clients := [(9, 3)], dispatch_queue := [], local_client := 3,
    connections := [2, 6],
    deviceHeap := [(1, exampleUsb), (2, exampleTcp), (6, exampleTcpSecond)],
    clientHeap := [(3, exampleLocalClient)], objectHeap := [], nextRef := 10 }

/-- The same daemon with an empty registry. -/
def exampleEmptyRegistry : Twibd :=
  { exampleState with devices := [] }

/-- The same daemon with the TCP device (address 2) registered under id 5. -/
def exampleTcpRegistered : Twibd :=
  { exampleState with devices := [(5, 2)] }

/-- An environment for the examples: the numeric values of the constants are placeholders, the
serialiser is trivial, every connection attempt fails in the resolver, the parser reads the
whole payload as the serial number, and the hash is a polynomial one. -/
def exampleEnv : Env :=
  { UNRECOGNIZED_DEVICE := 1001, UNRECOGNIZED_OBJECT := 1002, UNRECOGNIZED_FUNCTION := 1003,
    BAD_REQUEST := 1004, IDENTIFY := 16, dump := fun _ => [],
    connect := fun _ _ => ConnectOutcome.gaiError [],
    connectTo := fun target =>
      if target.sin_addr = 2130706433 then SocketOutcome.connected 9
      else SocketOutcome.connectError,
    parse := fun payload =>
      MsgPack.object
        (MsgPackFields.cons "device_nickname" (MsgPack.str "console")
          (MsgPackFields.cons "serial_number" (MsgPack.bin payload) MsgPackFields.nil)),
    hash := fun bytes => bytes.foldl (fun h b => 31 * h + b) 7 }

/-- A request of the local client (address 3) to object 0 of device 5. -/
def exampleRequest : Request :=
  { client := some 3, device_id := 5, object_id := 0, command_id := 12, tag := 77, payload := [] }

/-- The example daemon with `exampleRequest` as the next job. -/
def exampleQueued : Twibd :=
  { exampleState with dispatch_queue := [Job.request exampleRequest] }

/-- A frontend client at address 4, registered under the client id 21, owning object 30. -/
def exampleClient : Client :=
  { client_id := 21, deletion_flag := false, owned_objects := [30], posted := [] }

/-- A response for client 21 that carries the new object at address 31. -/
def exampleResponse : Response :=
  { device_id := 5, client_id := 21, object_id := 0, result_code := 0, tag := 78, payload := [1],
    objects := [31] }

/-- A response for a client id that is not registered. -/
def exampleStrayResponse : Response :=
  { exampleResponse with client_id := 22 }

/-- A daemon with the local client and the frontend client, the objects 30 (object id 7) and 31
(object id 8) of device 5, and `exampleResponse` as the next job. -/
def exampleResponding : Twibd :=
  { exampleState with
    clients := [(9, 3), (21, 4)],
    clientHeap := [(3, exampleLocalClient), (4, exampleClient)],
    objectHeap := [(30, { device_id := 5, object_id := 7, valid := true }),
                   (31, { device_id := 5, object_id := 8, valid := true })],
    dispatch_queue := [Job.response exampleResponse] }

/-- The same daemon with `exampleStrayResponse` as the next job. -/
def exampleStray : Twibd :=
  { exampleResponding with dispatch_queue := [Job.response exampleStrayResponse] }

/-- The close request of client 21 (address 4) for object id 7 of device 5. -/
def exampleCloseRequest : Request :=
  { client := some 4, device_id := 5, object_id := 7, command_id := 0xffffffff, tag := 80,
    payload := [] }

/-- The daemon of `exampleResponding` with `exampleCloseRequest` as the next job. -/
def exampleClosing : Twibd :=
  { exampleResponding with dispatch_queue := [Job.request exampleCloseRequest] }

/-- The request `TCPBackend::Device::Begin` sends (TCPBackend.cpp:109). -/
def identifyRequest (env : Env) : Request :=
  { client := none, device_id := 0, object_id := 0, command_id := env.IDENTIFY,
    tag := 0xFFFFFFFF, payload := [] }

/-- A `LIST_DEVICES` request of client 21 (address 4) to the meta object. -/
def exampleListRequest : Request :=
  { client := some 4, device_id := 0, object_id := 0, command_id := 10, tag := 81, payload := [] }

/-- The daemon of `exampleResponding` with `exampleListRequest` as the next job. -/
def exampleListing : Twibd :=
  { exampleResponding with dispatch_queue := [Job.request exampleListRequest] }

/-- The TCP device after the event thread has added it to the registry. -/
def exampleTcpAdded : Device :=
  { exampleTcp with added_flag := true }

/-- A request of client 21 (address 4) to device 5 with the tag 0xDEADBEEF. -/
def exampleDeadbeef : Request :=
  { client := some 4, device_id := 5, object_id := 0, command_id := 12, tag := 0xDEADBEEF,
    payload := [] }

/-- A daemon whose only device is the TCP device (address 2), registered under id 5, with
`exampleDeadbeef` as the next job. -/
def examplePending : Twibd :=
  { exampleResponding with
    devices := [(5, 2)], connections := [2], deviceHeap := [(2, exampleTcpAdded)],
    dispatch_queue := [Job.request exampleDeadbeef] }

/-- The run in which the request is dispatched to the TCP device, the connection then fails,
and the event thread, with no input left to process on the connection, tears the device
down. -/
def exampleTeardown : Option Twibd :=
  (examplePending.Process exampleEnv).bind fun s1 =>
    Twibd.event_thread_reap_all (fun s _ => s) s1.connections (s1.connection_error 2)

/-- The run in which the event thread registers the TCP device (address 2) while the USB device
of the same console is registered, the TCP connection then fails, and the event thread tears
the TCP device down. -/
def exampleShadowRemoval : Option Twibd :=
  (exampleState.event_thread_add 2).bind fun s1 =>
    Twibd.event_thread_reap (s1.connection_error 2) 2

/-- The arguments `CONNECT_TCP` reads from its payload (Twibd.cpp:197-205): two lengths, then the
host name and the port of those lengths; `none` when one of the four reads fails. -/
def connectTcpArguments (payload : List Nat) : Option (List Nat × List Nat) :=
  (Buffer_ReadSize payload).bind fun (hostname_len, b1) =>
  (Buffer_ReadSize b1).bind fun (port_len, b2) =>
  (Buffer_ReadString b2 hostname_len).bind fun (hostname, b3) =>
  (Buffer_ReadString b3 port_len).bind fun (port, _) =>
  some (hostname, port)

/-- A request of client 21 (address 4) to the meta object with a command it does not have. -/
def exampleUnknownRequest : Request :=
  { client := some 4, device_id := 0, object_id := 0, command_id := 12, tag := 82, payload := [] }

/-- The payload of a `CONNECT_TCP` request for the host `a` (one byte) and the port `80` (two
bytes). -/
def exampleConnectPayload : List Nat :=
  [1, 0, 0, 0, 0, 0, 0, 0, 2, 0, 0, 0, 0, 0, 0, 0, 97, 56, 48]

/-- A `CONNECT_TCP` request of client 21 (address 4). -/
def exampleConnectRequest : Request :=
  { client := some 4, device_id := 0, object_id := 0, command_id := 11, tag := 83,
    payload := exampleConnectPayload }

/-- A daemon in which the frontend client at address 4 has been constructed but not yet
registered; the local client is registered under id 9. -/
def exampleUnregistered : Twibd :=
  { exampleResponding with clients := [(9, 3)], dispatch_queue := [] }

/-- A TCP device on socket 4 that has sent its identification request and is waiting for the
answer. -/
def exampleTcpBegun : Device :=
  { Device.fresh 4 with pending_requests := [{ client := none, tag := 0xFFFFFFFF }] }

/-- A daemon whose only connection is the TCP device of `exampleTcpBegun` at address 2. -/
def exampleIdentifying : Twibd :=
  { exampleResponding with
    devices := [], connections := [2], deviceHeap := [(2, exampleTcpBegun)],
    dispatch_queue := [] }

/-- The header of a successful identification response. -/
def exampleIdentifyHeader : MessageHeader :=
  { client_id := 0xFFFFFFFF, object_id := 0, command_id := 0, tag := 0xFFFFFFFF,
    payload_size := 2, object_count := 0 }

/-- A frame header announcing 65 object ids and no payload. -/
def exampleManyObjectsHeader : MessageHeader :=
  { client_id := 21, object_id := 0, command_id := 0, tag := 90, payload_size := 0,
    object_count := 65 }

/-- A frame header announcing a payload of three bytes and two object ids. -/
def exampleFrameHeader : MessageHeader :=
  { client_id := 21, object_id := 7, command_id := 0, tag := 91, payload_size := 3,
    object_count := 2 }

/-- The datagram source 127.0.0.1, port 40000. -/
def exampleSource : SockAddr :=
  { sa_family := AF_INET, sin_addr := 2130706433, sin_port := 40000 }

/-- A twib client with no outstanding call. -/
def exampleTwibClient : TwibClient :=
  { response_map := [], out_buffer := [], promises := [], nextPromise := 0 }

/-- A first call: command 10 on object 0 of device 5. -/
def exampleFirstCall : TwibRequest :=
  { device_id := 5, object_id := 0, command_id := 10, tag := 0, payload := [1] }

/-- A second call: command 11 on object 0 of device 5. -/
def exampleSecondCall : TwibRequest :=
  { device_id := 5, object_id := 0, command_id := 11, tag := 0, payload := [2] }

/-- The client after the first call was sent with `rng()` returning 7; its future is the shared
state at address 0. -/
def exampleFirstSent : TwibClient :=
  (exampleTwibClient.SendRequest exampleFirstCall 7).1

/-- The client after the second call was sent while the first is outstanding, `rng()` returning
7 again; its future is the shared state at address 1. -/
def exampleSecondSent : TwibClient :=
  (exampleFirstSent.SendRequest exampleSecondCall 7).1

/-- The header of the response to the first call: result 0 under the tag 7. -/
def exampleFirstAnswer : MessageHeader :=
  { client_id := 5, object_id := 0, command_id := 0, tag := 7, payload_size := 1,
    object_count := 0 }

/-- The header of the response to the second call: result 3 under the tag 7. -/
def exampleSecondAnswer : MessageHeader :=
  { client_id := 5, object_id := 0, command_id := 3, tag := 7, payload_size := 1,
    object_count := 0 }

/-- A second frontend client, at address 8, registered under the client id 22. -/
def exampleOtherClient : Client :=
  { client_id := 22, deletion_flag := false, owned_objects := [], posted := [] }

/-- A daemon with the two frontend clients and the TCP device (address 2) registered under id
5; nothing is pending and nothing is queued. -/
def exampleTwoClients : Twibd :=
  { exampleResponding with
    clients := [(9, 3), (21, 4), (22, 8)],
    clientHeap := [(3, exampleLocalClient), (4, exampleClient), (8, exampleOtherClient)],
    devices := [(5, 2)], connections := [2], deviceHeap := [(2, exampleTcpAdded)],
    dispatch_queue := [] }

/-- A request of client 21 (address 4) to device 5 with the tag 7. -/
def exampleTagSevenFirst : Request :=
  { client := some 4, device_id := 5, object_id := 0, command_id := 12, tag := 7, payload := [] }

/-- A request of client 22 (address 8) to device 5 with the same tag 7. -/
def exampleTagSevenSecond : Request :=
  { client := some 8, device_id := 5, object_id := 0, command_id := 12, tag := 7, payload := [] }

/-- The daemon after both requests were sent to the TCP device. -/
def exampleTwoPending : Option Twibd :=
  (exampleTwoClients.TCPBackend_Device_SendRequest 2 exampleTagSevenFirst).bind
    fun s => s.TCPBackend_Device_SendRequest 2 exampleTagSevenSecond

/-- The header of the device's response to client 21 under the tag 7. -/
def exampleTagSevenAnswer : MessageHeader :=
  { client_id := 21, object_id := 0, command_id := 0, tag := 7, payload_size := 0,
    object_count := 0 }

/-- The pending-request entries of the device at address `dev`. -/
def Twibd.pendingOf (s : Twibd) (dev : Nat) : Option (List WeakRequest) :=
  (mapFind s.deviceHeap dev).map (fun d => d.pending_requests)

/-- The daemon of `exampleClosing` in which client 21 also owns the handle 32, the object with
the same object id 7 on another device (id 6). -/
def exampleClosingTwoDevices : Twibd :=
  { exampleClosing with
    clientHeap := [(3, exampleLocalClient),
                   (4, { exampleClient with owned_objects := [30, 31, 32] })],
    objectHeap := [(30, { device_id := 5, object_id := 7, valid := true }),
                   (31, { device_id := 5, object_id := 8, valid := true }),
                   (32, { device_id := 6, object_id := 7, valid := true })] }

/-- Placeholder values for the constants the pipe reader uses. -/
def exampleCodes : PipeReaderCodes :=
  { READ := 10, TWILI_ERR_EOF := 2001, TWILI_ERR_BAD_REQUEST := 2002,
    TWILI_ERR_PROTOCOL_UNRECOGNIZED_FUNCTION := 2003 }

/-- What `bsd_poll` reports when only the server socket is readable. -/
def exampleServerReadable (i : Nat) : Revents :=
  { pollin := decide (i = 0), fault := false }

/-! ## Runs of the dispatcher -/

/-- The remote objects, by device id and object id, behind the handles that the client at
address `c` owns. -/
def Twibd.ownedRemoteObjects (s : Twibd) (c : Nat) : List (Nat × Nat) :=
  match mapFind s.clientHeap c with
  | none => []
  | some client =>
    client.owned_objects.filterMap
      (fun o => (mapFind s.objectHeap o).map (fun obj => (obj.device_id, obj.object_id)))

/-- What happens to the daemon between and in the turns of the dispatcher: a message arrives on
the connection of a TCP device, a request is posted, or `Process` dispatches the next job. -/
inductive DispatchStep where
  | incoming (dev : Nat) (mh : MessageHeader) (payload object_ids : List Nat)
  | post (rq : Request)
  | process
  deriving DecidableEq, Repr

/-- One step of a run. -/
def Twibd.step (env : Env) (s : Twibd) : DispatchStep → Option Twibd
  | DispatchStep.incoming dev mh payload object_ids =>
    s.TCPBackend_Device_IncomingMessage env dev mh payload object_ids
  | DispatchStep.post rq => some (s.PostRequest rq)
  | DispatchStep.process => s.Process env

/-- A run: the steps one after the other. -/
def Twibd.run (env : Env) : List DispatchStep → Twibd → Option Twibd
  | [], s => some s
  | st :: rest, s => (s.step env st).bind (Twibd.run env rest)

/-- The handles carried by the responses of a dispatch queue. -/
def queuedHandles : List Job → List Nat
  | [] => []
  | Job.request _ :: rest => queuedHandles rest
  | Job.response rs :: rest => rs.objects ++ queuedHandles rest

/-- No handle is held twice: no client owns a handle twice, no handle is queued twice, no owned
handle is queued, and every handle is an address that has been handed out. -/
def Twibd.handlesDistinct (s : Twibd) : Prop :=
  (∀ c cl, mapFind s.clientHeap c = some cl →
    cl.owned_objects.Nodup ∧
    ∀ o ∈ cl.owned_objects, o < s.nextRef ∧ o ∉ queuedHandles s.dispatch_queue) ∧
  (queuedHandles s.dispatch_queue).Nodup ∧
  ∀ o ∈ queuedHandles s.dispatch_queue, o < s.nextRef

/-- The daemon of `exampleTwoClients` after 40 addresses have been handed out. -/
def exampleOwning : Twibd :=
  { exampleTwoClients with nextRef := 40 }

/-- The header of a response of the device to client 21 that brings one object. -/
def exampleObjectAnswer : MessageHeader :=
  { client_id := 21, object_id := 0, command_id := 0, tag := 78, payload_size := 0,
    object_count := 1 }

/-- The run in which the device answers client 21 twice, each time with the object id 9, and
the dispatcher dispatches both responses. -/
def exampleSameObjectTwice : List DispatchStep :=
  [DispatchStep.incoming 2 exampleObjectAnswer [] (encodeObjectIds [9]), DispatchStep.process,
   DispatchStep.incoming 2 exampleObjectAnswer [] (encodeObjectIds [9]), DispatchStep.process]

/-- A pass in which the identification response arrives on connection 2. -/
def exampleIdentifiedInput : LoopInput :=
  { datagram := none,
    arrival := fun _ =>
      { error := false, frames := [(exampleIdentifyHeader, [1, 2], [])], oversized := false } }

/-- A pass in which `select` reports an error on every connection. -/
def exampleErrorInput : LoopInput :=
  { datagram := none,
    arrival := fun _ => { error := true, frames := [], oversized := false } }

/-- The run of the two passes. -/
def exampleLifecycle : List LoopEvent :=
  [LoopEvent.pass exampleIdentifiedInput, LoopEvent.pass exampleErrorInput]

/-- The daemon of `exampleState` when the local client chooses the tag 7 for its next
request. -/
def exampleChosenTag : Twibd :=
  { exampleState with local_tags := [7] }

/-- A daemon with two TCP connections, at the addresses 2 and 6, whose devices have sent their
identification requests and are waiting for the answers; the local client chooses the tags 1 and
2 for its next two requests. -/
def exampleTwoConsoles : Twibd :=
  { exampleIdentifying with
    connections := [2, 6],
    deviceHeap := [(2, exampleTcpBegun), (6, { exampleTcpBegun with fd := 7 })],
    local_tags := [1, 2] }

/-- The frame of a successful identification response whose payload is `serial`. -/
def identificationFrame (serial : List Nat) : MessageHeader × List Nat × List Nat :=
  ({ exampleIdentifyHeader with payload_size := serial.length }, serial, [])

/-- A pass in which both consoles answer the identification request: the one of connection 2
with the serial number `[1]`, the other one with the serial number `[2]`. -/
def exampleBothIdentify : LoopInput :=
  { datagram := none,
    arrival := fun i =>
      { error := false,
        frames := if i = 2 then [identificationFrame [1]] else [identificationFrame [2]],
        oversized := false } }

/-- A pass in which the console of connection 2 sends a second identification response, now
with the serial number `[2]`; nothing arrives on the other connection. -/
def exampleSecondIdentification : LoopInput :=
  { datagram := none,
    arrival := fun i =>
      { error := false, frames := if i = 2 then [identificationFrame [2]] else [],
        oversized := false } }

/-- A pass in which `select` reports an error on the socket of connection 2 and nothing
arrives. -/
def exampleErrorOnTwo : LoopInput :=
  { datagram := none,
    arrival := fun i => { error := decide (i = 2), frames := [], oversized := false } }

/-- The run in which the two consoles identify themselves and are added to the registry, the
console of connection 2 identifies itself a second time, the dispatcher dispatches the two
requests that `AddDevice` posted, and the connection 2 then fails and is torn down: the calls of
the event thread and the daemon after the run. -/
def exampleExpiredEntry : Traced :=
  Traced.andThen
    (Twibd.event_thread_run exampleEnv
      [LoopEvent.pass exampleBothIdentify, LoopEvent.pass exampleSecondIdentification]
      exampleTwoConsoles) fun s1 =>
  Traced.andThen ([], Twibd.run exampleEnv [DispatchStep.process, DispatchStep.process] s1)
    fun s2 => s2.event_thread_pass exampleEnv exampleErrorOnTwo

/-- A request of client 21 (address 4) to object 0 of the device 218. -/
def exampleRequestTo218 : Request :=
  { client := some 4, device_id := 218, object_id := 0, command_id := 12, tag := 84,
    payload := [] }

/-- The daemon of `exampleEmptyRegistry` in a pass with an error on both connections, at the
point where the last loop has dealt with connection 2 and turns to connection 6: both devices
have been added, both connections flagged, and connection 2 removed and erased. -/
def exampleSecondRemoval : Option Twibd :=
  ((exampleEmptyRegistry.event_thread_add 2).bind fun s1 => s1.event_thread_add 6).bind
    fun s2 => (s2.event_thread_pump exampleErrorInput).event_thread_reap 2

end Twili

namespace Twili

/-! ## Lemmas on maps -/

theorem mapFind_mapAssign_self {β : Type} (k : Nat) (v : β) (m : Map β) :
    mapFind (mapAssign k v m) k = some v := by
  induction m with
  | nil => simp [mapAssign, mapFind]
  | cons e rest ih =>
    obtain ⟨k', v'⟩ := e
    unfold mapAssign
    by_cases h1 : k < k'
    · simp [h1, mapFind]
    · by_cases h2 : k = k'
      · simp [h2, mapFind]
      · have h3 : ¬ k' = k := fun h => h2 h.symm
        simp [h1, h2, h3, mapFind, ih]

theorem mapFind_mapAssign_ne {β : Type} (k j : Nat) (v : β) (m : Map β) (h : j ≠ k) :
    mapFind (mapAssign k v m) j = mapFind m j := by
  have hk : ¬ k = j := fun e => h e.symm
  induction m with
  | nil => simp [mapAssign, mapFind, hk]
  | cons e rest ih =>
    obtain ⟨k', v'⟩ := e
    unfold mapAssign
    by_cases h1 : k < k'
    · simp [h1, mapFind, hk]
    · by_cases h2 : k = k'
      · subst h2
        simp [mapFind, hk]
      · simp [h1, h2, mapFind, ih]

theorem mapErase_cons {β : Type} (k k' : Nat) (v : β) (m : Map β) :
    mapErase k ((k', v) :: m) = if k' = k then mapErase k m else (k', v) :: mapErase k m := by
  by_cases h : k' = k <;> simp [mapErase, List.filter_cons, h]

theorem mapFind_cons {β : Type} (k k' : Nat) (v : β) (m : Map β) :
    mapFind ((k', v) :: m) k = if k' = k then some v else mapFind m k := rfl

theorem mapFind_mapErase_self {β : Type} (k : Nat) (m : Map β) :
    mapFind (mapErase k m) k = none := by
  induction m with
  | nil => rfl
  | cons e rest ih =>
    obtain ⟨k', v'⟩ := e
    rw [mapErase_cons]
    by_cases h : k' = k
    · rw [if_pos h]; exact ih
    · rw [if_neg h, mapFind_cons, if_neg h]; exact ih

theorem mapFind_mapErase_ne {β : Type} (k j : Nat) (m : Map β) (h : j ≠ k) :
    mapFind (mapErase k m) j = mapFind m j := by
  induction m with
  | nil => rfl
  | cons e rest ih =>
    obtain ⟨k', v'⟩ := e
    rw [mapErase_cons, mapFind_cons]
    by_cases h1 : k' = k
    · have h2 : ¬ k' = j := fun e => h (e.symm.trans h1)
      rw [if_pos h1, if_neg h2]; exact ih
    · rw [if_neg h1, mapFind_cons]
      by_cases h2 : k' = j
      · rw [if_pos h2, if_pos h2]
      · rw [if_neg h2, if_neg h2]; exact ih

/-! ## Device registry: `AddDevice` and `RemoveDevice` -/

/-- Function `RemoveDevice` erases whatever entry is stored under the device's id: it never compares the
entry with the device that is removed. -/
theorem RemoveDevice_eq (s : Twibd) (device i : Nat) (d : Device)
    (hd : mapFind s.deviceHeap device = some d)
    (hentry : mapFind s.devices d.device_id = some i) :
    s.RemoveDevice device = some { s with devices := mapErase d.device_id s.devices } := by
  simp [Twibd.RemoveDevice, hd, hentry]

/-- C1 (evaluation of the code): the USB device at address 1 is registered under id 5; the TCP
device at address 2 has the same id.  `AddDevice` of the TCP device keeps the USB entry, and the
`RemoveDevice` of the TCP device that follows erases the entry of the USB device, although that
entry points at another device; likewise when the TCP device was registered first and the USB
device has replaced it.  The event thread of the TCP backend makes exactly these calls:
it registers the TCP device (marking it as added although the USB entry was kept), and when the
connection has failed it removes it: the registry is then empty while the USB device is still
alive. -/
theorem RemoveDevice_erases_entry_of_other_device :
    mapFind exampleState.devices 5 = some 1 ∧
    (mapFind exampleState.deviceHeap 2).map (fun d => d.device_id) = some 5 ∧
    (exampleState.AddDevice 2).map (fun s => s.devices) = some [(5, 1)] ∧
    (exampleState.RemoveDevice 2).map (fun s => s.devices) = some [] ∧
    ((exampleState.AddDevice 2).bind (fun s => s.RemoveDevice 2)).map (fun s => s.devices)
      = some [] ∧
    (exampleTcpRegistered.AddDevice 1).map (fun s => s.devices) = some [(5, 1)] ∧
    ((exampleTcpRegistered.AddDevice 1).bind (fun s => s.RemoveDevice 2)).map
      (fun s => s.devices) = some [] ∧
    (exampleState.event_thread_add 2).map
        (fun s => (s.devices, (mapFind s.deviceHeap 2).map (fun d => d.added_flag)))
      = some ([(5, 1)], some true) ∧
    exampleShadowRemoval.map
        (fun s => (s.devices, (mapFind s.deviceHeap 1).map (fun d => d.device_id)))
      = some ([], some 5) := by
  decide

/-- The registry after `AddDevice`, when the incumbent is kept. -/
theorem AddDevice_keep (s : Twibd) (device i : Nat) (d inc : Device)
    (hd : mapFind s.deviceHeap device = some d)
    (hentry : mapFind s.devices d.device_id = some i)
    (hinc : mapFind s.deviceHeap i = some inc)
    (hprio : d.GetPriority < inc.GetPriority) :
    s.AddDevice device = some (Twibd.LocalClient_SendRequest s
      { client := none, device_id := d.device_id, object_id := 0, command_id := 0xffffffff,
        tag := 0, payload := [] }) := by
  have h : ¬ inc.GetPriority ≤ d.GetPriority := Nat.not_le.mpr hprio
  simp [Twibd.AddDevice, hd, hentry, hinc, h]

/-- The registry after `AddDevice`, when the new device is stored. -/
theorem AddDevice_store (s : Twibd) (device : Nat) (d : Device)
    (hd : mapFind s.deviceHeap device = some d)
    (h : ∀ i inc, mapFind s.devices d.device_id = some i → mapFind s.deviceHeap i = some inc →
      inc.GetPriority ≤ d.GetPriority) :
    s.AddDevice device = some (Twibd.LocalClient_SendRequest
      { s with devices := mapAssign d.device_id device s.devices }
      { client := none, device_id := d.device_id, object_id := 0, command_id := 0xffffffff,
        tag := 0, payload := [] }) := by
  unfold Twibd.AddDevice
  rw [hd]
  cases hentry : mapFind s.devices d.device_id with
  | none => simp [hentry]
  | some i =>
    cases hinc : mapFind s.deviceHeap i with
    | none => simp [hentry, hinc]
    | some inc => simp [hentry, hinc, h i inc hentry hinc]

/-! ## The disowning loop -/

theorem keeps_mapAssign (object_id i : Nat) (obj : BridgeObject) (heap : Map BridgeObject)
    (h : mapFind heap i = some obj) (o : Nat) :
    keeps object_id (mapAssign i { obj with valid := false } heap) o = keeps object_id heap o := by
  unfold keeps
  by_cases ho : o = i
  · subst ho
    rw [mapFind_mapAssign_self, h]
  · rw [mapFind_mapAssign_ne _ _ _ _ ho]

/-- The entries the loop keeps: those whose object id differs, in their order. -/
theorem disown_fst (object_id : Nat) (l : List Nat) (heap : Map BridgeObject) :
    (disown object_id l heap).1 = l.filter (keeps object_id heap) := by
  induction l generalizing heap with
  | nil => rfl
  | cons i rest ih =>
    unfold disown
    cases h : mapFind heap i with
    | none =>
      have hk : keeps object_id heap i = true := by simp [keeps, h]
      simp [List.filter_cons, hk, ih]
    | some obj =>
      by_cases hm : obj.object_id = object_id
      · have hk : keeps object_id heap i = false := by simp [keeps, h, hm]
        have hf : keeps object_id (mapAssign i { obj with valid := false } heap)
            = keeps object_id heap := funext (keeps_mapAssign object_id i obj heap h)
        simp only []
        rw [if_pos hm, ih, hf, List.filter_cons, hk]
        simp
      · have hk : keeps object_id heap i = true := by simp [keeps, h, hm]
        simp [List.filter_cons, hk, hm, ih]

/-- The object heap after the loop: exactly the objects of the list that are being closed have
their `valid` flag cleared. -/
theorem disown_snd (object_id : Nat) (l : List Nat) (heap : Map BridgeObject) (o : Nat) :
    mapFind (disown object_id l heap).2 o =
      (mapFind heap o).map (fun obj =>
        if o ∈ l ∧ obj.object_id = object_id then { obj with valid := false } else obj) := by
  induction l generalizing heap with
  | nil => simp [disown]
  | cons i rest ih =>
    unfold disown
    cases h : mapFind heap i with
    | none =>
      simp only [ih]
      by_cases ho : o = i
      · subst ho; simp [h]
      · simp [ho]
    | some obj =>
      by_cases hm : obj.object_id = object_id
      · simp only [hm, if_true, ih]
        by_cases ho : o = i
        · subst ho
          simp [mapFind_mapAssign_self, h, hm]
        · rw [mapFind_mapAssign_ne _ _ _ _ ho]
          simp [ho]
      · simp only [hm, if_false, ih]
        by_cases ho : o = i
        · subst ho
          simp [h, hm]
        · simp [ho]

/-! ## Dispatcher: requests -/

theorem disownObjects_deviceHeap (s : Twibd) (c object_id : Nat) :
    (s.disownObjects c object_id).deviceHeap = s.deviceHeap ∧
    (s.disownObjects c object_id).devices = s.devices ∧
    (s.disownObjects c object_id).dispatch_queue = s.dispatch_queue := by
  unfold Twibd.disownObjects
  cases mapFind s.clientHeap c <;> simp

theorem disownObjects_client_id (s : Twibd) (c object_id j : Nat) :
    (mapFind (s.disownObjects c object_id).clientHeap j).map (fun client => client.client_id)
      = (mapFind s.clientHeap j).map (fun client => client.client_id) := by
  unfold Twibd.disownObjects
  cases h : mapFind s.clientHeap c with
  | none => rfl
  | some client =>
    by_cases hj : j = c
    · subst hj
      simp [mapFind_mapAssign_self, h]
    · simp [mapFind_mapAssign_ne _ _ _ _ hj]

/-- Handing a request to a live device: the device logs the request, nothing else in the daemon
changes. -/
theorem Device_SendRequest_spec (s : Twibd) (dev : Nat) (d : Device) (r : Request)
    (hd : mapFind s.deviceHeap dev = some d)
    (hc : ∀ c, r.client = some c → ∃ id, (mapFind s.clientHeap c).map
      (fun client => client.client_id) = some id) :
    ∃ d1 : Device, s.Device_SendRequest dev r
        = some { s with deviceHeap := mapAssign dev d1 s.deviceHeap } ∧
      d1.received = d.received ++ [r] ∧ d1.deletion_flag = d.deletion_flag ∧
      d1.bridge = d.bridge ∧ d1.device_id = d.device_id := by
  unfold Twibd.Device_SendRequest
  simp only [hd]
  cases hb : d.bridge with
  | usb =>
    simp only []
    unfold Twibd.USBBackend_Device_SendRequest
    simp only [hd]
    exact ⟨_, rfl, rfl, rfl, hb, rfl⟩
  | tcp =>
    simp only []
    unfold Twibd.TCPBackend_Device_SendRequest
    cases hcl : r.client with
    | none => simp only [hd]; exact ⟨_, rfl, rfl, rfl, hb, rfl⟩
    | some c =>
      obtain ⟨id, hid⟩ := hc c hcl
      simp only [hid, hd]
      exact ⟨_, rfl, rfl, rfl, hb, rfl⟩

/-- A request for a registered, live, undeleted device is handed to that device. -/
theorem ProcessRequest_hit (env : Env) (s : Twibd) (rq : Request) (c : Nat) (client : Client)
    (i : Nat) (device : Device)
    (hc : rq.client = some c) (hclient : mapFind s.clientHeap c = some client)
    (hid : rq.device_id ≠ 0)
    (hentry : mapFind s.devices rq.device_id = some i)
    (hdev : mapFind s.deviceHeap i = some device)
    (hdel : device.deletion_flag = false) :
    ∃ d1 : Device, d1.received = device.received ++ [rq] ∧
      s.ProcessRequest env rq = some
        { (if rq.command_id = 0xffffffff then s.disownObjects c rq.object_id else s) with
          deviceHeap := mapAssign i d1 s.deviceHeap } := by
  unfold Twibd.ProcessRequest
  simp only [hc, hclient, hid, if_false, hentry, hdev, hdel, Bool.false_eq_true]
  by_cases hclose : rq.command_id = 0xffffffff
  · simp only [hclose, if_true]
    have hd1 : mapFind (s.disownObjects c rq.object_id).deviceHeap i = some device := by
      rw [(disownObjects_deviceHeap s c rq.object_id).1]; exact hdev
    have hc1 : ∀ c1, rq.client = some c1 → ∃ id,
        (mapFind (s.disownObjects c rq.object_id).clientHeap c1).map
          (fun client => client.client_id) = some id := by
      intro c1 h1
      rw [hc] at h1
      cases h1
      exact ⟨client.client_id, by rw [disownObjects_client_id, hclient]; rfl⟩
    obtain ⟨d1, h1, h2, _⟩ := Device_SendRequest_spec _ i device rq hd1 hc1
    refine ⟨d1, h2, ?_⟩
    rw [h1, (disownObjects_deviceHeap s c rq.object_id).1]
  · simp only [hclose, if_false]
    have hc1 : ∀ c1, rq.client = some c1 → ∃ id,
        (mapFind s.clientHeap c1).map (fun client => client.client_id) = some id := by
      intro c1 h1
      rw [hc] at h1
      cases h1
      exact ⟨client.client_id, by rw [hclient]; rfl⟩
    obtain ⟨d1, h1, h2, _⟩ := Device_SendRequest_spec s i device rq hdev hc1
    exact ⟨d1, h2, h1⟩

/-- A request for a device that is not registered, has expired or is flagged for deletion is
answered with `UNRECOGNIZED_DEVICE`; nothing else changes. -/
theorem ProcessRequest_miss (env : Env) (s : Twibd) (rq : Request) (c : Nat) (client : Client)
    (hc : rq.client = some c) (hclient : mapFind s.clientHeap c = some client)
    (hid : rq.device_id ≠ 0)
    (hmiss : ¬ ∃ i device, mapFind s.devices rq.device_id = some i ∧
      mapFind s.deviceHeap i = some device ∧ device.deletion_flag = false) :
    s.ProcessRequest env rq = some (s.PostResponse
      { device_id := rq.device_id, client_id := client.client_id, object_id := rq.object_id,
        result_code := env.UNRECOGNIZED_DEVICE, tag := rq.tag, payload := [], objects := [] }) := by
  have hr : s.RespondError rq env.UNRECOGNIZED_DEVICE = some
      { device_id := rq.device_id, client_id := client.client_id, object_id := rq.object_id,
        result_code := env.UNRECOGNIZED_DEVICE, tag := rq.tag, payload := [], objects := [] } := by
    simp [Twibd.RespondError, hc, hclient]
  unfold Twibd.ProcessRequest
  simp only [hc, hclient, hid, if_false, hr, Option.map_some']
  cases hentry : mapFind s.devices rq.device_id with
  | none => rfl
  | some i =>
    cases hdev : mapFind s.deviceHeap i with
    | none => simp only [hdev]
    | some device =>
      cases hdel : device.deletion_flag with
      | true => simp only [hdev, hdel, if_true]
      | false => exact absurd ⟨i, device, hentry, hdev, hdel⟩ hmiss

/-! ## Claims on the device registry -/

/-- C2. Priority arbitration: when the registry entry of the new device's id refers to a live
device of strictly higher priority (USB 2 over TCP 1), `AddDevice` returns and leaves the
registry as it was, the entry still pointing at the incumbent; and a later request for that id
(issued by a live client, the incumbent not being flagged for deletion) is handed to the
incumbent, while the new device receives nothing. -/
theorem AddDevice_keeps_higher_priority (s : Twibd) (device i : Nat) (d inc : Device)
    (hd : mapFind s.deviceHeap device = some d)
    (hentry : mapFind s.devices d.device_id = some i)
    (hinc : mapFind s.deviceHeap i = some inc)
    (hprio : d.GetPriority < inc.GetPriority) :
    ∃ s1, s.AddDevice device = some s1 ∧ s1.devices = s.devices ∧
      mapFind s1.devices d.device_id = some i ∧
      ∀ (env : Env) (rq : Request) (c : Nat) (client : Client),
        rq.device_id = d.device_id → rq.device_id ≠ 0 → rq.client = some c →
        mapFind s1.clientHeap c = some client → inc.deletion_flag = false →
        ∃ s2 inc1, s1.ProcessRequest env rq = some s2 ∧
          mapFind s2.deviceHeap i = some inc1 ∧ inc1.received = inc.received ++ [rq] ∧
          mapFind s2.deviceHeap device = some d := by
  refine ⟨_, AddDevice_keep s device i d inc hd hentry hinc hprio, rfl, hentry, ?_⟩
  intro env rq c client hrq hid hc hclient hdel
  have hne : device ≠ i := by
    intro h
    rw [h, hinc] at hd
    cases hd
    exact Nat.lt_irrefl _ hprio
  obtain ⟨d1, hrec, hproc⟩ := ProcessRequest_hit env _ rq c client i inc hc hclient hid
    (by rw [hrq]; exact hentry) hinc hdel
  refine ⟨_, d1, hproc, ?_, hrec, ?_⟩
  · exact mapFind_mapAssign_self i d1 _
  · exact (mapFind_mapAssign_ne i device d1 _ hne).trans hd

/-- C2 at the example: the USB device is registered, the TCP device with the same id is added. -/
theorem AddDevice_keeps_higher_priority_witness :
    ∃ s1, exampleState.AddDevice 2 = some s1 ∧ s1.devices = exampleState.devices ∧
      mapFind s1.devices exampleTcp.device_id = some 1 ∧
      ∀ (env : Env) (rq : Request) (c : Nat) (client : Client),
        rq.device_id = exampleTcp.device_id → rq.device_id ≠ 0 → rq.client = some c →
        mapFind s1.clientHeap c = some client → exampleUsb.deletion_flag = false →
        ∃ s2 inc1, s1.ProcessRequest env rq = some s2 ∧
          mapFind s2.deviceHeap 1 = some inc1 ∧ inc1.received = exampleUsb.received ++ [rq] ∧
          mapFind s2.deviceHeap 2 = some exampleTcp :=
  AddDevice_keeps_higher_priority exampleState 2 1 exampleTcp exampleUsb
    (by decide) (by decide) (by decide) (by decide)

/-- C3. When the registry has no entry for the new device's id, or the entry's device has
expired, or the live incumbent has lower priority, `AddDevice` returns with the registry mapping
the id to the new device, and the entries of all other ids are unchanged. -/
theorem AddDevice_stores_new_device (s : Twibd) (device : Nat) (d : Device)
    (hd : mapFind s.deviceHeap device = some d)
    (h : mapFind s.devices d.device_id = none ∨
      (∃ i, mapFind s.devices d.device_id = some i ∧ mapFind s.deviceHeap i = none) ∨
      (∃ i inc, mapFind s.devices d.device_id = some i ∧ mapFind s.deviceHeap i = some inc ∧
        inc.GetPriority < d.GetPriority)) :
    ∃ s1, s.AddDevice device = some s1 ∧ mapFind s1.devices d.device_id = some device ∧
      ∀ k, k ≠ d.device_id → mapFind s1.devices k = mapFind s.devices k := by
  refine ⟨_, AddDevice_store s device d hd ?_, mapFind_mapAssign_self _ _ _,
    fun k hk => mapFind_mapAssign_ne _ _ _ _ hk⟩
  intro i inc hentry hinc
  rcases h with h | ⟨j, hj, hnone⟩ | ⟨j, inc1, hj, hinc1, hlt⟩
  · rw [h] at hentry; cases hentry
  · rw [hj] at hentry; cases hentry; rw [hnone] at hinc; cases hinc
  · rw [hj] at hentry; cases hentry; rw [hinc1] at hinc; cases hinc; exact Nat.le_of_lt hlt

/-- C3 at the example: the TCP device is added to an empty registry. -/
theorem AddDevice_stores_new_device_witness :
    ∃ s1, exampleEmptyRegistry.AddDevice 2 = some s1 ∧
      mapFind s1.devices exampleTcp.device_id = some 2 ∧
      ∀ k, k ≠ exampleTcp.device_id →
        mapFind s1.devices k = mapFind exampleEmptyRegistry.devices k :=
  AddDevice_stores_new_device exampleEmptyRegistry 2 exampleTcp (by decide)
    (Or.inl (by decide))

/-- C4. When the registry holds a live device with the same id and a priority equal to the new
device's, `AddDevice` replaces the incumbent: the entry points at the new device. -/
theorem AddDevice_equal_priority_replaces (s : Twibd) (device i : Nat) (d inc : Device)
    (hd : mapFind s.deviceHeap device = some d)
    (hentry : mapFind s.devices d.device_id = some i)
    (hinc : mapFind s.deviceHeap i = some inc)
    (hprio : inc.GetPriority = d.GetPriority) :
    ∃ s1, s.AddDevice device = some s1 ∧ mapFind s1.devices d.device_id = some device := by
  refine ⟨_, AddDevice_store s device d hd ?_, mapFind_mapAssign_self _ _ _⟩
  intro j inc1 hj hinc1
  rw [hentry] at hj; cases hj; rw [hinc] at hinc1; cases hinc1
  exact Nat.le_of_eq hprio

/-- C4 at the example: a first TCP device is registered, a second one with the same id is
added. -/
theorem AddDevice_equal_priority_replaces_witness :
    ∃ s1, exampleTcpRegistered.AddDevice 6 = some s1 ∧
      mapFind s1.devices exampleTcpSecond.device_id = some 6 :=
  AddDevice_equal_priority_replaces exampleTcpRegistered 6 2 exampleTcpSecond exampleTcp
    (by decide) (by decide) (by decide) (by decide)

/-! ## Claims on the dispatcher: requests for devices -/

theorem Process_request_eq (env : Env) (s : Twibd) (rq : Request) (queue : List Job)
    (hq : s.dispatch_queue = Job.request rq :: queue) :
    s.Process env = Twibd.ProcessRequest env { s with dispatch_queue := queue } rq := by
  unfold Twibd.Process
  rw [hq]

theorem Process_response_eq (env : Env) (s : Twibd) (rs : Response) (queue : List Job)
    (hq : s.dispatch_queue = Job.response rs :: queue) :
    s.Process env = Twibd.ProcessResponse { s with dispatch_queue := queue } rs := by
  unfold Twibd.Process
  rw [hq]

/-- C5. A request with `device_id != 0`, issued by a live client, is the next job.  `Process`
returns, and some device is handed the request (its log of received requests grows by the
request) if and only if the registry has an entry for the device id whose device is alive and not
flagged for deletion.  In that case it is that device which receives it, all other devices are
untouched and no response is enqueued.  In every other case exactly one response is enqueued,
carrying the issuing client's id, `UNRECOGNIZED_DEVICE` and the request's tag, and the devices,
clients and objects are unchanged. -/
theorem Process_request_routing (env : Env) (s : Twibd) (rq : Request) (queue : List Job)
    (c : Nat) (client : Client)
    (hq : s.dispatch_queue = Job.request rq :: queue)
    (hc : rq.client = some c) (hclient : mapFind s.clientHeap c = some client)
    (hid : rq.device_id ≠ 0) :
    ∃ s1, s.Process env = some s1 ∧
      ((∃ i device device1, mapFind s.deviceHeap i = some device ∧
          mapFind s1.deviceHeap i = some device1 ∧ device1.received = device.received ++ [rq]) ↔
        ∃ i device, mapFind s.devices rq.device_id = some i ∧
          mapFind s.deviceHeap i = some device ∧ device.deletion_flag = false) ∧
      (∀ i device, mapFind s.devices rq.device_id = some i →
        mapFind s.deviceHeap i = some device → device.deletion_flag = false →
        s1.dispatch_queue = queue ∧
        (∃ device1, mapFind s1.deviceHeap i = some device1 ∧
          device1.received = device.received ++ [rq]) ∧
        ∀ j, j ≠ i → mapFind s1.deviceHeap j = mapFind s.deviceHeap j) ∧
      ((¬ ∃ i device, mapFind s.devices rq.device_id = some i ∧
          mapFind s.deviceHeap i = some device ∧ device.deletion_flag = false) →
        s1.dispatch_queue = queue ++ [Job.response
          { device_id := rq.device_id, client_id := client.client_id, object_id := rq.object_id,
            result_code := env.UNRECOGNIZED_DEVICE, tag := rq.tag, payload := [],
            objects := [] }] ∧
        s1.deviceHeap = s.deviceHeap ∧ s1.clientHeap = s.clientHeap ∧
        s1.objectHeap = s.objectHeap ∧ s1.devices = s.devices) := by
  rw [Process_request_eq env s rq queue hq]
  by_cases hit : ∃ i device, mapFind s.devices rq.device_id = some i ∧
      mapFind s.deviceHeap i = some device ∧ device.deletion_flag = false
  · obtain ⟨i, device, hentry, hdev, hdel⟩ := hit
    obtain ⟨d1, hrec, hproc⟩ := ProcessRequest_hit env { s with dispatch_queue := queue } rq c
      client i device hc hclient hid hentry hdev hdel
    refine ⟨_, hproc, ?_, ?_, ?_⟩
    · constructor
      · intro _
        exact ⟨i, device, hentry, hdev, hdel⟩
      · intro _
        exact ⟨i, device, d1, hdev, mapFind_mapAssign_self i d1 _, hrec⟩
    · intro j dj hj hdj _
      have hji : i = j := Option.some.inj (hentry.symm.trans hj)
      subst hji
      have hdd : device = dj := Option.some.inj (hdev.symm.trans hdj)
      subst hdd
      refine ⟨?_, ⟨d1, mapFind_mapAssign_self i d1 _, hrec⟩, ?_⟩
      · by_cases hclose : rq.command_id = 0xffffffff
        · simp only [hclose, if_true]
          exact (disownObjects_deviceHeap _ c rq.object_id).2.2
        · simp only [hclose, if_false]
      · intro k hk
        exact mapFind_mapAssign_ne i k d1 _ hk
    · intro hmiss
      exact absurd ⟨i, device, hentry, hdev, hdel⟩ hmiss
  · have hproc := ProcessRequest_miss env { s with dispatch_queue := queue } rq c client hc
      hclient hid hit
    refine ⟨_, hproc, ?_, ?_, ?_⟩
    · constructor
      · rintro ⟨i, device, device1, h1, h2, h3⟩
        exfalso
        have h4 : mapFind s.deviceHeap i = some device1 := h2
        rw [h1] at h4
        cases h4
        have := congrArg List.length h3
        simp at this
      · intro h
        exact absurd h hit
    · intro i device hentry hdev hdel
      exact absurd ⟨i, device, hentry, hdev, hdel⟩ hit
    · intro _
      exact ⟨rfl, rfl, rfl, rfl, rfl⟩

/-- C5 at the example: the request for device 5 is handed to the registered USB device, and no
response is enqueued. -/
theorem Process_request_routing_witness :
    ∃ s1, exampleQueued.Process exampleEnv = some s1 ∧ s1.dispatch_queue = [] ∧
      ∃ device1, mapFind s1.deviceHeap 1 = some device1 ∧
        device1.received = exampleUsb.received ++ [exampleRequest] := by
  obtain ⟨s1, h1, _, h3, _⟩ := Process_request_routing exampleEnv exampleQueued exampleRequest []
    3 exampleLocalClient (by decide) (by decide) (by decide) (by decide)
  obtain ⟨h4, h5, _⟩ := h3 1 exampleUsb (by decide) (by decide) (by decide)
  exact ⟨s1, h1, h4, h5⟩

/-! ## Claims on the dispatcher: responses -/

/-- Function `GetClient` finds no client exactly when the id is not in the client map, or the client has
expired, or the client is flagged for deletion. -/
theorem GetClient_eq_none_iff (s : Twibd) (client_id : Nat) :
    s.GetClient client_id = none ↔
      (mapFind s.clients client_id = none ∨
        (∃ c, mapFind s.clients client_id = some c ∧ mapFind s.clientHeap c = none) ∨
        (∃ c client, mapFind s.clients client_id = some c ∧
          mapFind s.clientHeap c = some client ∧ client.deletion_flag = true)) := by
  unfold Twibd.GetClient
  cases h1 : mapFind s.clients client_id with
  | none => simp
  | some c =>
    cases h2 : mapFind s.clientHeap c with
    | none => simp [h2]
    | some client =>
      cases h3 : client.deletion_flag <;> simp [h2, h3]

theorem GetClient_live (s : Twibd) (client_id c : Nat) (client : Client)
    (hreg : mapFind s.clients client_id = some c)
    (hclient : mapFind s.clientHeap c = some client)
    (hdel : client.deletion_flag = false) :
    s.GetClient client_id = some c := by
  simp [Twibd.GetClient, hreg, hclient, hdel]

/-- C7. A response whose `client_id` is registered to a live client without `deletion_flag` is
the next job.  `Process` returns; afterwards that client's `owned_objects` are its previous
ones followed by the response's objects in their order, the response has been handed to that
client once (its log of posted responses grows by exactly this response), and every other
client is unchanged, as are the devices, the objects and the registries. -/
theorem Process_response_live_client (env : Env) (s : Twibd) (rs : Response) (queue : List Job)
    (c : Nat) (client : Client)
    (hq : s.dispatch_queue = Job.response rs :: queue)
    (hreg : mapFind s.clients rs.client_id = some c)
    (hclient : mapFind s.clientHeap c = some client)
    (hdel : client.deletion_flag = false) :
    ∃ s1 client1, s.Process env = some s1 ∧ mapFind s1.clientHeap c = some client1 ∧
      client1.owned_objects = client.owned_objects ++ rs.objects ∧
      client1.posted = client.posted ++ [rs] ∧
      (∀ j, j ≠ c → mapFind s1.clientHeap j = mapFind s.clientHeap j) ∧
      s1.dispatch_queue = queue ∧ s1.deviceHeap = s.deviceHeap ∧
      s1.objectHeap = s.objectHeap ∧ s1.clients = s.clients ∧ s1.devices = s.devices := by
  rw [Process_response_eq env s rs queue hq]
  have hget : Twibd.GetClient { s with dispatch_queue := queue } rs.client_id = some c :=
    GetClient_live _ rs.client_id c client hreg hclient hdel
  unfold Twibd.ProcessResponse
  simp only [hget, hclient]
  exact ⟨_, _, rfl, mapFind_mapAssign_self c _ _, rfl, rfl,
    fun j hj => mapFind_mapAssign_ne c j _ _ hj, rfl, rfl, rfl, rfl, rfl⟩

/-- C7 at the example: the response for client 21 carries object 31. -/
theorem Process_response_live_client_witness :
    ∃ s1 client1, exampleResponding.Process exampleEnv = some s1 ∧
      mapFind s1.clientHeap 4 = some client1 ∧
      client1.owned_objects = exampleClient.owned_objects ++ exampleResponse.objects ∧
      client1.posted = exampleClient.posted ++ [exampleResponse] ∧
      (∀ j, j ≠ 4 → mapFind s1.clientHeap j = mapFind exampleResponding.clientHeap j) ∧
      s1.dispatch_queue = [] ∧ s1.deviceHeap = exampleResponding.deviceHeap ∧
      s1.objectHeap = exampleResponding.objectHeap ∧ s1.clients = exampleResponding.clients ∧
      s1.devices = exampleResponding.devices :=
  Process_response_live_client exampleEnv exampleResponding exampleResponse [] 4 exampleClient
    (by decide) (by decide) (by decide) (by decide)

/-- C8. A response is the next job.  Its `client_id` is not in the client map, or its client has
expired, or its client is flagged for deletion, exactly when `GetClient` returns no client; and
in these cases `Process` returns having only taken the response off the queue: no client is
handed the response and no `owned_objects` changes. -/
theorem Process_response_dead_client (env : Env) (s : Twibd) (rs : Response) (queue : List Job)
    (hq : s.dispatch_queue = Job.response rs :: queue) :
    ((mapFind s.clients rs.client_id = none ∨
        (∃ c, mapFind s.clients rs.client_id = some c ∧ mapFind s.clientHeap c = none) ∨
        (∃ c client, mapFind s.clients rs.client_id = some c ∧
          mapFind s.clientHeap c = some client ∧ client.deletion_flag = true)) ↔
      s.GetClient rs.client_id = none) ∧
    (s.GetClient rs.client_id = none →
      s.Process env = some { s with dispatch_queue := queue }) := by
  refine ⟨(GetClient_eq_none_iff s rs.client_id).symm, ?_⟩
  intro hnone
  rw [Process_response_eq env s rs queue hq]
  have hget : Twibd.GetClient { s with dispatch_queue := queue } rs.client_id = none := hnone
  unfold Twibd.ProcessResponse
  simp only [hget]

/-- C8 at the example: the response for the unregistered client id 22 is dropped. -/
theorem Process_response_dead_client_witness :
    ((mapFind exampleStray.clients exampleStrayResponse.client_id = none ∨
        (∃ c, mapFind exampleStray.clients exampleStrayResponse.client_id = some c ∧
          mapFind exampleStray.clientHeap c = none) ∨
        (∃ c client, mapFind exampleStray.clients exampleStrayResponse.client_id = some c ∧
          mapFind exampleStray.clientHeap c = some client ∧ client.deletion_flag = true)) ↔
      exampleStray.GetClient exampleStrayResponse.client_id = none) ∧
    (exampleStray.GetClient exampleStrayResponse.client_id = none →
      exampleStray.Process exampleEnv = some { exampleStray with dispatch_queue := [] }) :=
  Process_response_dead_client exampleEnv exampleStray exampleStrayResponse [] (by decide)

/-! ## Claims on the dispatcher: close requests -/

/-- The state in which a close request is handed to the device: the entries of the client's
`owned_objects` with the request's object id are gone and their objects are no longer valid. -/
theorem disownObjects_spec (s : Twibd) (c object_id : Nat) (client : Client)
    (hclient : mapFind s.clientHeap c = some client) :
    ∃ client0, mapFind (s.disownObjects c object_id).clientHeap c = some client0 ∧
      ∀ o obj, o ∈ client.owned_objects → mapFind s.objectHeap o = some obj →
        obj.object_id = object_id →
        o ∉ client0.owned_objects ∧
        ∃ obj0, mapFind (s.disownObjects c object_id).objectHeap o = some obj0 ∧
          obj0.valid = false := by
  unfold Twibd.disownObjects
  simp only [hclient]
  refine ⟨_, mapFind_mapAssign_self c _ _, ?_⟩
  intro o obj ho hobj hm
  constructor
  · simp only [disown_fst]
    intro hmem
    have hk := (List.mem_filter.mp hmem).2
    simp [keeps, hobj, hm] at hk
  · refine ⟨{ obj with valid := false }, ?_, rfl⟩
    simp only [disown_snd, hobj, Option.map_some']
    rw [if_pos ⟨ho, hm⟩]

/-- C9. A close request (`command_id` 0xFFFFFFFF) for a device id other than 0, issued by a live
client, is the next job.  If the device is registered, alive and not flagged for deletion, then
`Process` is the hand-over of the request to the device in a state `s0` in which every entry of
the client's `owned_objects` whose object has the request's object id has already been removed
and its object's `valid` flag cleared; the hand-over returns, leaves clients and objects as in
`s0`, and the device receives the request.  If the device lookup fails, `Process` returns with
the clients (so all `owned_objects`) and the objects unchanged. -/
theorem Process_close_request (env : Env) (s : Twibd) (rq : Request) (queue : List Job)
    (c : Nat) (client : Client)
    (hq : s.dispatch_queue = Job.request rq :: queue)
    (hc : rq.client = some c) (hclient : mapFind s.clientHeap c = some client)
    (hid : rq.device_id ≠ 0) (hcmd : rq.command_id = 0xffffffff) :
    (∀ i device, mapFind s.devices rq.device_id = some i →
      mapFind s.deviceHeap i = some device → device.deletion_flag = false →
      ∃ (s0 : Twibd) (client0 : Client) (s1 : Twibd) (device1 : Device),
        s.Process env = s0.Device_SendRequest i rq ∧
        mapFind s0.clientHeap c = some client0 ∧
        mapFind s0.deviceHeap i = some device ∧
        (∀ o obj, o ∈ client.owned_objects → mapFind s.objectHeap o = some obj →
          obj.object_id = rq.object_id →
          o ∉ client0.owned_objects ∧
          ∃ obj0 : BridgeObject, mapFind s0.objectHeap o = some obj0 ∧ obj0.valid = false) ∧
        s0.Device_SendRequest i rq = some s1 ∧
        s1.clientHeap = s0.clientHeap ∧ s1.objectHeap = s0.objectHeap ∧
        mapFind s1.deviceHeap i = some device1 ∧
        device1.received = device.received ++ [rq]) ∧
    ((¬ ∃ i device, mapFind s.devices rq.device_id = some i ∧
        mapFind s.deviceHeap i = some device ∧ device.deletion_flag = false) →
      ∃ s1, s.Process env = some s1 ∧ s1.clientHeap = s.clientHeap ∧
        s1.objectHeap = s.objectHeap) := by
  rw [Process_request_eq env s rq queue hq]
  constructor
  · intro i device hentry hdev hdel
    obtain ⟨client0, hc0, hobjs⟩ :=
      disownObjects_spec { s with dispatch_queue := queue } c rq.object_id client hclient
    have hheap := (disownObjects_deviceHeap { s with dispatch_queue := queue } c rq.object_id).1
    have hd0 : mapFind
        (Twibd.disownObjects { s with dispatch_queue := queue } c rq.object_id).deviceHeap i
        = some device := by rw [hheap]; exact hdev
    have hc1 : ∀ c1, rq.client = some c1 → ∃ id,
        (mapFind (Twibd.disownObjects { s with dispatch_queue := queue } c
          rq.object_id).clientHeap c1).map (fun client => client.client_id) = some id := by
      intro c1 h1
      rw [hc] at h1
      cases h1
      exact ⟨client.client_id, by rw [disownObjects_client_id]; simp [hclient]⟩
    obtain ⟨d1, hsend, hrec, _⟩ := Device_SendRequest_spec _ i device rq hd0 hc1
    refine ⟨_, client0, _, d1, ?_, hc0, hd0, hobjs, hsend, rfl, rfl,
      mapFind_mapAssign_self i d1 _, hrec⟩
    unfold Twibd.ProcessRequest
    simp only [hc, hclient, hid, if_false, hentry, hdev, hdel, Bool.false_eq_true, hcmd, if_true]
  · intro hmiss
    exact ⟨_, ProcessRequest_miss env { s with dispatch_queue := queue } rq c client hc hclient
      hid hmiss, rfl, rfl⟩

/-- C9 at the example: client 21 closes object id 7, which it owns as the object at address
30. -/
theorem Process_close_request_witness :
    ∃ (s0 : Twibd) (client0 : Client) (s1 : Twibd) (device1 : Device),
      exampleClosing.Process exampleEnv = s0.Device_SendRequest 1 exampleCloseRequest ∧
      mapFind s0.clientHeap 4 = some client0 ∧
      (30 ∉ client0.owned_objects ∧
        ∃ obj0 : BridgeObject, mapFind s0.objectHeap 30 = some obj0 ∧ obj0.valid = false) ∧
      s0.Device_SendRequest 1 exampleCloseRequest = some s1 ∧
      s1.clientHeap = s0.clientHeap ∧ s1.objectHeap = s0.objectHeap ∧
      mapFind s1.deviceHeap 1 = some device1 ∧
      device1.received = exampleUsb.received ++ [exampleCloseRequest] := by
  obtain ⟨s0, client0, s1, device1, h1, h2, _, h4, h5, h6, h7, h8, h9⟩ :=
    (Process_close_request exampleEnv exampleClosing exampleCloseRequest [] 4 exampleClient
      (by decide) (by decide) (by decide) (by decide) (by decide)).1 1 exampleUsb
      (by decide) (by decide) (by decide)
  exact ⟨s0, client0, s1, device1, h1, h2,
    h4 30 { device_id := 5, object_id := 7, valid := true } (by decide) (by decide) (by decide),
    h5, h6, h7, h8, h9⟩

/-! ## Claims on the dispatcher: the meta object -/

theorem device_packs_some (heap : Map Device) (m : Map Nat)
    (h : ∀ k w, (k, w) ∈ m → mapFind heap w ≠ none) :
    ∃ packs, device_packs heap m = some packs := by
  induction m with
  | nil => exact ⟨[], rfl⟩
  | cons e rest ih =>
    obtain ⟨k, w⟩ := e
    obtain ⟨packs, hp⟩ := ih (fun k1 w1 hmem => h k1 w1 (List.mem_cons_of_mem _ hmem))
    cases hw : mapFind heap w with
    | none => exact absurd hw (h k w (List.mem_cons_self _ _))
    | some device =>
      refine ⟨devicePack device :: packs, ?_⟩
      unfold device_packs
      simp only [hw, hp, Option.map_some']

/-- The loop of `LIST_DEVICES` does not survive an expired registry entry: the locked pointer is
null and is dereferenced. -/
theorem device_packs_expired (heap : Map Device) (m : Map Nat) (k w : Nat)
    (hmem : (k, w) ∈ m) (hw : mapFind heap w = none) :
    device_packs heap m = none := by
  induction m with
  | nil => cases hmem
  | cons e rest ih =>
    obtain ⟨k1, w1⟩ := e
    unfold device_packs
    rcases List.mem_cons.mp hmem with h | h
    · cases h
      simp only [hw]
    · cases mapFind heap w1 with
      | none => rfl
      | some device => simp only [ih h, Option.map_none']

/-- Function `TCPBackend::Connect` returns; it leaves the queue, the registries, the clients and the
objects alone, and every device afterwards is a device from before, unchanged, or the new
device, which has received the identification request only. -/
theorem TCPBackend_Connect_spec (env : Env) (s : Twibd) (hostname port : List Nat) :
    ∃ s1 msg, s.TCPBackend_Connect env hostname port = some (s1, msg) ∧
      s1.dispatch_queue = s.dispatch_queue ∧ s1.devices = s.devices ∧
      s1.clients = s.clients ∧ s1.clientHeap = s.clientHeap ∧ s1.objectHeap = s.objectHeap ∧
      ∀ j dj, mapFind s1.deviceHeap j = some dj →
        mapFind s.deviceHeap j = some dj ∨ dj.received = [identifyRequest env] := by
  unfold Twibd.TCPBackend_Connect
  cases env.connect hostname port with
  | gaiError msg => exact ⟨s, msg, rfl, rfl, rfl, rfl, rfl, rfl, fun j dj h => Or.inl h⟩
  | socketError msg => exact ⟨s, msg, rfl, rfl, rfl, rfl, rfl, rfl, fun j dj h => Or.inl h⟩
  | connectError msg => exact ⟨s, msg, rfl, rfl, rfl, rfl, rfl, rfl, fun j dj h => Or.inl h⟩
  | connected fd =>
    simp only [Twibd.TCPBackend_Device_Begin, Twibd.TCPBackend_Device_SendRequest,
      mapFind_mapAssign_self, Option.map_some']
    refine ⟨_, _, rfl, rfl, rfl, rfl, rfl, rfl, ?_⟩
    intro j dj hj
    by_cases hjn : j = s.nextRef
    · subst hjn
      right
      simp only [mapFind_mapAssign_self] at hj
      cases hj
      rfl
    · left
      simp only [mapFind_mapAssign_ne _ _ _ _ hjn] at hj
      exact hj

/-- Function `HandleRequest` for a request of a live client: it returns a response for that client with
the request's tag. -/
theorem HandleRequest_spec (env : Env) (s : Twibd) (rq : Request) (c : Nat) (client : Client)
    (hc : rq.client = some c) (hclient : mapFind s.clientHeap c = some client)
    (hlive : rq.object_id = 0 → rq.command_id = LIST_DEVICES →
      ∀ k w, (k, w) ∈ s.devices → mapFind s.deviceHeap w ≠ none) :
    ∃ s1 r, s.HandleRequest env rq = some (s1, r) ∧
      r.client_id = client.client_id ∧ r.tag = rq.tag ∧
      (rq.object_id ≠ 0 → r.result_code = env.UNRECOGNIZED_OBJECT ∧ s1 = s) ∧
      s1.dispatch_queue = s.dispatch_queue ∧ s1.devices = s.devices ∧
      s1.clients = s.clients ∧ s1.clientHeap = s.clientHeap ∧ s1.objectHeap = s.objectHeap ∧
      ∀ j dj, mapFind s1.deviceHeap j = some dj →
        mapFind s.deviceHeap j = some dj ∨ dj.received = [identifyRequest env] := by
  have hr : ∀ code, s.RespondError rq code = some
      { device_id := rq.device_id, client_id := client.client_id, object_id := rq.object_id,
        result_code := code, tag := rq.tag, payload := [], objects := [] } := by
    intro code
    simp [Twibd.RespondError, hc, hclient]
  unfold Twibd.HandleRequest
  by_cases hobj : rq.object_id = 0
  · simp only [hobj, if_true]
    by_cases hlist : rq.command_id = LIST_DEVICES
    · obtain ⟨packs, hp⟩ := device_packs_some s.deviceHeap s.devices (hlive hobj hlist)
      simp only [hlist, if_true, Twibd.RespondOk, hr, hp]
      exact ⟨_, _, rfl, rfl, rfl, fun h => absurd rfl h, rfl, rfl, rfl, rfl, rfl,
        fun j dj h => Or.inl h⟩
    · simp only [hlist, if_false]
      by_cases hconn : rq.command_id = CONNECT_TCP
      · simp only [hconn, if_true]
        split
        · simp only [hr, Option.map_some']
          exact ⟨_, _, rfl, rfl, rfl, fun h => absurd rfl h, rfl, rfl, rfl, rfl, rfl,
            fun j dj h => Or.inl h⟩
        · rename_i hostname port _
          obtain ⟨s1, msg, h1, h2, h3, h4, h5, h6, h7⟩ :=
            TCPBackend_Connect_spec env s hostname port
          simp only [Twibd.RespondOk, hr, h1, Option.map_some']
          exact ⟨_, _, rfl, rfl, rfl, fun h => absurd rfl h, h2, h3, h4, h5, h6, h7⟩
      · simp only [hconn, if_false, hr, Option.map_some']
        exact ⟨_, _, rfl, rfl, rfl, fun h => absurd rfl h, rfl, rfl, rfl, rfl, rfl,
          fun j dj h => Or.inl h⟩
  · simp only [hobj, if_false, hr, Option.map_some']
    exact ⟨_, _, rfl, rfl, rfl, fun _ => ⟨rfl, rfl⟩, rfl, rfl, rfl, rfl, rfl,
      fun j dj h => Or.inl h⟩

/-- Meta requests while no registry entry has expired.  A request with `device_id == 0`, issued
by a live client, is the next job (and, should it be `LIST_DEVICES` to object 0, no registry
entry has expired, as the loop of `LIST_DEVICES` dereferences every entry).  `Process` returns having enqueued exactly one response, for the
issuing client and with the request's tag; the registry is as before, whatever it holds (also
under the key 0), and no device is handed the request: every device afterwards is a device from
before, unchanged, or the device of a connection that `CONNECT_TCP` has just opened, which has
received its identification request and nothing else.  If `object_id != 0` the result code is
`UNRECOGNIZED_OBJECT`, whatever the command, and nothing but the queue changes. -/
theorem Process_meta_request (env : Env) (s : Twibd) (rq : Request) (queue : List Job)
    (c : Nat) (client : Client)
    (hq : s.dispatch_queue = Job.request rq :: queue)
    (hc : rq.client = some c) (hclient : mapFind s.clientHeap c = some client)
    (hid : rq.device_id = 0)
    (hlive : rq.object_id = 0 → rq.command_id = LIST_DEVICES →
      ∀ k w, (k, w) ∈ s.devices → mapFind s.deviceHeap w ≠ none) :
    ∃ (s1 : Twibd) (r : Response), s.Process env = some s1 ∧
      s1.dispatch_queue = queue ++ [Job.response r] ∧
      r.client_id = client.client_id ∧ r.tag = rq.tag ∧
      (rq.object_id ≠ 0 → r.result_code = env.UNRECOGNIZED_OBJECT ∧
        s1 = { s with dispatch_queue := queue ++ [Job.response r] }) ∧
      s1.devices = s.devices ∧ s1.clientHeap = s.clientHeap ∧ s1.objectHeap = s.objectHeap ∧
      ∀ j dj, mapFind s1.deviceHeap j = some dj →
        mapFind s.deviceHeap j = some dj ∨
          (dj.received = [identifyRequest env] ∧ rq ∉ dj.received) := by
  rw [Process_request_eq env s rq queue hq]
  obtain ⟨s1, r, h1, h2, h3, h4, h5, h6, h7, h8, h9, h10⟩ :=
    HandleRequest_spec env { s with dispatch_queue := queue } rq c client hc hclient hlive
  refine ⟨s1.PostResponse r, r, ?_, ?_, h2, h3, ?_, h6, h8, h9, ?_⟩
  · unfold Twibd.ProcessRequest
    simp only [hc, hclient, hid, if_true, h1, Option.map_some']
  · show s1.dispatch_queue ++ [Job.response r] = queue ++ [Job.response r]
    rw [h5]
  · intro hobj
    obtain ⟨hcode, hs⟩ := h4 hobj
    refine ⟨hcode, ?_⟩
    rw [hs]
    rfl
  · intro j dj hj
    rcases h10 j dj hj with h | h
    · exact Or.inl h
    · refine Or.inr ⟨h, ?_⟩
      rw [h]
      intro hmem
      have heq : rq = identifyRequest env := List.mem_singleton.mp hmem
      rw [heq] at hc
      cases hc

/-- Meta requests at the example, whose registry has no expired entry: `LIST_DEVICES` of client
21 is answered with one response for client 21 and tag 81. -/
theorem Process_meta_request_witness :
    ∃ (s1 : Twibd) (r : Response), exampleListing.Process exampleEnv = some s1 ∧
      s1.dispatch_queue = [] ++ [Job.response r] ∧
      r.client_id = exampleClient.client_id ∧ r.tag = exampleListRequest.tag ∧
      (exampleListRequest.object_id ≠ 0 → r.result_code = exampleEnv.UNRECOGNIZED_OBJECT ∧
        s1 = { exampleListing with dispatch_queue := [] ++ [Job.response r] }) ∧
      s1.devices = exampleListing.devices ∧ s1.clientHeap = exampleListing.clientHeap ∧
      s1.objectHeap = exampleListing.objectHeap ∧
      ∀ j dj, mapFind s1.deviceHeap j = some dj →
        mapFind exampleListing.deviceHeap j = some dj ∨
          (dj.received = [identifyRequest exampleEnv] ∧ exampleListRequest ∉ dj.received) :=
  Process_meta_request exampleEnv exampleListing exampleListRequest [] 4 exampleClient
    (by decide) (by decide) (by decide) (by decide)
    (fun _ _ k w hmem => by
      have h : (k, w) = (5, 1) := List.mem_singleton.mp hmem
      cases h
      decide)

/-! ## TCP backend: tearing a device down -/

/-- Tearing a connection down posts nothing: the dispatch queue and the clients are as before,
whatever requests are pending on the device. -/
theorem event_thread_reap_posts_nothing (s s1 : Twibd) (i : Nat)
    (h : s.event_thread_reap i = some s1) :
    s1.dispatch_queue = s.dispatch_queue ∧ s1.clientHeap = s.clientHeap := by
  unfold Twibd.event_thread_reap at h
  cases hobj : mapFind s.deviceHeap i with
  | none => simp [hobj] at h
  | some obj =>
    simp only [hobj] at h
    by_cases hdel : obj.deletion_flag = true
    · simp only [hdel, if_true] at h
      by_cases hadd : obj.added_flag = true
      · simp only [hadd, if_true, Twibd.RemoveDevice, hobj] at h
        cases hreg : mapFind s.devices obj.device_id with
        | none => simp [hreg] at h
        | some w =>
          simp only [hreg, Option.map_some', Option.some.injEq] at h
          subst h
          exact ⟨rfl, rfl⟩
      · simp only [hadd, Bool.false_eq_true, if_false, Option.map_some',
          Option.some.injEq] at h
        subst h
        exact ⟨rfl, rfl⟩
    · simp only [hdel, Bool.false_eq_true, if_false, Option.some.injEq] at h
      subst h
      exact ⟨rfl, rfl⟩

/-- C6 (evaluation of the code): client 21 has one request with tag 0xDEADBEEF outstanding on
the TCP device: after `Process` the device holds the pending entry for it.  The connection then
fails and the event thread tears the device down: the connection, the device and its registry
entry are gone, and with them the pending entry, but the dispatch queue is empty and client 21
has been handed nothing: no response with `UNRECOGNIZED_DEVICE` and the tag 0xDEADBEEF is ever
produced. -/
theorem teardown_drops_pending_requests :
    (examplePending.Process exampleEnv).map
        (fun s1 => (mapFind s1.deviceHeap 2).map (fun d => d.pending_requests))
      = some (some [{ client := some 4, tag := 0xDEADBEEF }]) ∧
    exampleTeardown.map (fun s2 => (s2.connections, s2.devices, s2.deviceHeap))
      = some ([], [], []) ∧
    exampleTeardown.map (fun s2 => s2.dispatch_queue) = some [] ∧
    exampleTeardown.map (fun s2 => (mapFind s2.clientHeap 4).map (fun client => client.posted))
      = some (some []) := by
  decide

/-! ## Claims on the meta object -/

theorem RespondError_live (s : Twibd) (rq : Request) (c : Nat) (client : Client) (code : Nat)
    (hc : rq.client = some c) (hclient : mapFind s.clientHeap c = some client) :
    s.RespondError rq code = some
      { device_id := rq.device_id, client_id := client.client_id, object_id := rq.object_id,
        result_code := code, tag := rq.tag, payload := [], objects := [] } := by
  simp [Twibd.RespondError, hc, hclient]

/-- C11. For a request of a live client to object 0 of the meta device whose command is neither
`LIST_DEVICES` nor `CONNECT_TCP`, `HandleRequest` returns a response with the result code
`UNRECOGNIZED_FUNCTION`, the request's tag and the issuing client's id, and the daemon state it
returns is the state it was called in: no connection is opened and the registry is unchanged,
whatever the network would answer. -/
theorem HandleRequest_unknown_command (env : Env) (s : Twibd) (rq : Request) (c : Nat)
    (client : Client)
    (hc : rq.client = some c) (hclient : mapFind s.clientHeap c = some client)
    (hobj : rq.object_id = 0)
    (hlist : rq.command_id ≠ LIST_DEVICES) (hconn : rq.command_id ≠ CONNECT_TCP) :
    ∃ r : Response, s.HandleRequest env rq = some (s, r) ∧
      r.result_code = env.UNRECOGNIZED_FUNCTION ∧ r.tag = rq.tag ∧
      r.client_id = client.client_id ∧ r.payload = [] ∧ r.objects = [] ∧
      ∀ f, s.HandleRequest { env with connect := f } rq = some (s, r) := by
  refine ⟨{ device_id := rq.device_id, client_id := client.client_id,
            object_id := rq.object_id, result_code := env.UNRECOGNIZED_FUNCTION,
            tag := rq.tag, payload := [], objects := [] }, ?_, rfl, rfl, rfl, rfl, rfl, ?_⟩
  · unfold Twibd.HandleRequest
    simp only [hobj, if_true, hlist, hconn, if_false,
      RespondError_live s rq c client _ hc hclient, Option.map_some']
  · intro f
    unfold Twibd.HandleRequest
    simp only [hobj, if_true, hlist, hconn, if_false,
      RespondError_live s rq c client _ hc hclient, Option.map_some']

/-- C11 at the example: command 12 is not a command of the meta object. -/
theorem HandleRequest_unknown_command_witness :
    ∃ r : Response, exampleResponding.HandleRequest exampleEnv exampleUnknownRequest
        = some (exampleResponding, r) ∧
      r.result_code = exampleEnv.UNRECOGNIZED_FUNCTION ∧ r.tag = exampleUnknownRequest.tag ∧
      r.client_id = exampleClient.client_id ∧ r.payload = [] ∧ r.objects = [] ∧
      ∀ f, exampleResponding.HandleRequest { exampleEnv with connect := f }
        exampleUnknownRequest = some (exampleResponding, r) :=
  HandleRequest_unknown_command exampleEnv exampleResponding exampleUnknownRequest 4
    exampleClient (by decide) (by decide) (by decide) (by decide) (by decide)

/-- The elements built by the `LIST_DEVICES` loop: one per registry entry, in the order of the
registry, each made from the device the entry refers to. -/
theorem device_packs_spec (heap : Map Device) (m : Map Nat)
    (h : ∀ k w, (k, w) ∈ m → mapFind heap w ≠ none) :
    ∃ devs : List Device, List.Forall₂ (fun e d => mapFind heap e.2 = some d) m devs ∧
      device_packs heap m = some (devs.map devicePack) := by
  induction m with
  | nil => exact ⟨[], List.Forall₂.nil, rfl⟩
  | cons e rest ih =>
    obtain ⟨k, w⟩ := e
    obtain ⟨devs, hall, hp⟩ := ih (fun k1 w1 hmem => h k1 w1 (List.mem_cons_of_mem _ hmem))
    cases hw : mapFind heap w with
    | none => exact absurd hw (h k w (List.mem_cons_self _ _))
    | some device =>
      refine ⟨device :: devs, List.Forall₂.cons hw hall, ?_⟩
      unfold device_packs
      simp only [hw, hp, Option.map_some', List.map_cons]

/-- The device list while no registry entry has expired.  For a `LIST_DEVICES` request of a
live client to object 0, in a daemon whose registry holds no expired entry, `HandleRequest` returns (leaving the daemon as it was) a response with
result code 0 whose payload is the serialisation of an array with exactly one element per entry
of the device registry, in the order of the registry; the element for an entry is the object
with the fields `device_id`, `bridge_type` and `identification` of the device the entry refers
to.  With an empty registry the payload is the serialisation of the empty array. -/
theorem HandleRequest_LIST_DEVICES (env : Env) (s : Twibd) (rq : Request) (c : Nat)
    (client : Client)
    (hc : rq.client = some c) (hclient : mapFind s.clientHeap c = some client)
    (hobj : rq.object_id = 0) (hcmd : rq.command_id = LIST_DEVICES)
    (hlive : ∀ k w, (k, w) ∈ s.devices → mapFind s.deviceHeap w ≠ none) :
    ∃ (r : Response) (devs : List Device),
      s.HandleRequest env rq = some (s, r) ∧
      r.result_code = 0 ∧ r.tag = rq.tag ∧ r.client_id = client.client_id ∧
      List.Forall₂ (fun e d => mapFind s.deviceHeap e.2 = some d) s.devices devs ∧
      devs.length = s.devices.length ∧
      r.payload = env.dump (MsgPack.array (MsgPackList.ofList (devs.map (fun d =>
        MsgPack.object
          (MsgPackFields.cons "device_id" (MsgPack.uint d.device_id)
            (MsgPackFields.cons "bridge_type" (MsgPack.str d.GetBridgeType)
              (MsgPackFields.cons "identification" d.identification
                MsgPackFields.nil))))))) ∧
      (s.devices = [] → r.payload = env.dump (MsgPack.array MsgPackList.nil)) := by
  obtain ⟨devs, hall, hp⟩ := device_packs_spec s.deviceHeap s.devices hlive
  have hr := RespondError_live s rq c client 0 hc hclient
  refine ⟨{ device_id := rq.device_id, client_id := client.client_id,
            object_id := rq.object_id, result_code := 0, tag := rq.tag,
            payload := env.dump (MsgPack.array (MsgPackList.ofList (devs.map devicePack))),
            objects := [] }, devs, ?_, rfl, rfl, rfl, hall, hall.length_eq.symm, rfl, ?_⟩
  · unfold Twibd.HandleRequest
    simp only [hobj, if_true, hcmd, Twibd.RespondOk, hr, hp]
  · intro hempty
    rw [hempty] at hall
    cases hall
    rfl

/-- The device list at the example: the registry holds the USB device under id 5. -/
theorem HandleRequest_LIST_DEVICES_witness :
    ∃ (r : Response) (devs : List Device),
      exampleResponding.HandleRequest exampleEnv exampleListRequest
        = some (exampleResponding, r) ∧
      r.result_code = 0 ∧ r.tag = exampleListRequest.tag ∧
      r.client_id = exampleClient.client_id ∧
      List.Forall₂ (fun e d => mapFind exampleResponding.deviceHeap e.2 = some d)
        exampleResponding.devices devs ∧
      devs.length = exampleResponding.devices.length ∧
      r.payload = exampleEnv.dump (MsgPack.array (MsgPackList.ofList (devs.map (fun d =>
        MsgPack.object
          (MsgPackFields.cons "device_id" (MsgPack.uint d.device_id)
            (MsgPackFields.cons "bridge_type" (MsgPack.str d.GetBridgeType)
              (MsgPackFields.cons "identification" d.identification
                MsgPackFields.nil))))))) ∧
      (exampleResponding.devices = [] →
        r.payload = exampleEnv.dump (MsgPack.array MsgPackList.nil)) :=
  HandleRequest_LIST_DEVICES exampleEnv exampleResponding exampleListRequest 4 exampleClient
    (by decide) (by decide) (by decide) (by decide)
    (fun k w hmem => by
      have h : (k, w) = (5, 1) := List.mem_singleton.mp hmem
      cases h
      decide)

/-- What `CONNECT_TCP` reads from its payload: the reads fail exactly when the payload is shorter
than the two 8-byte lengths followed by as many bytes as the lengths say; otherwise the host name
is the `hostname_len` bytes at offset 16 and the port the `port_len` bytes after it. -/
theorem connectTcpArguments_eq (payload : List Nat) :
    connectTcpArguments payload =
      if payload.length < 16 ∨
          payload.length < 16 + leValue (payload.take 8) + leValue ((payload.drop 8).take 8)
      then none
      else some ((payload.drop 16).take (leValue (payload.take 8)),
        (payload.drop (16 + leValue (payload.take 8))).take
          (leValue ((payload.drop 8).take 8))) := by
  have hlen : (payload.drop 8).length = payload.length - 8 := List.length_drop 8 payload
  have hlen16 : (payload.drop 16).length = payload.length - 16 := List.length_drop 16 payload
  have hdrop : (payload.drop 8).drop 8 = payload.drop 16 := by rw [List.drop_drop]
  by_cases h1 : payload.length < 8
  · have h16 : payload.length < 16 := by omega
    simp only [connectTcpArguments, Buffer_ReadSize, h1, if_true, Option.none_bind, h16,
      true_or]
  · by_cases h2 : payload.length - 8 < 8
    · have h16 : payload.length < 16 := by omega
      simp only [connectTcpArguments, Buffer_ReadSize, h1, if_false, Option.some_bind, hlen,
        h2, if_true, Option.none_bind, h16, true_or]
    · have h16 : ¬ payload.length < 16 := by omega
      by_cases h3 : payload.length - 16 < leValue (payload.take 8)
      · have ht : payload.length < 16 + leValue (payload.take 8)
            + leValue ((payload.drop 8).take 8) := by omega
        simp only [connectTcpArguments, Buffer_ReadSize, Buffer_ReadString, h1, if_false,
          Option.some_bind, hlen, h2, hdrop, hlen16, h3, if_true, Option.none_bind, ht,
          or_true]
      · have hlen3 : ((payload.drop 16).drop (leValue (payload.take 8))).length
            = payload.length - 16 - leValue (payload.take 8) := by
          rw [List.length_drop, hlen16]
        have hdrop3 : (payload.drop 16).drop (leValue (payload.take 8))
            = payload.drop (16 + leValue (payload.take 8)) := by rw [List.drop_drop]
        by_cases h4 : payload.length - 16 - leValue (payload.take 8)
            < leValue ((payload.drop 8).take 8)
        · have ht : payload.length < 16 + leValue (payload.take 8)
              + leValue ((payload.drop 8).take 8) := by omega
          simp only [connectTcpArguments, Buffer_ReadSize, Buffer_ReadString, h1, if_false,
            Option.some_bind, hlen, h2, hdrop, hlen16, h3, hlen3, h4, if_true,
            Option.none_bind, ht, or_true]
        · have ht : ¬ payload.length < 16 + leValue (payload.take 8)
              + leValue ((payload.drop 8).take 8) := by omega
          have hlen3b : (payload.drop (16 + leValue (payload.take 8))).length
              = payload.length - 16 - leValue (payload.take 8) := by
            rw [← hdrop3]; exact hlen3
          simp only [connectTcpArguments, Buffer_ReadSize, Buffer_ReadString, h1, if_false,
            Option.some_bind, hlen, h2, hdrop, hlen16, h3, hdrop3, hlen3b, h4, h16, ht,
            or_self]

theorem HandleRequest_CONNECT_TCP_eq (env : Env) (s : Twibd) (rq : Request)
    (hobj : rq.object_id = 0) (hcmd : rq.command_id = CONNECT_TCP) :
    s.HandleRequest env rq =
      match connectTcpArguments rq.payload with
      | none => (s.RespondError rq env.BAD_REQUEST).map (fun r => (s, r))
      | some (hostname, port) =>
        match s.RespondOk rq with
        | none => none
        | some r =>
          (s.TCPBackend_Connect env hostname port).map
            (fun (s1, msg) => (s1, { r with payload := msg })) := by
  have hne : ¬ CONNECT_TCP = LIST_DEVICES := by decide
  unfold Twibd.HandleRequest
  simp only [hobj, if_true, hcmd, hne, if_false]
  rfl

/-- C13. For a `CONNECT_TCP` request of a live client to object 0 (the constant `BAD_REQUEST`
being a non-zero result code), `HandleRequest` returns a response, and its result code is
`BAD_REQUEST` if and only if the payload is too short to hold the two 8-byte lengths
`hostname_len` and `port_len` followed by `hostname_len + port_len` bytes.  In that case the
daemon is left as it was and the answer does not depend on the network: no connection is
attempted.  Otherwise the connect path is called with the `hostname_len` bytes at offset 16 as
host name and the `port_len` bytes after them as port, and the response has result code 0 and
as payload the text the connect path returned. -/
theorem HandleRequest_CONNECT_TCP (env : Env) (s : Twibd) (rq : Request) (c : Nat)
    (client : Client)
    (hc : rq.client = some c) (hclient : mapFind s.clientHeap c = some client)
    (hobj : rq.object_id = 0) (hcmd : rq.command_id = CONNECT_TCP)
    (hbad : env.BAD_REQUEST ≠ 0) :
    ∃ (s1 : Twibd) (r : Response), s.HandleRequest env rq = some (s1, r) ∧
      r.tag = rq.tag ∧ r.client_id = client.client_id ∧
      (r.result_code = env.BAD_REQUEST ↔
        (rq.payload.length < 16 ∨ rq.payload.length <
          16 + leValue (rq.payload.take 8) + leValue ((rq.payload.drop 8).take 8))) ∧
      ((rq.payload.length < 16 ∨ rq.payload.length <
          16 + leValue (rq.payload.take 8) + leValue ((rq.payload.drop 8).take 8)) →
        s1 = s ∧ r.payload = [] ∧
        ∀ f, s.HandleRequest { env with connect := f } rq = some (s, r)) ∧
      (¬ (rq.payload.length < 16 ∨ rq.payload.length <
          16 + leValue (rq.payload.take 8) + leValue ((rq.payload.drop 8).take 8)) →
        r.result_code = 0 ∧
        s.TCPBackend_Connect env
          ((rq.payload.drop 16).take (leValue (rq.payload.take 8)))
          ((rq.payload.drop (16 + leValue (rq.payload.take 8))).take
            (leValue ((rq.payload.drop 8).take 8)))
          = some (s1, r.payload)) := by
  have hr := fun code => RespondError_live s rq c client code hc hclient
  by_cases hshort : rq.payload.length < 16 ∨ rq.payload.length <
      16 + leValue (rq.payload.take 8) + leValue ((rq.payload.drop 8).take 8)
  · have hargs : connectTcpArguments rq.payload = none := by
      rw [connectTcpArguments_eq, if_pos hshort]
    have heq : ∀ f, s.HandleRequest { env with connect := f } rq = some (s,
        { device_id := rq.device_id, client_id := client.client_id, object_id := rq.object_id,
          result_code := env.BAD_REQUEST, tag := rq.tag, payload := [], objects := [] }) := by
      intro f
      rw [HandleRequest_CONNECT_TCP_eq _ s rq hobj hcmd, hargs]
      simp only [hr, Option.map_some']
    refine ⟨s, _, heq env.connect, rfl, rfl, ?_, ?_, ?_⟩
    · exact ⟨fun _ => hshort, fun _ => rfl⟩
    · intro _
      exact ⟨rfl, rfl, heq⟩
    · intro h
      exact absurd hshort h
  · have hargs : connectTcpArguments rq.payload = some
        ((rq.payload.drop 16).take (leValue (rq.payload.take 8)),
          (rq.payload.drop (16 + leValue (rq.payload.take 8))).take
            (leValue ((rq.payload.drop 8).take 8))) := by
      rw [connectTcpArguments_eq, if_neg hshort]
    obtain ⟨s1, msg, hconnect, _⟩ := TCPBackend_Connect_spec env s
      ((rq.payload.drop 16).take (leValue (rq.payload.take 8)))
      ((rq.payload.drop (16 + leValue (rq.payload.take 8))).take
        (leValue ((rq.payload.drop 8).take 8)))
    refine ⟨s1, { device_id := rq.device_id, client_id := client.client_id,
                  object_id := rq.object_id, result_code := 0, tag := rq.tag,
                  payload := msg, objects := [] }, ?_, rfl, rfl, ?_, ?_, ?_⟩
    · rw [HandleRequest_CONNECT_TCP_eq env s rq hobj hcmd, hargs]
      simp only [Twibd.RespondOk, hr, hconnect, Option.map_some']
    · constructor
      · intro h
        exact absurd h.symm hbad
      · intro h
        exact absurd h hshort
    · intro h
      exact absurd h hshort
    · intro _
      exact ⟨rfl, hconnect⟩

/-- C13 at the example: the payload names the host `a` and the port `80`. -/
theorem HandleRequest_CONNECT_TCP_witness :
    ∃ (s1 : Twibd) (r : Response),
      exampleResponding.HandleRequest exampleEnv exampleConnectRequest = some (s1, r) ∧
      r.result_code = 0 ∧
      exampleResponding.TCPBackend_Connect exampleEnv [97] [56, 48] = some (s1, r.payload) := by
  obtain ⟨s1, r, h1, _, _, _, _, h6⟩ :=
    HandleRequest_CONNECT_TCP exampleEnv exampleResponding exampleConnectRequest 4 exampleClient
      (by decide) (by decide) (by decide) (by decide) (by decide)
  exact ⟨s1, r, h1, h6 (by decide)⟩

/-! ## Claims on the client map -/

/-- The id the loop of `AddClient` ends with: a drawn value, unused, and every value drawn before
it was in use. -/
theorem drawClientId_spec (clients : Map Nat) (rng : List Nat)
    (h : ∃ x ∈ rng, mapFind clients (x % 4294967296) = none) :
    ∃ pre x rest, rng = pre ++ x :: rest ∧
      (∀ y ∈ pre, mapFind clients (y % 4294967296) ≠ none) ∧
      mapFind clients (x % 4294967296) = none ∧
      drawClientId clients rng = some (x % 4294967296) := by
  induction rng with
  | nil =>
    obtain ⟨x, hx, _⟩ := h
    cases hx
  | cons y rest ih =>
    cases hy : mapFind clients (y % 4294967296) with
    | none =>
      refine ⟨[], y, rest, rfl, ?_, hy, ?_⟩
      · intro z hz
        cases hz
      · simp only [drawClientId, hy]
    | some w =>
      obtain ⟨x, hx, hfree⟩ := h
      have hrest : ∃ x ∈ rest, mapFind clients (x % 4294967296) = none := by
        rcases List.mem_cons.mp hx with h1 | h1
        · rw [h1, hy] at hfree
          cases hfree
        · exact ⟨x, h1, hfree⟩
      obtain ⟨pre, x1, rest1, h1, h2, h3, h4⟩ := ih hrest
      refine ⟨y :: pre, x1, rest1, by rw [h1]; rfl, ?_, h3, ?_⟩
      · intro z hz
        rcases List.mem_cons.mp hz with h5 | h5
        · rw [h5, hy]
          exact fun h => Option.noConfusion h
        · exact h2 z h5
      · simp only [drawClientId, hy, h4]

theorem clientIdsDistinct_of_carry (s : Twibd) (h : s.clientsCarryTheirId) :
    s.clientIdsDistinct := by
  intro k1 k2 c1 c2 cl1 cl2 h1 h2 h3 h4 hne heq
  have e1 := h k1 c1 cl1 h1 h3
  have e2 := h k2 c2 cl2 h2 h4
  have hk : k1 = k2 := by rw [← e1, ← e2, heq]
  rw [hk, h2] at h1
  exact hne (Option.some.inj h1).symm

/-- C14. When the random generator yields, sooner or later, a value that is not a key of the
client map, `AddClient` returns: the id it assigns was not a key of the client map before the
call, the client is registered under that id and carries it, and all other entries of the
client map and all other clients are unchanged.  Hence, in a daemon in which every registered
client carries the id it is registered under, adding a client that is not yet registered keeps
that property, and no two registered clients share a `client_id`.  `RemoveClient`, the only
operation that erases from the client map, returns for a client whose id is a key of the map,
erases exactly the entry of that id and keeps the property too; so an id that is a key of the map is not assigned again before
`RemoveClient` has erased it. -/
theorem AddClient_assigns_fresh_id (s : Twibd) (client : Nat) (cl : Client) (rng : List Nat)
    (hcl : mapFind s.clientHeap client = some cl)
    (hrng : ∃ x ∈ rng, mapFind s.clients (x % 4294967296) = none) :
    (∃ (s1 : Twibd) (id : Nat), s.AddClient client rng = some s1 ∧
      (∃ x ∈ rng, id = x % 4294967296) ∧
      mapFind s.clients id = none ∧
      mapFind s1.clients id = some client ∧
      mapFind s1.clientHeap client = some { cl with client_id := id } ∧
      (∀ k, k ≠ id → mapFind s1.clients k = mapFind s.clients k) ∧
      (∀ j, j ≠ client → mapFind s1.clientHeap j = mapFind s.clientHeap j) ∧
      ((∀ k, mapFind s.clients k ≠ some client) → s.clientsCarryTheirId →
        s1.clientsCarryTheirId ∧ s1.clientIdsDistinct)) ∧
    (∀ w, mapFind s.clients cl.client_id = some w →
      ∃ s2 : Twibd, s.RemoveClient client = some s2 ∧
        mapFind s2.clients cl.client_id = none ∧
        (∀ k, k ≠ cl.client_id → mapFind s2.clients k = mapFind s.clients k) ∧
        s2.clientHeap = s.clientHeap ∧
        (s.clientsCarryTheirId → s2.clientsCarryTheirId ∧ s2.clientIdsDistinct)) := by
  constructor
  · obtain ⟨pre, x, rest, hsplit, _, hfree, hdraw⟩ := drawClientId_spec s.clients rng hrng
    have hmem : x ∈ rng := by rw [hsplit]; simp
    refine ⟨{ s with clientHeap := mapAssign client { cl with client_id := x % 4294967296 }
                       s.clientHeap,
                     clients := mapAssign (x % 4294967296) client s.clients },
      x % 4294967296, ?_, ⟨x, hmem, rfl⟩, hfree, mapFind_mapAssign_self _ _ _,
      mapFind_mapAssign_self _ _ _, fun k hk => mapFind_mapAssign_ne _ _ _ _ hk,
      fun j hj => mapFind_mapAssign_ne _ _ _ _ hj, ?_⟩
    · simp only [Twibd.AddClient, hcl, hdraw]
    · intro hunreg hcarry
      have hc1 : Twibd.clientsCarryTheirId
          { s with clientHeap := mapAssign client { cl with client_id := x % 4294967296 }
                     s.clientHeap,
                   clients := mapAssign (x % 4294967296) client s.clients } := by
        intro k c1 cl1 h1 h2
        by_cases hk : k = x % 4294967296
        · subst hk
          have h3 : mapFind (mapAssign (x % 4294967296) client s.clients)
              (x % 4294967296) = some c1 := h1
          rw [mapFind_mapAssign_self] at h3
          have hc : c1 = client := (Option.some.inj h3).symm
          subst hc
          have h4 : mapFind (mapAssign c1 { cl with client_id := x % 4294967296 }
              s.clientHeap) c1 = some cl1 := h2
          rw [mapFind_mapAssign_self] at h4
          rw [← Option.some.inj h4]
        · have h3 : mapFind (mapAssign (x % 4294967296) client s.clients) k = some c1 := h1
          rw [mapFind_mapAssign_ne _ _ _ _ hk] at h3
          have hc : c1 ≠ client := by
            intro e
            rw [e] at h3
            exact hunreg k h3
          have h4 : mapFind (mapAssign client { cl with client_id := x % 4294967296 }
              s.clientHeap) c1 = some cl1 := h2
          rw [mapFind_mapAssign_ne _ _ _ _ hc] at h4
          exact hcarry k c1 cl1 h3 h4
      exact ⟨hc1, clientIdsDistinct_of_carry _ hc1⟩
  · intro w hreg
    refine ⟨{ s with clients := mapErase cl.client_id s.clients }, ?_,
      mapFind_mapErase_self _ _, fun k hk => mapFind_mapErase_ne _ _ _ hk, rfl, ?_⟩
    · simp only [Twibd.RemoveClient, hcl, hreg]
    · intro hcarry
      have hc2 : Twibd.clientsCarryTheirId
          { s with clients := mapErase cl.client_id s.clients } := by
        intro k c1 cl1 h1 h2
        have h3 : mapFind (mapErase cl.client_id s.clients) k = some c1 := h1
        by_cases hk : k = cl.client_id
        · rw [hk, mapFind_mapErase_self] at h3
          cases h3
        · rw [mapFind_mapErase_ne _ _ _ hk] at h3
          exact hcarry k c1 cl1 h3 h2
      exact ⟨hc2, clientIdsDistinct_of_carry _ hc2⟩

/-- C14 at the example: the generator first yields 9, which is taken by the local client, then
40. -/
theorem AddClient_assigns_fresh_id_witness :
    ∃ (s1 : Twibd) (id : Nat), exampleUnregistered.AddClient 4 [9, 40] = some s1 ∧
      (∃ x ∈ [9, 40], id = x % 4294967296) ∧
      mapFind exampleUnregistered.clients id = none ∧
      mapFind s1.clients id = some 4 ∧
      mapFind s1.clientHeap 4 = some { exampleClient with client_id := id } ∧
      (∀ k, k ≠ id → mapFind s1.clients k = mapFind exampleUnregistered.clients k) ∧
      (∀ j, j ≠ 4 → mapFind s1.clientHeap j = mapFind exampleUnregistered.clientHeap j) ∧
      ((∀ k, mapFind exampleUnregistered.clients k ≠ some 4) →
        exampleUnregistered.clientsCarryTheirId →
        s1.clientsCarryTheirId ∧ s1.clientIdsDistinct) :=
  (AddClient_assigns_fresh_id exampleUnregistered 4 exampleClient [9, 40] (by decide)
    ⟨40, by decide, by decide⟩).1

theorem drawClientId_append (clients : Map Nat) (pre : List Nat) (x : Nat) (rest : List Nat)
    (hpre : ∀ y ∈ pre, mapFind clients (y % 4294967296) ≠ none)
    (hx : mapFind clients (x % 4294967296) = none) :
    drawClientId clients (pre ++ x :: rest) = some (x % 4294967296) := by
  induction pre with
  | nil => simp only [List.nil_append, drawClientId, hx]
  | cons y pre ih =>
    have hy := hpre y (List.mem_cons_self _ _)
    cases h : mapFind clients (y % 4294967296) with
    | none => exact absurd h hy
    | some w =>
      simp only [List.cons_append, drawClientId, h]
      exact ih (fun z hz => hpre z (List.mem_cons_of_mem _ hz))

/-- C15 (the claim fails): the generator yields 0 while 0 is not a key of the client map, and
`AddClient` gives the client the id 0 and registers it under 0. -/
theorem AddClient_assigns_zero :
    (exampleUnregistered.AddClient 4 [0]).map
        (fun s1 => ((mapFind s1.clientHeap 4).map (fun cl => cl.client_id),
          mapFind s1.clients 0))
      = some (some 0, some 4) := by
  decide

/-- C15 (amended). The id `AddClient` assigns is the first value the random generator produces
(as a 32-bit number) that is not a key of the client map, whatever that value is: the values
drawn before it are keys of the map, the client carries it and is registered under it.  The
value 0 is treated like any other. -/
theorem AddClient_assigns_first_unused (s : Twibd) (client : Nat) (cl : Client)
    (pre : List Nat) (x : Nat) (rest : List Nat)
    (hcl : mapFind s.clientHeap client = some cl)
    (hpre : ∀ y ∈ pre, mapFind s.clients (y % 4294967296) ≠ none)
    (hx : mapFind s.clients (x % 4294967296) = none) :
    ∃ s1 : Twibd, s.AddClient client (pre ++ x :: rest) = some s1 ∧
      mapFind s1.clientHeap client = some { cl with client_id := x % 4294967296 } ∧
      mapFind s1.clients (x % 4294967296) = some client := by
  refine ⟨{ s with clientHeap := mapAssign client { cl with client_id := x % 4294967296 }
                     s.clientHeap,
                   clients := mapAssign (x % 4294967296) client s.clients },
    ?_, mapFind_mapAssign_self _ _ _, mapFind_mapAssign_self _ _ _⟩
  simp only [Twibd.AddClient, hcl, drawClientId_append s.clients pre x rest hpre hx]

/-- C15 (amended) at the example: the generator yields 9, which is taken, then 0. -/
theorem AddClient_assigns_first_unused_witness :
    ∃ s1 : Twibd, exampleUnregistered.AddClient 4 ([9] ++ 0 :: []) = some s1 ∧
      mapFind s1.clientHeap 4 = some { exampleClient with client_id := 0 % 4294967296 } ∧
      mapFind s1.clients (0 % 4294967296) = some 4 :=
  AddClient_assigns_first_unused exampleUnregistered 4 exampleClient [9] 0 [] (by decide)
    (by decide) (by decide)

/-! ## Claims on the TCP backend: the identification handshake -/

theorem Begin_spec (env : Env) (s : Twibd) (dev : Nat) (d : Device)
    (hd : mapFind s.deviceHeap dev = some d) :
    ∃ (s1 : Twibd) (d1 : Device), s.TCPBackend_Device_Begin env dev = some s1 ∧
      mapFind s1.deviceHeap dev = some d1 ∧
      d1.out_buffer = d.out_buffer ++ MessageHeader.encode
        { client_id := 0xFFFFFFFF, object_id := 0, command_id := env.IDENTIFY,
          tag := 0xFFFFFFFF, payload_size := 0, object_count := 0 } ∧
      d1.pending_requests = d.pending_requests ++ [{ client := none, tag := 0xFFFFFFFF }] ∧
      s1.connections = s.connections := by
  unfold Twibd.TCPBackend_Device_Begin Twibd.TCPBackend_Device_SendRequest
  simp only [hd]
  exact ⟨_, _, rfl, mapFind_mapAssign_self dev _ _, List.append_nil _, rfl, rfl⟩

/-- C19. `Device::Begin` on a TCP device returns having appended to the device's output buffer
exactly one header, with `client_id` 0xFFFFFFFF, `object_id` 0, `command_id` `IDENTIFY`, tag
0xFFFFFFFF, `payload_size` 0 and `object_count` 0, and no payload bytes, and having recorded the
request in the device's `pending_requests`.  For a connection that `TCPBackend::Connect` has
just opened this header is the first thing in the output buffer and the identification request
the only pending request. -/
theorem Begin_sends_identify (env : Env) (s : Twibd) (dev : Nat) (d : Device)
    (hd : mapFind s.deviceHeap dev = some d) :
    (∃ (s1 : Twibd) (d1 : Device), s.TCPBackend_Device_Begin env dev = some s1 ∧
      mapFind s1.deviceHeap dev = some d1 ∧
      d1.out_buffer = d.out_buffer ++ MessageHeader.encode
        { client_id := 0xFFFFFFFF, object_id := 0, command_id := env.IDENTIFY,
          tag := 0xFFFFFFFF, payload_size := 0, object_count := 0 } ∧
      d1.pending_requests = d.pending_requests ++ [{ client := none, tag := 0xFFFFFFFF }]) ∧
    (∀ hostname port fd, env.connect hostname port = ConnectOutcome.connected fd →
      ∃ (s2 : Twibd) (d2 : Device) (msg : List Nat),
        s.TCPBackend_Connect env hostname port = some (s2, msg) ∧
        s2.connections = s.connections ++ [s.nextRef] ∧
        mapFind s2.deviceHeap s.nextRef = some d2 ∧
        d2.out_buffer = MessageHeader.encode
          { client_id := 0xFFFFFFFF, object_id := 0, command_id := env.IDENTIFY,
            tag := 0xFFFFFFFF, payload_size := 0, object_count := 0 } ∧
        d2.pending_requests = [{ client := none, tag := 0xFFFFFFFF }]) := by
  constructor
  · obtain ⟨s1, d1, h1, h2, h3, h4, _⟩ := Begin_spec env s dev d hd
    exact ⟨s1, d1, h1, h2, h3, h4⟩
  · intro hostname port fd hconn
    obtain ⟨s2, d2, h1, h2, h3, h4, h5⟩ := Begin_spec env
      { s with nextRef := s.nextRef + 1,
               deviceHeap := mapAssign s.nextRef (Device.fresh fd) s.deviceHeap,
               connections := s.connections ++ [s.nextRef] }
      s.nextRef (Device.fresh fd) (mapFind_mapAssign_self _ _ _)
    refine ⟨s2, d2, [79, 107], ?_, h5, h2, ?_, ?_⟩
    · unfold Twibd.TCPBackend_Connect
      simp only [hconn, h1, Option.map_some']
    · exact h3.trans (List.nil_append _)
    · exact h4.trans (List.nil_append _)

/-- C19 at the example: `Begin` on the TCP device at address 2. -/
theorem Begin_sends_identify_witness :
    ∃ (s1 : Twibd) (d1 : Device), exampleState.TCPBackend_Device_Begin exampleEnv 2 = some s1 ∧
      mapFind s1.deviceHeap 2 = some d1 ∧
      d1.out_buffer = exampleTcp.out_buffer ++ MessageHeader.encode
        { client_id := 0xFFFFFFFF, object_id := 0, command_id := exampleEnv.IDENTIFY,
          tag := 0xFFFFFFFF, payload_size := 0, object_count := 0 } ∧
      d1.pending_requests = exampleTcp.pending_requests ++
        [{ client := none, tag := 0xFFFFFFFF }] :=
  (Begin_sends_identify exampleEnv exampleState 2 exampleTcp (by decide)).1

/-- The object-id loop of `IncomingMessage` runs to its end exactly when the buffer holds four
bytes for each of the `count` announced ids. -/
theorem createBridgeObjects_isSome (device_id count : Nat) (object_ids : List Nat)
    (heap : Map BridgeObject) (next : Nat) :
    (createBridgeObjects device_id count object_ids heap next).1 ≠ none ↔
      4 * count ≤ object_ids.length := by
  induction count generalizing object_ids heap next with
  | zero => simp [createBridgeObjects]
  | succ n ih =>
    unfold createBridgeObjects Buffer_ReadU32
    by_cases hshort : object_ids.length < 4
    · simp only [hshort, if_true]
      constructor
      · intro h
        exact absurd rfl h
      · intro h
        omega
    · simp only [hshort, if_false]
      have hlen : (object_ids.drop 4).length = object_ids.length - 4 := List.length_drop 4 _
      have := ih (object_ids.drop 4)
        (mapAssign next { device_id := device_id, object_id := leValue (object_ids.take 4),
                          valid := true } heap) (next + 1)
      constructor
      · intro h
        have h1 : (createBridgeObjects device_id n (object_ids.drop 4)
            (mapAssign next { device_id := device_id,
                              object_id := leValue (object_ids.take 4), valid := true } heap)
            (next + 1)).1 ≠ none := by
          intro e
          apply h
          simp only [e, Option.map_none']
        have := this.mp h1
        omega
      · intro h
        have h1 := this.mpr (by omega)
        intro e
        apply h1
        cases hm : (createBridgeObjects device_id n (object_ids.drop 4)
            (mapAssign next { device_id := device_id,
                              object_id := leValue (object_ids.take 4), valid := true } heap)
            (next + 1)).1 with
        | none => rfl
        | some objs =>
          simp only [hm, Option.map_some'] at e
          cases e

theorem Identified_spec (env : Env) (s : Twibd) (dev : Nat) (d : Device) (r : Response)
    (hd : mapFind s.deviceHeap dev = some d) :
    ∃ d1 : Device, s.TCPBackend_Device_Identified env dev r
        = some { s with deviceHeap := mapAssign dev d1 s.deviceHeap } ∧
      d1.pending_requests = d.pending_requests ∧
      (r.result_code = 0 → d1.ready_flag = true ∧
        d1.device_id = env.hash ((env.parse r.payload).get "serial_number").binary_items
          % 4294967296 ∧
        d1.deletion_flag = d.deletion_flag) ∧
      (r.result_code ≠ 0 → d1.deletion_flag = true ∧ d1.ready_flag = d.ready_flag ∧
        d1.device_id = d.device_id) := by
  unfold Twibd.TCPBackend_Device_Identified
  simp only [hd]
  by_cases hr : r.result_code = 0
  · simp only [hr, ne_eq, not_true_eq_false, if_false]
    exact ⟨_, rfl, rfl, fun _ => ⟨rfl, rfl, rfl⟩, fun h => h.elim⟩
  · simp only [ne_eq, hr, not_false_eq_true, if_true]
    exact ⟨_, rfl, rfl, fun h => h.elim, fun _ => ⟨rfl, rfl, rfl⟩⟩

/-- What `IncomingMessage` does to the device that receives the message. -/
theorem IncomingMessage_spec (env : Env) (s : Twibd) (dev : Nat) (d : Device)
    (mh : MessageHeader) (payload object_ids : List Nat)
    (hd : mapFind s.deviceHeap dev = some d) :
    ∃ (s1 : Twibd) (d1 : Device),
      s.TCPBackend_Device_IncomingMessage env dev mh payload object_ids = some s1 ∧
      mapFind s1.deviceHeap dev = some d1 ∧
      (∀ j, j ≠ dev → mapFind s1.deviceHeap j = mapFind s.deviceHeap j) ∧
      (¬ 4 * mh.object_count ≤ object_ids.length → d1 = d) ∧
      (4 * mh.object_count ≤ object_ids.length → mh.client_id ≠ 0xFFFFFFFF →
        d1.ready_flag = d.ready_flag ∧ d1.deletion_flag = d.deletion_flag ∧
        d1.device_id = d.device_id) ∧
      (4 * mh.object_count ≤ object_ids.length → mh.client_id = 0xFFFFFFFF →
        (mh.result_code = 0 → d1.ready_flag = true ∧
          d1.device_id = env.hash ((env.parse payload).get "serial_number").binary_items
            % 4294967296 ∧
          d1.deletion_flag = d.deletion_flag) ∧
        (mh.result_code ≠ 0 → d1.deletion_flag = true ∧ d1.ready_flag = d.ready_flag ∧
          d1.device_id = d.device_id)) := by
  have hsome := createBridgeObjects_isSome mh.device_id mh.object_count object_ids s.objectHeap
    s.nextRef
  unfold Twibd.TCPBackend_Device_IncomingMessage
  simp only [hd]
  cases hm : (createBridgeObjects mh.device_id mh.object_count object_ids s.objectHeap
      s.nextRef).1 with
  | none =>
    have hshort : ¬ 4 * mh.object_count ≤ object_ids.length := by
      intro h
      exact hsome.mpr h hm
    exact ⟨_, d, rfl, hd, fun j _ => rfl, fun _ => rfl, fun h => absurd h hshort,
      fun h => absurd h hshort⟩
  | some objects =>
    have henough : 4 * mh.object_count ≤ object_ids.length :=
      hsome.mp (by rw [hm]; exact fun h => Option.noConfusion h)
    by_cases hid : mh.client_id = 0xFFFFFFFF
    · simp only [hid, if_true]
      obtain ⟨d1, h1, _, h3, h4⟩ := Identified_spec env
        { s with objectHeap := (createBridgeObjects mh.device_id mh.object_count object_ids
                   s.objectHeap s.nextRef).2.1,
                 nextRef := (createBridgeObjects mh.device_id mh.object_count object_ids
                   s.objectHeap s.nextRef).2.2,
                 deviceHeap := mapAssign dev
                   { d with pending_requests := d.pending_requests.filter
                              (fun r => r.tag != mh.tag) } s.deviceHeap }
        dev { d with pending_requests := d.pending_requests.filter (fun r => r.tag != mh.tag) }
        { device_id := d.device_id, client_id := 0xFFFFFFFF, object_id := mh.object_id,
          result_code := mh.result_code, tag := mh.tag, payload := payload,
          objects := objects }
        (mapFind_mapAssign_self _ _ _)
      refine ⟨_, d1, h1, mapFind_mapAssign_self _ _ _, ?_, fun h => absurd henough h,
        fun _ h => absurd rfl h, fun _ _ => ⟨h3, h4⟩⟩
      intro j hj
      exact (mapFind_mapAssign_ne _ _ _ _ hj).trans (mapFind_mapAssign_ne _ _ _ _ hj)
    · simp only [hid, if_false]
      exact ⟨_, _, rfl, mapFind_mapAssign_self _ _ _,
        fun j hj => mapFind_mapAssign_ne _ _ _ _ hj, fun h => absurd henough h,
        fun _ _ => ⟨rfl, rfl, rfl⟩, fun _ h => h.elim⟩

/-- C20. For a live TCP device: `IncomingMessage` returns, touching no other device.  If it
turns `ready_flag` from false to true, the message was an identification response (`client_id`
0xFFFFFFFF) with `result_code` 0, and the device's `device_id` is then the hash (as a 32-bit
number) of the `serial_number` field of the payload of that response; and every such response
that comes with its object ids does so.  An identification response with a non-zero
`result_code` sets `deletion_flag` and leaves `ready_flag` as it was, so false for a device that
was not ready.  The other operations on a device, `SendRequest`, the error branch of the event
thread and its registration step, leave `ready_flag` as it is.  The registration step of the
event thread does nothing for a device whose `ready_flag` is false: `AddDevice` is called only
for a device that is ready (and not yet added). -/
theorem ready_flag_only_by_identification (env : Env) (s : Twibd) (dev : Nat) (d : Device)
    (mh : MessageHeader) (payload object_ids : List Nat)
    (hd : mapFind s.deviceHeap dev = some d) :
    (∃ (s1 : Twibd) (d1 : Device),
      s.TCPBackend_Device_IncomingMessage env dev mh payload object_ids = some s1 ∧
      mapFind s1.deviceHeap dev = some d1 ∧
      (∀ j, j ≠ dev → mapFind s1.deviceHeap j = mapFind s.deviceHeap j) ∧
      (d.ready_flag = false → d1.ready_flag = true →
        mh.client_id = 0xFFFFFFFF ∧ mh.result_code = 0 ∧
        d1.device_id = env.hash ((env.parse payload).get "serial_number").binary_items
          % 4294967296) ∧
      (mh.client_id = 0xFFFFFFFF → 4 * mh.object_count ≤ object_ids.length →
        mh.result_code = 0 →
        d1.ready_flag = true ∧
        d1.device_id = env.hash ((env.parse payload).get "serial_number").binary_items
          % 4294967296) ∧
      (mh.client_id = 0xFFFFFFFF → 4 * mh.object_count ≤ object_ids.length →
        mh.result_code ≠ 0 →
        d1.deletion_flag = true ∧ d1.ready_flag = d.ready_flag)) ∧
    (∀ r s2, s.TCPBackend_Device_SendRequest dev r = some s2 →
      (mapFind s2.deviceHeap dev).map (fun d2 => d2.ready_flag) = some d.ready_flag) ∧
    (mapFind (s.connection_error dev).deviceHeap dev).map (fun d2 => d2.ready_flag)
      = some d.ready_flag ∧
    (∀ s2, s.event_thread_add dev = some s2 →
      (mapFind s2.deviceHeap dev).map (fun d2 => d2.ready_flag) = some d.ready_flag) ∧
    (d.ready_flag = false → s.event_thread_add dev = some s) ∧
    (d.ready_flag = true → d.added_flag = false →
      s.event_thread_add dev = (s.AddDevice dev).map fun s1 =>
        { s1 with deviceHeap := mapAssign dev { d with added_flag := true } s1.deviceHeap }) := by
  refine ⟨?_, ?_, ?_, ?_, ?_, ?_⟩
  · obtain ⟨s1, d1, h1, h2, h3, h4, h5, h6⟩ :=
      IncomingMessage_spec env s dev d mh payload object_ids hd
    refine ⟨s1, d1, h1, h2, h3, ?_, ?_, ?_⟩
    · intro hfalse htrue
      by_cases henough : 4 * mh.object_count ≤ object_ids.length
      · by_cases hid : mh.client_id = 0xFFFFFFFF
        · by_cases hres : mh.result_code = 0
          · exact ⟨hid, hres, ((h6 henough hid).1 hres).2.1⟩
          · have := ((h6 henough hid).2 hres).2.1
            rw [this, hfalse] at htrue
            cases htrue
        · have := (h5 henough hid).1
          rw [this, hfalse] at htrue
          cases htrue
      · rw [h4 henough, hfalse] at htrue
        cases htrue
    · intro hid henough hres
      exact ⟨((h6 henough hid).1 hres).1, ((h6 henough hid).1 hres).2.1⟩
    · intro hid henough hres
      exact ⟨((h6 henough hid).2 hres).1, ((h6 henough hid).2 hres).2.1⟩
  · intro r s2 hsend
    unfold Twibd.TCPBackend_Device_SendRequest at hsend
    simp only [hd] at hsend
    split at hsend
    · rename_i cid d0 hcid hd0
      cases hd0
      simp only [Option.some.injEq] at hsend
      subst hsend
      simp only [mapFind_mapAssign_self, Option.map_some']
    · cases hsend
  · unfold Twibd.connection_error
    simp only [hd, mapFind_mapAssign_self, Option.map_some']
  · intro s2 hadd
    unfold Twibd.event_thread_add at hadd
    simp only [hd] at hadd
    split at hadd
    · rename_i hcond
      cases hdev : s.AddDevice dev with
      | none => simp [hdev] at hadd
      | some s1 =>
        simp only [hdev, Option.map_some', Option.some.injEq] at hadd
        subst hadd
        simp only [mapFind_mapAssign_self, Option.map_some']
    · simp only [Option.some.injEq] at hadd
      subst hadd
      simp only [hd, Option.map_some']
  · intro hfalse
    unfold Twibd.event_thread_add
    simp only [hd, hfalse, Bool.false_and, Bool.false_eq_true, if_false]
  · intro htrue hadded
    unfold Twibd.event_thread_add
    simp only [hd, htrue, hadded, Bool.not_false, Bool.and_self, if_true]

/-- C20 at the example: the device that waits for its identification receives the answer
with result code 0 and the serial number `[83, 78]`. -/
theorem ready_flag_only_by_identification_witness :
    ∃ (s1 : Twibd) (d1 : Device),
      exampleIdentifying.TCPBackend_Device_IncomingMessage exampleEnv 2 exampleIdentifyHeader
        [83, 78] [] = some s1 ∧
      mapFind s1.deviceHeap 2 = some d1 ∧
      d1.ready_flag = true ∧
      d1.device_id = exampleEnv.hash
        ((exampleEnv.parse [83, 78]).get "serial_number").binary_items % 4294967296 := by
  obtain ⟨s1, d1, h1, h2, _, _, h5, _⟩ :=
    (ready_flag_only_by_identification exampleEnv exampleIdentifying 2 exampleTcpBegun
      exampleIdentifyHeader [83, 78] [] (by decide)).1
  exact ⟨s1, d1, h1, h2, h5 (by decide) (by decide) (by decide)⟩

/-! ## Framing -/

theorem leBytes_length (width n : Nat) : (leBytes width n).length = width := by
  induction width generalizing n with
  | zero => rfl
  | succ w ih => simp [leBytes, ih]

theorem leValue_leBytes (width n : Nat) : leValue (leBytes width n) = n % 256 ^ width := by
  induction width generalizing n with
  | zero => simp [leBytes, leValue, Nat.mod_one]
  | succ w ih =>
    simp only [leBytes, leValue, ih]
    rw [Nat.pow_succ, Nat.mul_comm (256 ^ w) 256, Nat.mod_mul]

theorem take_leBytes_append (width n : Nat) (rest : List Nat) :
    (leBytes width n ++ rest).take width = leBytes width n :=
  List.take_left' (leBytes_length width n)

theorem drop_leBytes_append (width n m : Nat) (rest : List Nat) (h : width ≤ m) :
    (leBytes width n ++ rest).drop m = rest.drop (m - width) := by
  have hm : m = (leBytes width n).length + (m - width) := by
    rw [leBytes_length]; omega
  rw [hm, List.drop_append, leBytes_length]
  congr 1
  omega

theorem encode_length (h : MessageHeader) : h.encode.length = 32 := by
  simp [MessageHeader.encode, leBytes_length]

/-- Reading a header back from its 32 bytes gives the header, when its words fit their
fields. -/
theorem decode_encode (h : MessageHeader) (hfits : h.fits) :
    MessageHeader.decode h.encode = h := by
  obtain ⟨h1, h2, h3, h4, h5, h6⟩ := hfits
  have e4 : (256 : Nat) ^ 4 = 4294967296 := by norm_num
  have e8 : (256 : Nat) ^ 8 = 18446744073709551616 := by norm_num
  have t6 : ∀ n, (leBytes 8 n).take 8 = leBytes 8 n := fun n => by
    have := take_leBytes_append 8 n []
    rwa [List.append_nil] at this
  cases h with
  | mk client_id object_id command_id tag payload_size object_count =>
    simp only [MessageHeader.encode, MessageHeader.decode, List.append_assoc,
      take_leBytes_append, drop_leBytes_append _ _ _ _ (Nat.le_refl 4),
      drop_leBytes_append _ _ 8 _ (by decide : 4 ≤ 8),
      drop_leBytes_append _ _ 12 _ (by decide : 4 ≤ 12),
      drop_leBytes_append _ _ 16 _ (by decide : 4 ≤ 16),
      drop_leBytes_append _ _ 20 _ (by decide : 4 ≤ 20),
      drop_leBytes_append _ _ 24 _ (by decide : 4 ≤ 24),
      drop_leBytes_append _ _ 8 _ (Nat.le_refl 8),
      drop_leBytes_append _ _ 12 _ (by decide : 8 ≤ 12),
      Nat.sub_self, List.drop_zero, Nat.reduceSub, t6, leValue_leBytes, e4, e8,
      Nat.mod_eq_of_lt h1, Nat.mod_eq_of_lt h2, Nat.mod_eq_of_lt h3, Nat.mod_eq_of_lt h4,
      Nat.mod_eq_of_lt h5, Nat.mod_eq_of_lt h6]

theorem encodeObjectIds_length (ids : List Nat) :
    (encodeObjectIds ids).length = 4 * ids.length := by
  induction ids with
  | nil => rfl
  | cons id rest ih =>
    simp only [encodeObjectIds, List.length_append, leBytes_length, ih, List.length_cons]
    omega

/-- Reading back the object ids of a frame gives the ids, when they are 32-bit numbers. -/
theorem readObjectIds_encode (ids rest : List Nat) (h : ∀ id ∈ ids, id < 4294967296) :
    readObjectIds ids.length (encodeObjectIds ids ++ rest) = some ids := by
  induction ids with
  | nil => rfl
  | cons id tail ih =>
    have hid : id < 4294967296 := h id (List.mem_cons_self _ _)
    have htail := ih (fun x hx => h x (List.mem_cons_of_mem _ hx))
    have e4 : (256 : Nat) ^ 4 = 4294967296 := by norm_num
    have hlen : ¬ (leBytes 4 id ++ (encodeObjectIds tail ++ rest)).length < 4 := by
      simp [leBytes_length]
    simp only [List.length_cons, readObjectIds, encodeObjectIds, List.append_assoc,
      Buffer_ReadU32, hlen, if_false, take_leBytes_append,
      drop_leBytes_append _ _ _ _ (Nat.le_refl 4), Nat.sub_self, List.drop_zero,
      leValue_leBytes, e4, Nat.mod_eq_of_lt hid, htail, Option.map_some']

/-- The parser recovers header, payload and object-id bytes of a frame within the maxima, and
leaves what follows the frame in the buffer. -/
theorem parse_encodeFrame (max_payload_size max_object_count : Nat) (h : MessageHeader)
    (payload object_ids rest : List Nat)
    (hfits : h.fits) (hp : h.payload_size = payload.length)
    (ho : h.object_count = object_ids.length)
    (hmaxp : payload.length ≤ max_payload_size)
    (hmaxo : object_ids.length ≤ max_object_count) :
    MessageConnection_parse max_payload_size max_object_count
        (encodeFrame h payload object_ids ++ rest)
      = Parsed.frame h payload (encodeObjectIds object_ids) rest := by
  have hlen : (encodeFrame h payload object_ids ++ rest).length
      = 32 + payload.length + 4 * object_ids.length + rest.length := by
    simp only [encodeFrame, List.length_append, encode_length, encodeObjectIds_length]
  have htake : (encodeFrame h payload object_ids ++ rest).take 32 = h.encode := by
    simp only [encodeFrame, List.append_assoc]
    exact List.take_left' (encode_length h)
  have hdrop : (encodeFrame h payload object_ids ++ rest).drop 32
      = payload ++ (encodeObjectIds object_ids ++ rest) := by
    simp only [encodeFrame, List.append_assoc]
    exact List.drop_left' (encode_length h)
  have hdrop2 : (encodeFrame h payload object_ids ++ rest).drop (32 + payload.length)
      = encodeObjectIds object_ids ++ rest := by
    rw [← List.drop_drop, hdrop]
    exact List.drop_left' rfl
  have hdrop3 : (encodeFrame h payload object_ids ++ rest).drop
      (32 + payload.length + 4 * object_ids.length) = rest := by
    rw [← List.drop_drop, hdrop2]
    exact List.drop_left' (encodeObjectIds_length object_ids)
  unfold MessageConnection_parse
  have h1 : ¬ (encodeFrame h payload object_ids ++ rest).length < 32 := by
    rw [hlen]; omega
  simp only [h1, if_false, htake, decode_encode h hfits, hp, ho]
  have h2 : ¬ (max_payload_size < payload.length ∨ max_object_count < object_ids.length) := by
    omega
  have h3 : ¬ (encodeFrame h payload object_ids ++ rest).length
      < 32 + payload.length + 4 * object_ids.length := by
    rw [hlen]; omega
  simp only [h2, if_false, h3, hdrop, hdrop2, hdrop3]
  congr 1
  · exact List.take_left' rfl
  · exact List.take_left' (encodeObjectIds_length object_ids)

/-- The bytes `TCPBackend::Device::SendRequest` writes are the frame of the request: a header
with the issuing client's id (0xFFFFFFFF without client), the request's object id, command and
tag, the length of the payload and no objects, followed by the payload. -/
theorem TCPBackend_Device_SendRequest_writes (s : Twibd) (dev : Nat) (d : Device) (r : Request)
    (cid : Nat)
    (hd : mapFind s.deviceHeap dev = some d)
    (hcid : (r.client = none ∧ cid = 0xffffffff) ∨
      ∃ c cl, r.client = some c ∧ mapFind s.clientHeap c = some cl ∧ cl.client_id = cid) :
    ∃ (s1 : Twibd) (d1 : Device), s.TCPBackend_Device_SendRequest dev r = some s1 ∧
      mapFind s1.deviceHeap dev = some d1 ∧
      d1.out_buffer = d.out_buffer ++ encodeFrame
        { client_id := cid, object_id := r.object_id, command_id := r.command_id, tag := r.tag,
          payload_size := r.payload.length, object_count := 0 } r.payload [] ∧
      d1.pending_requests = d.pending_requests ++ [r.Weak] := by
  unfold Twibd.TCPBackend_Device_SendRequest
  rcases hcid with ⟨hnone, hc⟩ | ⟨c, cl, hsome, hcl, hc⟩
  · subst hc
    simp only [hnone, hd]
    refine ⟨_, _, rfl, mapFind_mapAssign_self dev _ _, ?_, rfl⟩
    simp only [encodeFrame, encodeObjectIds, List.append_nil, List.append_assoc]
  · subst hc
    simp only [hsome, hcl, Option.map_some', hd]
    refine ⟨_, _, rfl, mapFind_mapAssign_self dev _ _, ?_, rfl⟩
    simp only [encodeFrame, encodeObjectIds, List.append_nil, List.append_assoc]

/-- A message without objects that is not an identification response is posted to the dispatcher
as a response with the header's client id, object id, result code and tag and the payload. -/
theorem IncomingMessage_posts (env : Env) (s : Twibd) (dev : Nat) (d : Device)
    (mh : MessageHeader) (payload object_ids : List Nat)
    (hd : mapFind s.deviceHeap dev = some d)
    (hcount : mh.object_count = 0) (hid : mh.client_id ≠ 0xFFFFFFFF) :
    ∃ s1 : Twibd, s.TCPBackend_Device_IncomingMessage env dev mh payload object_ids = some s1 ∧
      s1.dispatch_queue = s.dispatch_queue ++ [Job.response
        { device_id := d.device_id, client_id := mh.client_id, object_id := mh.object_id,
          result_code := mh.command_id, tag := mh.tag, payload := payload, objects := [] }] := by
  unfold Twibd.TCPBackend_Device_IncomingMessage
  simp only [hd, hcount, createBridgeObjects, hid, if_false]
  exact ⟨_, rfl, rfl⟩

/-- The bytes `twib::Client::SendRequest` writes are the frame of the request, with the drawn
tag. -/
theorem TwibClient_SendRequest_writes (c : TwibClient) (rq : TwibRequest) (draw : Nat) :
    (c.SendRequest rq draw).1.out_buffer = c.out_buffer ++ encodeFrame
      { client_id := rq.device_id, object_id := rq.object_id, command_id := rq.command_id,
        tag := draw % 4294967296, payload_size := rq.payload.length, object_count := 0 }
      rq.payload [] := by
  simp only [TwibClient.SendRequest, encodeFrame, encodeObjectIds, List.append_nil,
    List.append_assoc]

/-- A message without objects for an outstanding tag sets the promise of that tag to a response
with the header's device id, object id, result code and tag and the payload. -/
theorem TwibClient_IncomingMessage_sets (c : TwibClient) (mh : MessageHeader)
    (payload object_ids : List Nat) (promise : Nat)
    (hcount : mh.object_count = 0) (htag : mapFind c.response_map mh.tag = some promise) :
    mapFind (c.IncomingMessage mh payload object_ids).promises promise
      = some (PromiseState.ready
        { device_id := mh.client_id, object_id := mh.object_id, result_code := mh.command_id,
          tag := mh.tag, payload := payload, objects := [] }) := by
  unfold TwibClient.IncomingMessage
  simp only [hcount, readObjectIds, htag, mapFind_mapAssign_self, List.map_nil]
  rfl

/-- A header that announces more than the configured maxima makes the parser give up, whatever
follows it. -/
theorem parse_oversized (max_payload_size max_object_count : Nat) (h : MessageHeader)
    (tail : List Nat) (hfits : h.fits)
    (hover : max_payload_size < h.payload_size ∨ max_object_count < h.object_count) :
    MessageConnection_parse max_payload_size max_object_count (h.encode ++ tail)
      = Parsed.oversized := by
  have hlen : ¬ (h.encode ++ tail).length < 32 := by
    simp [encode_length]
  have htake : (h.encode ++ tail).take 32 = h.encode := by
    have := encode_length h
    rw [← this, List.take_left]
  simp only [MessageConnection_parse, hlen, if_false, htake, decode_encode h hfits, hover,
    if_true]

/-- C17 (the claim fails): a frame with a well-formed header, no payload and 65 object ids is
encoded, but parsing under the default maxima does not give the frame back: the connection is
flagged as carrying an oversized frame. -/
theorem frame_with_65_objects_not_decoded :
    exampleManyObjectsHeader.object_count = (List.replicate 65 0).length ∧
    MessageConnection_parse MAX_PAYLOAD_SIZE MAX_OBJECT_COUNT
        (encodeFrame exampleManyObjectsHeader [] (List.replicate 65 0))
      = Parsed.oversized := by
  refine ⟨rfl, ?_⟩
  exact parse_oversized _ _ exampleManyObjectsHeader _
    ⟨by decide, by decide, by decide, by decide, by decide, by decide⟩ (Or.inr (by decide))

/-- C17 (amended). For every header whose words fit their fields and whose size fields are the
lengths of the payload and of the object-id sequence, every payload and every sequence of 32-bit
object ids within the configured maxima, parsing the encoded frame yields the header, the payload
and the object-id bytes again (and leaves what follows in the buffer), and reading the object ids
yields the sequence.  In particular the bytes `TCPBackend::Device::SendRequest` appends are a
frame that parses into a header with the issuing client's id and the request's object id, command
and tag, and into the request's payload, and a receiving `IncomingMessage` posts a response with
these values; and the bytes `twib::Client::SendRequest` appends parse into the request's device
id, object id, command, the drawn tag and the payload, and a receiving
`twib::Client::IncomingMessage` hands these values to the promise of the tag. -/
theorem frame_round_trip_within_maxima (max_payload_size max_object_count : Nat)
    (h : MessageHeader) (payload object_ids rest : List Nat)
    (hfits : h.fits) (hp : h.payload_size = payload.length)
    (ho : h.object_count = object_ids.length)
    (hids : ∀ id ∈ object_ids, id < 4294967296)
    (hmaxp : payload.length ≤ max_payload_size)
    (hmaxo : object_ids.length ≤ max_object_count) :
    (MessageConnection_parse max_payload_size max_object_count
        (encodeFrame h payload object_ids ++ rest)
      = Parsed.frame h payload (encodeObjectIds object_ids) rest ∧
     readObjectIds h.object_count (encodeObjectIds object_ids) = some object_ids) ∧
    (∀ (env : Env) (s t : Twibd) (dev dev2 : Nat) (d d2 : Device) (r : Request) (cid : Nat),
      mapFind s.deviceHeap dev = some d →
      ((r.client = none ∧ cid = 0xffffffff) ∨
        ∃ c cl, r.client = some c ∧ mapFind s.clientHeap c = some cl ∧ cl.client_id = cid) →
      cid < 4294967296 → r.object_id < 4294967296 → r.command_id < 4294967296 →
      r.tag < 4294967296 → r.payload.length < 18446744073709551616 →
      r.payload.length ≤ max_payload_size →
      mapFind t.deviceHeap dev2 = some d2 →
      ∃ (s1 : Twibd) (d1 : Device) (frame : List Nat) (mh : MessageHeader),
        s.TCPBackend_Device_SendRequest dev r = some s1 ∧
        mapFind s1.deviceHeap dev = some d1 ∧
        d1.out_buffer = d.out_buffer ++ frame ∧
        MessageConnection_parse max_payload_size max_object_count frame
          = Parsed.frame mh r.payload [] [] ∧
        mh.client_id = cid ∧ mh.object_id = r.object_id ∧ mh.command_id = r.command_id ∧
        mh.tag = r.tag ∧
        (cid ≠ 0xFFFFFFFF →
          ∃ t1 : Twibd, t.TCPBackend_Device_IncomingMessage env dev2 mh r.payload [] = some t1 ∧
            t1.dispatch_queue = t.dispatch_queue ++ [Job.response
              { device_id := d2.device_id, client_id := cid, object_id := r.object_id,
                result_code := r.command_id, tag := r.tag, payload := r.payload,
                objects := [] }])) ∧
    (∀ (c c2 : TwibClient) (rq : TwibRequest) (draw promise : Nat),
      rq.device_id < 4294967296 → rq.object_id < 4294967296 → rq.command_id < 4294967296 →
      rq.payload.length < 18446744073709551616 → rq.payload.length ≤ max_payload_size →
      ∃ (frame : List Nat) (mh : MessageHeader),
        (c.SendRequest rq draw).1.out_buffer = c.out_buffer ++ frame ∧
        MessageConnection_parse max_payload_size max_object_count frame
          = Parsed.frame mh rq.payload [] [] ∧
        mh.device_id = rq.device_id ∧ mh.object_id = rq.object_id ∧
        mh.command_id = rq.command_id ∧ mh.tag = draw % 4294967296 ∧
        (mapFind c2.response_map mh.tag = some promise →
          mapFind (c2.IncomingMessage mh rq.payload []).promises promise
            = some (PromiseState.ready
              { device_id := rq.device_id, object_id := rq.object_id,
                result_code := rq.command_id, tag := draw % 4294967296,
                payload := rq.payload, objects := [] }))) := by
  refine ⟨⟨parse_encodeFrame _ _ h payload object_ids rest hfits hp ho hmaxp hmaxo, ?_⟩, ?_, ?_⟩
  · have := readObjectIds_encode object_ids [] hids
    rw [List.append_nil] at this
    rw [ho]
    exact this
  · intro env s t dev dev2 d d2 r cid hd hcid h1 h2 h3 h4 h5 h6 hd2
    obtain ⟨s1, d1, hsend, hd1, hbuf, _⟩ :=
      TCPBackend_Device_SendRequest_writes s dev d r cid hd hcid
    have hparse := parse_encodeFrame max_payload_size max_object_count
      { client_id := cid, object_id := r.object_id, command_id := r.command_id, tag := r.tag,
        payload_size := r.payload.length, object_count := 0 } r.payload [] []
      ⟨h1, h2, h3, h4, h5, by norm_num⟩ rfl rfl h6 (Nat.zero_le _)
    rw [List.append_nil] at hparse
    refine ⟨s1, d1, _, _, hsend, hd1, hbuf, hparse, rfl, rfl, rfl, rfl, ?_⟩
    intro hne
    exact IncomingMessage_posts env t dev2 d2 _ r.payload [] hd2 rfl hne
  · intro c c2 rq draw promise h1 h2 h3 h5 h6
    have h4 : draw % 4294967296 < 4294967296 := Nat.mod_lt _ (by decide)
    have hparse := parse_encodeFrame max_payload_size max_object_count
      { client_id := rq.device_id, object_id := rq.object_id, command_id := rq.command_id,
        tag := draw % 4294967296, payload_size := rq.payload.length, object_count := 0 }
      rq.payload [] [] ⟨h1, h2, h3, h4, h5, by norm_num⟩ rfl rfl h6 (Nat.zero_le _)
    rw [List.append_nil] at hparse
    refine ⟨_, _, TwibClient_SendRequest_writes c rq draw, hparse, rfl, rfl, rfl, rfl, ?_⟩
    intro htag
    exact TwibClient_IncomingMessage_sets c2 _ rq.payload [] promise rfl htag

/-- C17 (amended) at the example: a frame with three payload bytes and two object ids, followed
by one more byte in the buffer. -/
theorem frame_round_trip_within_maxima_witness :
    MessageConnection_parse MAX_PAYLOAD_SIZE MAX_OBJECT_COUNT
        (encodeFrame exampleFrameHeader [1, 2, 3] [7, 8] ++ [9])
      = Parsed.frame exampleFrameHeader [1, 2, 3] (encodeObjectIds [7, 8]) [9] ∧
    readObjectIds exampleFrameHeader.object_count (encodeObjectIds [7, 8]) = some [7, 8] :=
  (frame_round_trip_within_maxima MAX_PAYLOAD_SIZE MAX_OBJECT_COUNT exampleFrameHeader
    [1, 2, 3] [7, 8] [9] ⟨by decide, by decide, by decide, by decide, by decide, by decide⟩
    (by decide) (by decide) (by decide) (by decide) (by decide)).1

/-- The tag `twib::Client::SendRequest` assigns is the value drawn, whatever is outstanding: the
entry of `response_map` under it is replaced by the new promise. -/
theorem TwibClient_SendRequest_tag (c : TwibClient) (rq : TwibRequest) (draw : Nat) :
    mapFind (c.SendRequest rq draw).1.response_map (draw % 4294967296) = some c.nextPromise ∧
    (c.SendRequest rq draw).2 = c.nextPromise := by
  refine ⟨?_, rfl⟩
  simp only [TwibClient.SendRequest]
  exact mapFind_mapAssign_self _ _ _

/-- C16 (the code departs from the spec): two calls sent through `twib::Client::SendRequest`
while `rng()` returns 7 both times get the tag 7.  The second call replaces the entry of
`response_map` of the first, which is still awaiting its response: the future of the first call
is broken, the response to the first call is delivered to the future of the second call, and the
response to the second call is dropped. -/
theorem SendRequest_overwrites_outstanding_tag :
    (exampleTwibClient.SendRequest exampleFirstCall 7).2 = 0 ∧
    mapFind exampleFirstSent.response_map 7 = some 0 ∧
    mapFind exampleFirstSent.promises 0 = some PromiseState.pending ∧
    (exampleFirstSent.SendRequest exampleSecondCall 7).2 = 1 ∧
    exampleSecondSent.response_map = [(7, 1)] ∧
    mapFind exampleSecondSent.promises 0 = some PromiseState.broken ∧
    mapFind exampleSecondSent.promises 1 = some PromiseState.pending ∧
    MessageConnection_parse MAX_PAYLOAD_SIZE MAX_OBJECT_COUNT exampleSecondSent.out_buffer
      = Parsed.frame
          { client_id := 5, object_id := 0, command_id := 10, tag := 7, payload_size := 1,
            object_count := 0 } [1] []
          (encodeFrame
            { client_id := 5, object_id := 0, command_id := 11, tag := 7, payload_size := 1,
              object_count := 0 } [2] []) ∧
    mapFind (exampleSecondSent.IncomingMessage exampleFirstAnswer [100] []).promises 1
      = some (PromiseState.ready
          { device_id := 5, object_id := 0, result_code := 0, tag := 7, payload := [100],
            objects := [] }) ∧
    mapFind (exampleSecondSent.IncomingMessage exampleFirstAnswer [100] []).promises 0
      = some PromiseState.broken ∧
    ((exampleSecondSent.IncomingMessage exampleFirstAnswer [100] []).IncomingMessage
        exampleSecondAnswer [200] [])
      = exampleSecondSent.IncomingMessage exampleFirstAnswer [100] [] := by
  refine ⟨rfl, by decide, by decide, rfl, by decide, by decide, by decide, ?_, by decide,
    by decide, by decide⟩
  decide

/-! ## Claims on the TCP backend: discovery -/

/-- The terminating NUL that the event thread stores behind the received bytes does not change
the C string in the buffer. -/
theorem cString_append_zero (l : List Nat) : cString (l ++ [0]) = cString l := by
  induction l with
  | nil => rfl
  | cons b rest ih =>
    unfold cString at ih ⊢
    by_cases hb : (b != 0) = true
    · simp only [List.cons_append, List.takeWhile_cons, hb, if_true, ih]
    · simp only [List.cons_append, List.takeWhile_cons, hb]
      rfl

/-- Function `TCPBackend::Connect(addr, addr_len)` returns; it calls `connect` exactly when the
address is IPv4 and a socket could be created, once, on the address with the port 15152, and it
leaves the state alone unless the connection stands. -/
theorem TCPBackend_Connect_addr_spec (env : Env) (s : Twibd) (addr : SockAddr) :
    ∃ (s1 : Twibd) (attempts : List SockAddr),
      s.TCPBackend_Connect_addr env addr = some (s1, attempts) ∧
      ((addr.sa_family = AF_INET ∧
          env.connectTo { addr with sin_port := 15152 } ≠ SocketOutcome.socketError) →
        attempts = [{ addr with sin_port := 15152 }]) ∧
      (¬ (addr.sa_family = AF_INET ∧
          env.connectTo { addr with sin_port := 15152 } ≠ SocketOutcome.socketError) →
        attempts = [] ∧ s1 = s) ∧
      ((∀ fd, env.connectTo { addr with sin_port := 15152 } ≠ SocketOutcome.connected fd) →
        s1 = s) := by
  unfold Twibd.TCPBackend_Connect_addr
  split
  · rename_i hf
    dsimp only
    split
    · rename_i hc
      exact ⟨s, [], rfl, fun h => absurd hc h.2, fun _ => ⟨rfl, rfl⟩, fun _ => rfl⟩
    · rename_i hc
      refine ⟨s, _, rfl, fun _ => rfl, fun h => absurd ⟨hf, ?_⟩ h, fun _ => rfl⟩
      rw [hc]
      intro h
      cases h
    · rename_i fd hc
      simp only [Twibd.TCPBackend_Device_Begin, Twibd.TCPBackend_Device_SendRequest,
        mapFind_mapAssign_self, Option.map_some']
      refine ⟨_, _, rfl, fun _ => rfl, fun h => absurd ⟨hf, ?_⟩ h,
        fun h => absurd hc (h fd)⟩
      rw [hc]
      intro h
      cases h
  · rename_i hf
    exact ⟨s, [], rfl, fun h => absurd h.1 hf, fun _ => ⟨rfl, rfl⟩, fun _ => rfl⟩

/-- C18 (the claim fails): a datagram from 127.0.0.1 whose payload is `twili-announce` followed
by a NUL and one more byte is not the 14-byte literal, yet the event thread calls `connect`, to
127.0.0.1 port 15152. -/
theorem datagram_with_trailing_bytes_connects :
    announcement ++ [0, 33] ≠ announcement ∧
    (exampleState.event_thread_datagram exampleEnv (announcement ++ [0, 33])
        exampleSource).map Prod.snd
      = some [{ sa_family := AF_INET, sin_addr := 2130706433, sin_port := 15152 }] := by
  decide

/-- C18 (amended). The listen-socket branch of the event thread returns for every datagram.  It
calls `TCPBackend::Connect` on the source address exactly when the bytes before the first NUL
among the first 255 bytes of the payload (all of these bytes when none is NUL) are the 14 bytes
of `twili-announce`; otherwise it leaves the state alone and attempts nothing.  `Connect` calls
`connect` exactly when the source address is IPv4 and a socket could be created, once, and the
target is the source address with the port forced to 15152. -/
theorem datagram_connects_iff_announcement (env : Env) (s : Twibd) (payload : List Nat)
    (source : SockAddr) :
    ∃ (s1 : Twibd) (attempts : List SockAddr),
      s.event_thread_datagram env payload source = some (s1, attempts) ∧
      (cString (payload.take 255) = announcement →
        s.event_thread_datagram env payload source = s.TCPBackend_Connect_addr env source) ∧
      (cString (payload.take 255) ≠ announcement → s1 = s ∧ attempts = []) ∧
      (attempts ≠ [] ↔
        (cString (payload.take 255) = announcement ∧ source.sa_family = AF_INET ∧
          env.connectTo { source with sin_port := 15152 } ≠ SocketOutcome.socketError)) ∧
      (∀ target ∈ attempts,
        attempts = [target] ∧ target = { source with sin_port := 15152 }) := by
  unfold Twibd.event_thread_datagram
  simp only [cString_append_zero]
  by_cases hp : cString (payload.take 255) = announcement
  · simp only [hp, if_true]
    obtain ⟨s1, attempts, hres, hyes, hno, _⟩ := TCPBackend_Connect_addr_spec env s source
    refine ⟨s1, attempts, hres, fun _ => trivial, fun h => absurd rfl h, ?_, ?_⟩
    · constructor
      · intro hne
        refine ⟨trivial, ?_⟩
        by_contra hc
        exact hne (hno hc).1
      · intro h
        rw [hyes h.2]
        exact List.cons_ne_nil _ _
    · intro target ht
      by_cases hc : source.sa_family = AF_INET ∧
          env.connectTo { source with sin_port := 15152 } ≠ SocketOutcome.socketError
      · rw [hyes hc] at ht ⊢
        have := List.mem_singleton.mp ht
        subst this
        exact ⟨rfl, rfl⟩
      · rw [(hno hc).1] at ht
        cases ht
  · simp only [hp, if_false]
    refine ⟨s, [], rfl, fun h => h.elim, fun _ => ⟨rfl, rfl⟩, ?_, ?_⟩
    · constructor
      · intro h
        exact absurd rfl h
      · intro h
        exact h.1.elim
    · intro target ht
      cases ht

/-- C18 (amended) at the example: the 14 bytes of the announcement from 127.0.0.1. -/
theorem datagram_connects_iff_announcement_witness :
    ∃ (s1 : Twibd) (attempts : List SockAddr),
      exampleState.event_thread_datagram exampleEnv announcement exampleSource
        = some (s1, attempts) ∧
      (cString (announcement.take 255) = announcement →
        exampleState.event_thread_datagram exampleEnv announcement exampleSource
          = exampleState.TCPBackend_Connect_addr exampleEnv exampleSource) ∧
      (cString (announcement.take 255) ≠ announcement → s1 = exampleState ∧ attempts = []) ∧
      (attempts ≠ [] ↔
        (cString (announcement.take 255) = announcement ∧ exampleSource.sa_family = AF_INET ∧
          exampleEnv.connectTo { exampleSource with sin_port := 15152 }
            ≠ SocketOutcome.socketError)) ∧
      (∀ target ∈ attempts,
        attempts = [target] ∧ target = { exampleSource with sin_port := 15152 }) :=
  datagram_connects_iff_announcement exampleEnv exampleState announcement exampleSource

/-! ## Claims on the frontends -/

/-- C21 (the claim fails): the address `CreateTCPFrontend` builds for port 15151 is the wildcard
address, which is not the loopback address. -/
theorem CreateTCPFrontend_not_loopback :
    (CreateTCPFrontend 15151).addr.sin6_addr = in6addr_any ∧
    (CreateTCPFrontend 15151).addr.sin6_addr ≠ in6addr_loopback := by
  decide

/-- C21 (amended). For every port, the address `CreateTCPFrontend` hands to the TCP frontend is
the IPv6 wildcard address `in6addr_any` with that port, in the family `AF_INET6` on a stream
socket; it is never the loopback address. -/
theorem CreateTCPFrontend_wildcard (port : Nat) :
    (CreateTCPFrontend port).addr.sin6_addr = in6addr_any ∧
    (CreateTCPFrontend port).addr.sin6_addr ≠ in6addr_loopback ∧
    (CreateTCPFrontend port).addr.sin6_port = port % 65536 ∧
    (CreateTCPFrontend port).addr.sin6_family = AF_INET6 ∧
    (CreateTCPFrontend port).address_family = AF_INET6 ∧
    (CreateTCPFrontend port).socktype = SOCK_STREAM := by
  refine ⟨rfl, ?_, rfl, rfl, rfl, rfl⟩
  show in6addr_any ≠ in6addr_loopback
  decide

/-! ## TCP backend: what an incoming message changes -/

/-- The handles the object loop of `IncomingMessage` creates are the next free addresses, in
order. -/
theorem createBridgeObjects_range (device_id count : Nat) (object_ids : List Nat)
    (heap : Map BridgeObject) (next : Nat) (objects : List Nat)
    (h : (createBridgeObjects device_id count object_ids heap next).1 = some objects) :
    objects = List.range' next count ∧
    (createBridgeObjects device_id count object_ids heap next).2.2 = next + count := by
  induction count generalizing object_ids heap next objects with
  | zero =>
    simp only [createBridgeObjects, Option.some.injEq] at h
    subst h
    exact ⟨rfl, rfl⟩
  | succ n ih =>
    unfold createBridgeObjects at h ⊢
    cases hr : Buffer_ReadU32 object_ids with
    | none => simp only [hr] at h; cases h
    | some p =>
      obtain ⟨id, rest⟩ := p
      simp only [hr] at h ⊢
      cases hm : (createBridgeObjects device_id n rest
          (mapAssign next { device_id := device_id, object_id := id, valid := true } heap)
          (next + 1)).1 with
      | none => rw [hm] at h; cases h
      | some objs =>
        rw [hm] at h
        simp only [Option.map_some', Option.some.injEq] at h
        obtain ⟨h1, h2⟩ := ih rest _ (next + 1) objs hm
        subst h
        refine ⟨?_, ?_⟩
        · rw [h1, List.range'_succ]
        · rw [h2]; omega

/-- The object loop of `IncomingMessage` never hands out an address twice: the next free address
does not decrease. -/
theorem createBridgeObjects_next_le (device_id count : Nat) (object_ids : List Nat)
    (heap : Map BridgeObject) (next : Nat) :
    next ≤ (createBridgeObjects device_id count object_ids heap next).2.2 := by
  induction count generalizing object_ids heap next with
  | zero => exact Nat.le_refl _
  | succ n ih =>
    unfold createBridgeObjects
    cases hr : Buffer_ReadU32 object_ids with
    | none => exact Nat.le_refl _
    | some p =>
      obtain ⟨id, rest⟩ := p
      simp only []
      exact Nat.le_trans (Nat.le_succ _) (ih rest _ (next + 1))

/-- Everything `IncomingMessage` changes.  It returns; it touches the receiving device only,
leaving its `added_flag` and its transport alone; the connection list, the registries and the
clients stay as they are; no address is handed out twice.  A message that lacks object ids
changes nothing on the device and posts nothing.  A message with its object ids removes from
`pending_requests` the entries with the tag of the message, and either is an identification
response, which posts nothing, or is posted as a response that carries the handles just
created. -/
theorem IncomingMessage_effect (env : Env) (s : Twibd) (dev : Nat) (d : Device)
    (mh : MessageHeader) (payload object_ids : List Nat)
    (hd : mapFind s.deviceHeap dev = some d) :
    ∃ (s1 : Twibd) (d1 : Device),
      s.TCPBackend_Device_IncomingMessage env dev mh payload object_ids = some s1 ∧
      mapFind s1.deviceHeap dev = some d1 ∧
      (∀ j, j ≠ dev → mapFind s1.deviceHeap j = mapFind s.deviceHeap j) ∧
      d1.added_flag = d.added_flag ∧ d1.bridge = d.bridge ∧
      s1.connections = s.connections ∧ s1.devices = s.devices ∧ s1.clients = s.clients ∧
      s1.clientHeap = s.clientHeap ∧ s1.local_client = s.local_client ∧
      s.nextRef ≤ s1.nextRef ∧
      (¬ 4 * mh.object_count ≤ object_ids.length →
        d1 = d ∧ s1.deviceHeap = s.deviceHeap ∧ s1.dispatch_queue = s.dispatch_queue) ∧
      (4 * mh.object_count ≤ object_ids.length →
        d1.pending_requests = d.pending_requests.filter (fun r => r.tag != mh.tag) ∧
        s1.nextRef = s.nextRef + mh.object_count ∧
        ((mh.client_id = 0xFFFFFFFF ∧ s1.dispatch_queue = s.dispatch_queue) ∨
         (mh.client_id ≠ 0xFFFFFFFF ∧
          s1.dispatch_queue = s.dispatch_queue ++ [Job.response
            { device_id := d.device_id, client_id := mh.client_id, object_id := mh.object_id,
              result_code := mh.result_code, tag := mh.tag, payload := payload,
              objects := List.range' s.nextRef mh.object_count }]))) := by
  have hsome := createBridgeObjects_isSome mh.device_id mh.object_count object_ids s.objectHeap
    s.nextRef
  have hle := createBridgeObjects_next_le mh.device_id mh.object_count object_ids s.objectHeap
    s.nextRef
  unfold Twibd.TCPBackend_Device_IncomingMessage
  simp only [hd]
  cases hm : (createBridgeObjects mh.device_id mh.object_count object_ids s.objectHeap
      s.nextRef).1 with
  | none =>
    have hshort : ¬ 4 * mh.object_count ≤ object_ids.length := by
      intro h
      exact hsome.mpr h hm
    exact ⟨_, d, rfl, hd, fun j _ => rfl, rfl, rfl, rfl, rfl, rfl, rfl, rfl, hle,
      fun _ => ⟨rfl, rfl, rfl⟩, fun h => absurd h hshort⟩
  | some objects =>
    have henough : 4 * mh.object_count ≤ object_ids.length :=
      hsome.mp (by rw [hm]; exact fun h => Option.noConfusion h)
    obtain ⟨hobjs, hnext⟩ := createBridgeObjects_range _ _ _ _ _ _ hm
    by_cases hid : mh.client_id = 0xFFFFFFFF
    · simp only [hid, if_true]
      unfold Twibd.TCPBackend_Device_Identified
      simp only [mapFind_mapAssign_self]
      by_cases hr : mh.result_code = 0
      · simp only [hr, ne_eq, not_true_eq_false, if_false]
        refine ⟨_, _, rfl, mapFind_mapAssign_self _ _ _, ?_, rfl, rfl, rfl, rfl, rfl, rfl, rfl,
          hle, fun h => absurd henough h, fun _ => ⟨rfl, hnext, Or.inl ⟨trivial, rfl⟩⟩⟩
        intro j hj
        exact (mapFind_mapAssign_ne _ _ _ _ hj).trans (mapFind_mapAssign_ne _ _ _ _ hj)
      · simp only [ne_eq, hr, not_false_eq_true, if_true]
        refine ⟨_, _, rfl, mapFind_mapAssign_self _ _ _, ?_, rfl, rfl, rfl, rfl, rfl, rfl, rfl,
          hle, fun h => absurd henough h, fun _ => ⟨rfl, hnext, Or.inl ⟨trivial, rfl⟩⟩⟩
        intro j hj
        exact (mapFind_mapAssign_ne _ _ _ _ hj).trans (mapFind_mapAssign_ne _ _ _ _ hj)
    · simp only [hid, if_false]
      refine ⟨_, _, rfl, mapFind_mapAssign_self _ _ _,
        fun j hj => mapFind_mapAssign_ne _ _ _ _ hj, rfl, rfl, rfl, rfl, rfl, rfl, rfl, hle,
        fun h => absurd henough h, fun _ => ⟨rfl, hnext, Or.inr ⟨hid, ?_⟩⟩⟩
      simp only [Twibd.PostResponse, hobjs]

/-! ## Claims on the TCP backend: pending requests -/

/-- C22 (the claim fails): two clients each have a request with the tag 7 outstanding on the
TCP device, so two entries are pending; the response to the first client's request removes both
entries, also the one of the second client, whose response has not arrived. -/
theorem response_removes_pending_entry_of_other_client :
    exampleTwoPending.bind (fun s => s.pendingOf 2)
      = some [{ client := some 4, tag := 7 }, { client := some 8, tag := 7 }] ∧
    (exampleTwoPending.bind (fun s =>
        s.TCPBackend_Device_IncomingMessage exampleEnv 2 exampleTagSevenAnswer [] [])).bind
        (fun s => s.pendingOf 2)
      = some [] := by
  decide

/-- C22 (amended). On a live TCP device, `SendRequest` (for a request without client or of a
live client) returns having appended exactly one pending entry, the one of the request, to
`pending_requests`.  `IncomingMessage` for a response that comes with its object ids returns
having removed exactly the pending entries whose tag is the tag of the response, whichever
client they belong to: entries with another tag are kept, as often as before and in their
order.  So a pending entry stays until a response with its tag arrives, and it is the only entry
of its request as long as no two outstanding requests on the device share a tag. -/
theorem pending_requests_bookkeeping (env : Env) (s : Twibd) (dev : Nat) (d : Device) :
    mapFind s.deviceHeap dev = some d →
    (∀ (r : Request),
      (r.client = none ∨ ∃ c cl, r.client = some c ∧ mapFind s.clientHeap c = some cl) →
      ∃ (s1 : Twibd) (d1 : Device), s.TCPBackend_Device_SendRequest dev r = some s1 ∧
        mapFind s1.deviceHeap dev = some d1 ∧
        d1.pending_requests = d.pending_requests ++ [{ client := r.client, tag := r.tag }]) ∧
    (∀ (mh : MessageHeader) (payload object_ids : List Nat),
      4 * mh.object_count ≤ object_ids.length →
      ∃ (s1 : Twibd) (d1 : Device),
        s.TCPBackend_Device_IncomingMessage env dev mh payload object_ids = some s1 ∧
        mapFind s1.deviceHeap dev = some d1 ∧
        d1.pending_requests = d.pending_requests.filter (fun r => r.tag != mh.tag) ∧
        (∀ e : WeakRequest, e.tag = mh.tag → e ∉ d1.pending_requests) ∧
        (∀ e : WeakRequest, e.tag ≠ mh.tag →
          d1.pending_requests.count e = d.pending_requests.count e) ∧
        ((d.pending_requests.map (fun r => r.tag)).Nodup →
          (d1.pending_requests.map (fun r => r.tag)).Nodup ∧
          ∀ e ∈ d.pending_requests, e.tag ≠ mh.tag → d1.pending_requests.count e = 1)) := by
  intro hd
  constructor
  · intro r hr
    have hcid : ∃ cid, (r.client = none ∧ cid = 0xffffffff) ∨
        ∃ c cl, r.client = some c ∧ mapFind s.clientHeap c = some cl ∧ cl.client_id = cid := by
      rcases hr with h | ⟨c, cl, h1, h2⟩
      · exact ⟨_, Or.inl ⟨h, rfl⟩⟩
      · exact ⟨_, Or.inr ⟨c, cl, h1, h2, rfl⟩⟩
    obtain ⟨cid, hcid⟩ := hcid
    obtain ⟨s1, d1, h1, h2, _, h4⟩ := TCPBackend_Device_SendRequest_writes s dev d r cid hd hcid
    exact ⟨s1, d1, h1, h2, h4⟩
  · intro mh payload object_ids henough
    obtain ⟨s1, d1, h1, h2, _, _, _, _, _, _, _, _, _, _, h3⟩ :=
      IncomingMessage_effect env s dev d mh payload object_ids hd
    have hp := (h3 henough).1
    refine ⟨s1, d1, h1, h2, hp, ?_, ?_, ?_⟩
    · intro e he hmem
      rw [hp] at hmem
      have := (List.mem_filter.mp hmem).2
      simp [he] at this
    · intro e he
      rw [hp]
      rw [List.count_filter]
      simp [he]
    · intro hnodup
      have hsub : List.Sublist d1.pending_requests d.pending_requests := by
        rw [hp]; exact List.filter_sublist _
      refine ⟨(hsub.map _).nodup hnodup, ?_⟩
      intro e he hne
      rw [hp, List.count_filter (by simp [hne])]
      exact List.count_eq_one_of_mem (List.Nodup.of_map _ hnodup) he

/-- C22 (amended) at the example: the first request is sent to the TCP device, and a response
with the tag 7 arrives while nothing is pending. -/
theorem pending_requests_bookkeeping_witness :
    (∃ (s1 : Twibd) (d1 : Device),
      exampleTwoClients.TCPBackend_Device_SendRequest 2 exampleTagSevenFirst = some s1 ∧
      mapFind s1.deviceHeap 2 = some d1 ∧
      d1.pending_requests = exampleTcpAdded.pending_requests ++ [{ client := some 4, tag := 7 }]) ∧
    (∃ (s1 : Twibd) (d1 : Device),
      exampleTwoClients.TCPBackend_Device_IncomingMessage exampleEnv 2 exampleTagSevenAnswer
        [] [] = some s1 ∧
      mapFind s1.deviceHeap 2 = some d1 ∧
      d1.pending_requests = exampleTcpAdded.pending_requests.filter (fun r => r.tag != 7)) := by
  have h := pending_requests_bookkeeping exampleEnv exampleTwoClients 2 exampleTcpAdded
    (by decide)
  refine ⟨h.1 exampleTagSevenFirst (Or.inr ⟨4, exampleClient, rfl, by decide⟩), ?_⟩
  obtain ⟨s1, d1, h1, h2, h3, _⟩ := h.2 exampleTagSevenAnswer [] [] (by decide)
  exact ⟨s1, d1, h1, h2, h3⟩

/-! ## Claims on the TCP backend: what `SendRequest` writes -/

/-- C24. For every request (without client, or of a live client) `SendRequest` on a live TCP
device returns having appended to the output buffer exactly one 32-byte header followed by
exactly the bytes of the payload.  The header's `client_id` is the issuing client's id
(0xFFFFFFFF when the request has no client), `object_id`, `command_id` and `tag` are those of
the request, `payload_size` is the length of the payload and `object_count` is 0; so the bytes
that follow the header number `payload_size + 4 * object_count`. -/
theorem SendRequest_appends_one_frame (s : Twibd) (dev : Nat) (d : Device) (r : Request)
    (hd : mapFind s.deviceHeap dev = some d)
    (hclient : r.client = none ∨
      ∃ c cl, r.client = some c ∧ mapFind s.clientHeap c = some cl) :
    ∃ (s1 : Twibd) (d1 : Device) (mhdr : MessageHeader),
      s.TCPBackend_Device_SendRequest dev r = some s1 ∧
      mapFind s1.deviceHeap dev = some d1 ∧
      d1.out_buffer = d.out_buffer ++ mhdr.encode ++ r.payload ∧
      mhdr.encode.length = 32 ∧
      (r.client = none → mhdr.client_id = 0xFFFFFFFF) ∧
      (∀ c cl, r.client = some c → mapFind s.clientHeap c = some cl →
        mhdr.client_id = cl.client_id) ∧
      mhdr.object_id = r.object_id ∧ mhdr.command_id = r.command_id ∧ mhdr.tag = r.tag ∧
      mhdr.payload_size = r.payload.length ∧ mhdr.object_count = 0 ∧
      d1.out_buffer.drop (d.out_buffer.length + 32) = r.payload ∧
      (d1.out_buffer.drop (d.out_buffer.length + 32)).length
        = mhdr.payload_size + 4 * mhdr.object_count := by
  have hcid : ∃ cid, ((r.client = none ∧ cid = 0xffffffff) ∨
      ∃ c cl, r.client = some c ∧ mapFind s.clientHeap c = some cl ∧ cl.client_id = cid) := by
    rcases hclient with h | ⟨c, cl, h1, h2⟩
    · exact ⟨_, Or.inl ⟨h, rfl⟩⟩
    · exact ⟨_, Or.inr ⟨c, cl, h1, h2, rfl⟩⟩
  obtain ⟨cid, hcid⟩ := hcid
  obtain ⟨s1, d1, h1, h2, h3, _⟩ := TCPBackend_Device_SendRequest_writes s dev d r cid hd hcid
  have hbuf : d1.out_buffer = d.out_buffer ++ MessageHeader.encode
      { client_id := cid, object_id := r.object_id, command_id := r.command_id, tag := r.tag,
        payload_size := r.payload.length, object_count := 0 } ++ r.payload := by
    rw [h3]
    simp only [encodeFrame, encodeObjectIds, List.append_nil, List.append_assoc]
  have hdrop : d1.out_buffer.drop (d.out_buffer.length + 32) = r.payload := by
    rw [hbuf, List.append_assoc, ← List.drop_drop, List.drop_left]
    have hl := encode_length
      { client_id := cid, object_id := r.object_id, command_id := r.command_id, tag := r.tag,
        payload_size := r.payload.length, object_count := 0 }
    rw [← hl, List.drop_left]
  refine ⟨s1, d1, _, h1, h2, hbuf, encode_length _, ?_, ?_, rfl, rfl, rfl, rfl, rfl, hdrop, ?_⟩
  · intro hnone
    rcases hcid with ⟨_, h⟩ | ⟨c, cl, hsome, _, _⟩
    · exact h
    · rw [hnone] at hsome; cases hsome
  · intro c cl hsome hcl
    rcases hcid with ⟨hnone, _⟩ | ⟨c0, cl0, hsome0, hcl0, hc⟩
    · rw [hnone] at hsome; cases hsome
    · rw [hsome] at hsome0
      cases hsome0
      rw [hcl] at hcl0
      cases hcl0
      exact hc.symm
  · rw [hdrop]
    simp

/-- C24 at the example: the request of client 21 with the tag 7 is sent to the TCP device. -/
theorem SendRequest_appends_one_frame_witness :
    ∃ (s1 : Twibd) (d1 : Device) (mhdr : MessageHeader),
      exampleTwoClients.TCPBackend_Device_SendRequest 2 exampleTagSevenFirst = some s1 ∧
      mapFind s1.deviceHeap 2 = some d1 ∧
      d1.out_buffer = exampleTcpAdded.out_buffer ++ mhdr.encode ++ exampleTagSevenFirst.payload ∧
      mhdr.encode.length = 32 ∧
      (exampleTagSevenFirst.client = none → mhdr.client_id = 0xFFFFFFFF) ∧
      (∀ c cl, exampleTagSevenFirst.client = some c →
        mapFind exampleTwoClients.clientHeap c = some cl → mhdr.client_id = cl.client_id) ∧
      mhdr.object_id = exampleTagSevenFirst.object_id ∧
      mhdr.command_id = exampleTagSevenFirst.command_id ∧
      mhdr.tag = exampleTagSevenFirst.tag ∧
      mhdr.payload_size = exampleTagSevenFirst.payload.length ∧ mhdr.object_count = 0 ∧
      d1.out_buffer.drop (exampleTcpAdded.out_buffer.length + 32)
        = exampleTagSevenFirst.payload ∧
      (d1.out_buffer.drop (exampleTcpAdded.out_buffer.length + 32)).length
        = mhdr.payload_size + 4 * mhdr.object_count :=
  SendRequest_appends_one_frame exampleTwoClients 2 exampleTcpAdded exampleTagSevenFirst
    (by decide) (Or.inr ⟨4, exampleClient, rfl, by decide⟩)

/-! ## Claims on the device registry: the reset request -/

/-- C25 (the claim fails): the local client chooses the tag 7 for its next request; `AddDevice`
of the TCP device at address 2 (the USB incumbent is kept) posts its request with the tag 7, not
with the tag 0 that `AddDevice` filled in. -/
theorem AddDevice_posts_chosen_tag :
    (exampleChosenTag.AddDevice 2).map (fun s1 => s1.dispatch_queue)
      = some [Job.request
          { client := some 3, device_id := 5, object_id := 0, command_id := 0xFFFFFFFF,
            tag := 7, payload := [] }] := by
  decide

/-- C25 (amended). Every call `AddDevice(d)` for a live device returns having posted exactly one
request: the dispatch queue grows by one request, issued by the local client, with `device_id`
that of the device, `object_id` 0, `command_id` 0xFFFFFFFF and the tag that the local client
chooses for it; nothing else but the registry and the tags the local client has left is
touched.  This is so whether the device was stored or not: also when a live incumbent of higher
priority was kept, in which case the registry is unchanged.  The request that `AddDevice` hands
to `LocalClient::SendRequest` (Twibd.cpp:51-52) has no client and the tag 0. -/
theorem AddDevice_posts_reset_request (s : Twibd) (device : Nat) (d : Device)
    (hd : mapFind s.deviceHeap device = some d) :
    ∃ s1 : Twibd, s.AddDevice device = some s1 ∧
      s1.dispatch_queue = s.dispatch_queue ++ [Job.request
        { client := some s.local_client, device_id := d.device_id, object_id := 0,
          command_id := 0xFFFFFFFF, tag := s.local_tags.headD 0, payload := [] }] ∧
      s1.local_tags = s.local_tags.tail ∧
      s1.deviceHeap = s.deviceHeap ∧ s1.clientHeap = s.clientHeap ∧
      s1.objectHeap = s.objectHeap ∧ s1.clients = s.clients ∧
      s1.connections = s.connections ∧ s1.nextRef = s.nextRef ∧
      s1.local_client = s.local_client ∧
      (s1.devices = s.devices ∨ s1.devices = mapAssign d.device_id device s.devices) ∧
      (∀ i inc, mapFind s.devices d.device_id = some i → mapFind s.deviceHeap i = some inc →
        d.GetPriority < inc.GetPriority → s1.devices = s.devices) ∧
      ∃ registry : Map Nat, s.AddDevice device
        = some (Twibd.LocalClient_SendRequest { s with devices := registry }
            { client := none, device_id := d.device_id, object_id := 0,
              command_id := 0xFFFFFFFF, tag := 0, payload := [] }) := by
  by_cases h : ∀ i inc, mapFind s.devices d.device_id = some i →
      mapFind s.deviceHeap i = some inc → inc.GetPriority ≤ d.GetPriority
  · refine ⟨_, AddDevice_store s device d hd h, rfl, rfl, rfl, rfl, rfl, rfl, rfl, rfl, rfl,
      Or.inr rfl, ?_, ⟨_, AddDevice_store s device d hd h⟩⟩
    intro i inc hi hinc hlt
    exact absurd (h i inc hi hinc) (Nat.not_le.mpr hlt)
  · have h1 : ∃ i inc, mapFind s.devices d.device_id = some i ∧
        mapFind s.deviceHeap i = some inc ∧ d.GetPriority < inc.GetPriority := by
      by_contra hcon
      apply h
      intro i inc hi hinc
      by_contra hle
      exact hcon ⟨i, inc, hi, hinc, Nat.not_le.mp hle⟩
    obtain ⟨i, inc, hi, hinc, hlt⟩ := h1
    exact ⟨_, AddDevice_keep s device i d inc hd hi hinc hlt, rfl, rfl, rfl, rfl, rfl, rfl, rfl,
      rfl, rfl, Or.inl rfl, fun _ _ _ _ _ => rfl,
      ⟨s.devices, AddDevice_keep s device i d inc hd hi hinc hlt⟩⟩

/-- C25 (amended) at the example: the TCP device is added while the USB device of the same
console, of higher priority, is registered, and the local client chooses the tag 7. -/
theorem AddDevice_posts_reset_request_witness :
    ∃ s1 : Twibd, exampleChosenTag.AddDevice 2 = some s1 ∧
      s1.dispatch_queue = exampleChosenTag.dispatch_queue ++ [Job.request
        { client := some exampleChosenTag.local_client, device_id := exampleTcp.device_id,
          object_id := 0, command_id := 0xFFFFFFFF,
          tag := exampleChosenTag.local_tags.headD 0, payload := [] }] ∧
      s1.devices = exampleChosenTag.devices := by
  obtain ⟨s1, h1, h2, _, _, _, _, _, _, _, _, _, h3, _⟩ :=
    AddDevice_posts_reset_request exampleChosenTag 2 exampleTcp (by decide)
  exact ⟨s1, h1, h2, h3 1 exampleUsb (by decide) (by decide) (by decide)⟩

/-! ## Claims on the TCP backend: messages that lack object ids -/

/-- C29. When the header of a message for a live TCP device announces more objects than there
are 32-bit ids in the object-id buffer, `IncomingMessage` returns having posted nothing (the
dispatch queue is as before) and having left every device as it was: the receiving device keeps
its `pending_requests`, and its `ready_flag`, `deletion_flag` and `device_id`, which
identification would write, are untouched.  The registries and the clients are unchanged
too. -/
theorem IncomingMessage_missing_object_ids (env : Env) (s : Twibd) (dev : Nat) (d : Device)
    (mh : MessageHeader) (payload object_ids : List Nat)
    (hd : mapFind s.deviceHeap dev = some d)
    (hshort : object_ids.length / 4 < mh.object_count) :
    ∃ s1 : Twibd,
      s.TCPBackend_Device_IncomingMessage env dev mh payload object_ids = some s1 ∧
      s1.dispatch_queue = s.dispatch_queue ∧
      s1.deviceHeap = s.deviceHeap ∧
      mapFind s1.deviceHeap dev = some d ∧
      s1.devices = s.devices ∧ s1.clients = s.clients ∧ s1.clientHeap = s.clientHeap ∧
      s1.connections = s.connections := by
  have hnot : ¬ 4 * mh.object_count ≤ object_ids.length := by omega
  obtain ⟨s1, d1, h1, h2, _, _, _, h6, h7, h8, h9, _, _, h12, _⟩ :=
    IncomingMessage_effect env s dev d mh payload object_ids hd
  obtain ⟨hd1, hheap, hq⟩ := h12 hnot
  refine ⟨s1, h1, hq, hheap, ?_, h7, h8, h9, h6⟩
  rw [hheap]
  exact hd

/-- C29 at the example: an identification response that announces one object and brings no
object id. -/
theorem IncomingMessage_missing_object_ids_witness :
    ∃ s1 : Twibd,
      exampleIdentifying.TCPBackend_Device_IncomingMessage exampleEnv 2
        { exampleIdentifyHeader with object_count := 1 } [1, 2] [] = some s1 ∧
      s1.dispatch_queue = exampleIdentifying.dispatch_queue ∧
      s1.deviceHeap = exampleIdentifying.deviceHeap ∧
      mapFind s1.deviceHeap 2 = some exampleTcpBegun ∧
      s1.devices = exampleIdentifying.devices ∧ s1.clients = exampleIdentifying.clients ∧
      s1.clientHeap = exampleIdentifying.clientHeap ∧
      s1.connections = exampleIdentifying.connections :=
  IncomingMessage_missing_object_ids exampleEnv exampleIdentifying 2 exampleTcpBegun
    { exampleIdentifyHeader with object_count := 1 } [1, 2] [] (by decide) (by decide)

/-! ## Claims on the dispatcher: which entries a close request disowns -/

/-- C27. A close request (`command_id` 0xFFFFFFFF) of a live client for the object id `k` and a
device that is registered, alive and not flagged for deletion is the next job.  `Process`
returns, and afterwards the client's `owned_objects` are its previous ones without the entries
whose object has the object id `k`: an entry stays exactly when the object id of its object
differs from `k`, whatever the device id of the object is.  The entries that stay keep their
relative order, and their objects, the `valid` flag included, are as before. -/
theorem close_request_disowns_by_object_id (env : Env) (s : Twibd) (rq : Request)
    (queue : List Job) (c : Nat) (client : Client) (i : Nat) (device : Device)
    (hq : s.dispatch_queue = Job.request rq :: queue)
    (hc : rq.client = some c) (hclient : mapFind s.clientHeap c = some client)
    (hid : rq.device_id ≠ 0) (hcmd : rq.command_id = 0xffffffff)
    (hentry : mapFind s.devices rq.device_id = some i)
    (hdev : mapFind s.deviceHeap i = some device) (hdel : device.deletion_flag = false) :
    ∃ (s1 : Twibd) (client1 : Client),
      s.Process env = some s1 ∧ mapFind s1.clientHeap c = some client1 ∧
      client1.owned_objects = client.owned_objects.filter (keeps rq.object_id s.objectHeap) ∧
      (∀ o obj, o ∈ client.owned_objects → mapFind s.objectHeap o = some obj →
        (o ∈ client1.owned_objects ↔ obj.object_id ≠ rq.object_id)) ∧
      List.Sublist client1.owned_objects client.owned_objects ∧
      (∀ o ∈ client1.owned_objects, mapFind s1.objectHeap o = mapFind s.objectHeap o) := by
  obtain ⟨d1, _, hproc⟩ := ProcessRequest_hit env { s with dispatch_queue := queue } rq c client
    i device hc hclient hid hentry hdev hdel
  rw [if_pos hcmd] at hproc
  have hfilter : (disown rq.object_id client.owned_objects s.objectHeap).1
      = client.owned_objects.filter (keeps rq.object_id s.objectHeap) := disown_fst _ _ _
  refine ⟨_, { client with owned_objects :=
      (disown rq.object_id client.owned_objects s.objectHeap).1 },
    (Process_request_eq env s rq queue hq).trans hproc, ?_, hfilter, ?_, ?_, ?_⟩
  · simp only [Twibd.disownObjects, hclient]
    exact mapFind_mapAssign_self _ _ _
  · intro o obj ho hobj
    simp only [hfilter, List.mem_filter, ho, true_and, keeps, hobj]
    simp
  · simp only [hfilter]
    exact List.filter_sublist _
  · intro o ho
    simp only [hfilter, List.mem_filter] at ho
    simp only [Twibd.disownObjects, hclient, disown_snd]
    cases hobj : mapFind s.objectHeap o with
    | none => rfl
    | some obj =>
      have hk := ho.2
      simp only [keeps, hobj, bne_iff_ne, ne_eq] at hk
      simp only [Option.map_some', hk, and_false, if_false]

/-- C27 at the example: client 21 owns the handles 30 (device 5, object id 7), 31 (device 5,
object id 8) and 32 (device 6, object id 7) and closes object id 7 of device 5. -/
theorem close_request_disowns_by_object_id_witness :
    ∃ (s1 : Twibd) (client1 : Client),
      exampleClosingTwoDevices.Process exampleEnv = some s1 ∧
      mapFind s1.clientHeap 4 = some client1 ∧
      client1.owned_objects = [31] := by
  obtain ⟨s1, client1, h1, h2, h3, _⟩ :=
    close_request_disowns_by_object_id exampleEnv exampleClosingTwoDevices exampleCloseRequest
      [] 4 { exampleClient with owned_objects := [30, 31, 32] } 1 exampleUsb
      (by decide) (by decide) (by decide) (by decide) (by decide) (by decide) (by decide)
      (by decide)
  refine ⟨s1, client1, h1, h2, ?_⟩
  rw [h3]
  decide

/-! ## Claims on the device side -/

/-- C30. Method `ITwibPipeReader::HandleRequest` for the command `READ` with an empty payload
answers with the error `EOF` if and only if the pipe has expired or delivers 0 bytes (then
nothing is thrown, and 0 bytes are reported as consumed when the pipe delivered).  When the pipe
delivers `n > 0` bytes, it answers Ok with a payload of size `n` holding exactly these bytes and
reports `n` bytes as consumed.  `READ` with a non-empty payload throws `BAD_REQUEST` without an
answer, and every other command is answered with `UNRECOGNIZED_FUNCTION`. -/
theorem ITwibPipeReader_READ (codes : PipeReaderCodes) (pipe : Option PipeRead)
    (command_id : Nat) (payload : List Nat) :
    (command_id = codes.READ → payload = [] →
      ((ITwibPipeReader_HandleRequest codes pipe command_id payload).calls
          = [OpenerCall.BeginError codes.TWILI_ERR_EOF, OpenerCall.Finalize] ↔
        (pipe = none ∨ pipe = some (PipeRead.delivers []))) ∧
      (ITwibPipeReader_HandleRequest codes pipe command_id payload).thrown = none ∧
      (pipe = some (PipeRead.delivers []) →
        (ITwibPipeReader_HandleRequest codes pipe command_id payload).consumed = some 0) ∧
      (∀ data, pipe = some (PipeRead.delivers data) → data ≠ [] →
        ITwibPipeReader_HandleRequest codes pipe command_id payload
          = { calls := [OpenerCall.BeginOk data.length, OpenerCall.Write data,
                        OpenerCall.Finalize],
              thrown := none, consumed := some data.length })) ∧
    (command_id = codes.READ → payload ≠ [] →
      ITwibPipeReader_HandleRequest codes pipe command_id payload
        = { calls := [], thrown := some codes.TWILI_ERR_BAD_REQUEST, consumed := none }) ∧
    (command_id ≠ codes.READ →
      ITwibPipeReader_HandleRequest codes pipe command_id payload
        = { calls := [OpenerCall.BeginError codes.TWILI_ERR_PROTOCOL_UNRECOGNIZED_FUNCTION,
                      OpenerCall.Finalize],
            thrown := none, consumed := none }) := by
  refine ⟨?_, ?_, ?_⟩
  · intro hcmd hpayload
    subst hpayload
    simp only [ITwibPipeReader_HandleRequest, hcmd, if_true, ITwibPipeReader_Read,
      List.length_nil, ne_eq, not_true_eq_false, if_false]
    cases pipe with
    | none => simp
    | some p =>
      cases p with
      | holds => simp
      | delivers data =>
        cases data with
        | nil => simp [ITwibPipeReader_Read_callback]
        | cons b rest => simp [ITwibPipeReader_Read_callback]
  · intro hcmd hpayload
    have hlen : payload.length ≠ 0 := by
      intro h
      exact hpayload (List.length_eq_zero.mp h)
    simp only [ITwibPipeReader_HandleRequest, hcmd, if_true, ITwibPipeReader_Read, hlen, ne_eq,
      not_false_eq_true]
  · intro hcmd
    simp only [ITwibPipeReader_HandleRequest, hcmd, if_false]

/-- C30 at the example: a `READ` with an empty payload on a pipe that delivers three bytes. -/
theorem ITwibPipeReader_READ_witness :
    ITwibPipeReader_HandleRequest exampleCodes (some (PipeRead.delivers [104, 105, 10])) 10 []
      = { calls := [OpenerCall.BeginOk 3, OpenerCall.Write [104, 105, 10], OpenerCall.Finalize],
          thrown := none, consumed := some 3 } :=
  ((ITwibPipeReader_READ exampleCodes (some (PipeRead.delivers [104, 105, 10])) 10 []).1
    rfl rfl).2.2.2 [104, 105, 10] rfl (by decide)

/-- Whenever the connection list reaches beyond the `fds` vector, the per-connection loop reads
`fds` at the index `fds.size()`, one past its last element. -/
theorem TCPBridge_pollLoop_overrun (fds : List Revents) (connections : List BridgeConnection)
    (fdi : Nat) (hle : fdi ≤ fds.length) (hlong : fds.length < fdi + connections.length) :
    fds.length ∈ (TCPBridge_pollLoop fds fdi connections).1 ∧
    (TCPBridge_pollLoop fds fdi connections).2 = none := by
  induction connections generalizing fdi with
  | nil => simp at hlong; omega
  | cons ci rest ih =>
    unfold TCPBridge_pollLoop
    by_cases hfdi : fdi < fds.length
    · have hget : fds[fdi]? = some fds[fdi] := List.getElem?_eq_getElem hfdi
      simp only [hget]
      have hlen : fds.length < fdi + 1 + rest.length := by
        simp only [List.length_cons] at hlong
        omega
      obtain ⟨h1, h2⟩ := ih (fdi + 1) hfdi hlen
      by_cases hf : fds[fdi].fault = true
      · simp only [hf, if_true]
        exact ⟨List.mem_cons_of_mem _ h1, h2⟩
      · simp only [hf, if_false, Bool.false_eq_true]
        refine ⟨List.mem_cons_of_mem _ h1, ?_⟩
        rw [h2]
        rfl
    · have heq : fdi = fds.length := by omega
      have hget : fds[fdi]? = none := List.getElem?_eq_none (by omega)
      simp only [hget]
      exact ⟨by simp [heq], trivial⟩

/-- Every pass in which the server socket is readable without error and `bsd_accept` returns a
connection reads `fds` one past its last element. -/
theorem TCPBridge_SocketThread_pass_overrun (connections : List BridgeConnection)
    (poll : Nat → Revents) (fd : Nat)
    (hin : (poll 0).pollin = true) (hok : (poll 0).fault = false) :
    (TCPBridge_SocketThread_pass connections poll (some fd)).1 ∈
      (TCPBridge_SocketThread_pass connections poll (some fd)).2.1 ∧
    (TCPBridge_SocketThread_pass connections poll (some fd)).2.2 = none := by
  unfold TCPBridge_SocketThread_pass
  simp only [hin, hok, if_true, if_false, Bool.false_eq_true]
  apply TCPBridge_pollLoop_overrun
  · simp
  · simp

/-- C28 (the code departs from the claim): the bridge has one connection and `bsd_poll` reports
the server socket readable; `bsd_accept` returns a new connection, which is appended to the
connection list.  The vector `fds`, built before, has two elements, and the per-connection loop
reads it at the indices 1 and 2: the index 2 is outside the vector.  The same happens with no
connection at all, when the first one is accepted: `fds` has one element and is read at
index 1. -/
theorem SocketThread_reads_fds_out_of_bounds :
    TCPBridge_SocketThread_pass [{ fd := 5, deletion_flag := false, pumped := 0 }]
        exampleServerReadable (some 9)
      = (2, [1, 2], none) ∧
    TCPBridge_SocketThread_pass [] exampleServerReadable (some 9) = (1, [1], none) ∧
    TCPBridge_SocketThread_pass [{ fd := 5, deletion_flag := false, pumped := 0 }]
        exampleServerReadable none
      = (2, [1], some [{ fd := 5, deletion_flag := false, pumped := 0 }]) := by
  decide

/-! ## Claims on the dispatcher: handles of remote objects -/

/-- C23 (the claim fails): client 21 owns one handle, of the object with id 7 on device 5.  The
TCP device answers the client twice, each time with the object id 9; the dispatcher dispatches
both responses.  The run is a run of `IncomingMessage` and `Process` only, and afterwards the
client owns three handles, two of which stand for the same remote object. -/
theorem owned_objects_hold_remote_object_twice :
    exampleOwning.ownedRemoteObjects 4 = [(5, 7)] ∧
    (exampleOwning.run exampleEnv exampleSameObjectTwice).map
        (fun s => ((mapFind s.clientHeap 4).map (fun cl => cl.owned_objects),
          s.ownedRemoteObjects 4))
      = some (some [30, 40, 41], [(5, 7), (21, 9), (21, 9)]) := by
  decide

/-- Sending a request over TCP changes the device heap only. -/
theorem TCPBackend_Device_SendRequest_frame (s s1 : Twibd) (dev : Nat) (r : Request)
    (h : s.TCPBackend_Device_SendRequest dev r = some s1) :
    s1.clientHeap = s.clientHeap ∧ s1.dispatch_queue = s.dispatch_queue ∧
    s1.nextRef = s.nextRef ∧ s1.objectHeap = s.objectHeap := by
  unfold Twibd.TCPBackend_Device_SendRequest at h
  simp only [] at h
  split at h
  · rename_i heq
    cases h
    exact ⟨rfl, rfl, rfl, rfl⟩
  · cases h

/-- Handing a request to a device changes the device heap only. -/
theorem Device_SendRequest_frame (s s1 : Twibd) (dev : Nat) (r : Request)
    (h : s.Device_SendRequest dev r = some s1) :
    s1.clientHeap = s.clientHeap ∧ s1.dispatch_queue = s.dispatch_queue ∧
    s1.nextRef = s.nextRef ∧ s1.objectHeap = s.objectHeap := by
  unfold Twibd.Device_SendRequest at h
  cases hd : mapFind s.deviceHeap dev with
  | none => rw [hd] at h; cases h
  | some d =>
    simp only [hd] at h
    cases hb : d.bridge with
    | tcp =>
      simp only [hb] at h
      exact TCPBackend_Device_SendRequest_frame s s1 dev r h
    | usb =>
      simp only [hb] at h
      simp only [Twibd.USBBackend_Device_SendRequest, hd] at h
      cases h
      exact ⟨rfl, rfl, rfl, rfl⟩

/-- An answer made by `RespondError` carries no objects. -/
theorem RespondError_objects (s : Twibd) (rq : Request) (code : Nat) (r : Response)
    (h : s.RespondError rq code = some r) : r.objects = [] := by
  unfold Twibd.RespondError at h
  cases hc : rq.client.bind (mapFind s.clientHeap) with
  | none => rw [hc] at h; cases h
  | some client =>
    rw [hc] at h
    cases h
    rfl

/-- The connect path leaves the clients and the queue alone and hands out addresses
upwards. -/
theorem TCPBackend_Connect_frame (env : Env) (s s1 : Twibd) (hostname port msg : List Nat)
    (h : s.TCPBackend_Connect env hostname port = some (s1, msg)) :
    s1.clientHeap = s.clientHeap ∧ s1.dispatch_queue = s.dispatch_queue ∧
    s.nextRef ≤ s1.nextRef := by
  unfold Twibd.TCPBackend_Connect at h
  cases hc : env.connect hostname port with
  | gaiError m => rw [hc] at h; cases h; exact ⟨rfl, rfl, Nat.le_refl _⟩
  | socketError m => rw [hc] at h; cases h; exact ⟨rfl, rfl, Nat.le_refl _⟩
  | connectError m => rw [hc] at h; cases h; exact ⟨rfl, rfl, Nat.le_refl _⟩
  | connected fd =>
    rw [hc] at h
    simp only [Twibd.TCPBackend_Device_Begin] at h
    cases hs : Twibd.TCPBackend_Device_SendRequest
        { s with nextRef := s.nextRef + 1,
                 deviceHeap := mapAssign s.nextRef (Device.fresh fd) s.deviceHeap,
                 connections := s.connections ++ [s.nextRef] } s.nextRef
        { client := none, device_id := 0, object_id := 0, command_id := env.IDENTIFY,
          tag := 0xFFFFFFFF, payload := [] } with
    | none => rw [hs] at h; cases h
    | some s2 =>
      rw [hs] at h
      simp only [Option.map_some', Option.some.injEq, Prod.mk.injEq] at h
      obtain ⟨h1, _⟩ := h
      subst h1
      obtain ⟨f1, f2, f3, _⟩ := TCPBackend_Device_SendRequest_frame _ _ _ _ hs
      exact ⟨f1, f2, by rw [f3]; exact Nat.le_succ _⟩

/-- The meta object answers without objects; it leaves the clients and the queue alone and hands
out addresses upwards. -/
theorem HandleRequest_frame (env : Env) (s s1 : Twibd) (rq : Request) (r : Response)
    (h : s.HandleRequest env rq = some (s1, r)) :
    r.objects = [] ∧ s1.clientHeap = s.clientHeap ∧ s1.dispatch_queue = s.dispatch_queue ∧
    s.nextRef ≤ s1.nextRef := by
  have herr : ∀ code, (s.RespondError rq code).map (fun r => (s, r)) = some (s1, r) →
      r.objects = [] ∧ s1.clientHeap = s.clientHeap ∧ s1.dispatch_queue = s.dispatch_queue ∧
      s.nextRef ≤ s1.nextRef := by
    intro code hmap
    cases hr : s.RespondError rq code with
    | none => rw [hr] at hmap; cases hmap
    | some r0 =>
      rw [hr] at hmap
      simp only [Option.map_some', Option.some.injEq, Prod.mk.injEq] at hmap
      obtain ⟨h1, h2⟩ := hmap
      subst h1
      subst h2
      exact ⟨RespondError_objects s rq code _ hr, rfl, rfl, Nat.le_refl _⟩
  unfold Twibd.HandleRequest at h
  by_cases hobj : rq.object_id = 0
  · simp only [hobj, if_true] at h
    by_cases hlist : rq.command_id = LIST_DEVICES
    · simp only [hlist, if_true] at h
      cases hr : s.RespondOk rq with
      | none => simp only [hr] at h; cases h
      | some r0 =>
        cases hp : device_packs s.deviceHeap s.devices with
        | none => simp only [hr, hp] at h; cases h
        | some packs =>
          simp only [hr, hp, Option.some.injEq, Prod.mk.injEq] at h
          obtain ⟨h1, h2⟩ := h
          subst h1
          subst h2
          exact ⟨RespondError_objects s rq 0 r0 hr, rfl, rfl, Nat.le_refl _⟩
    · simp only [hlist, if_false] at h
      by_cases hconn : rq.command_id = CONNECT_TCP
      · simp only [hconn, if_true] at h
        split at h
        · exact herr _ h
        · rename_i hostname port _
          cases hr : s.RespondOk rq with
          | none => simp only [hr] at h; cases h
          | some r0 =>
            simp only [hr] at h
            cases hcon : s.TCPBackend_Connect env hostname port with
            | none => rw [hcon] at h; cases h
            | some p =>
              obtain ⟨s2, msg⟩ := p
              rw [hcon] at h
              simp only [Option.map_some', Option.some.injEq, Prod.mk.injEq] at h
              obtain ⟨h1, h2⟩ := h
              subst h1
              subst h2
              obtain ⟨f1, f2, f3⟩ := TCPBackend_Connect_frame env s _ hostname port msg hcon
              exact ⟨RespondError_objects s rq 0 r0 hr, f1, f2, f3⟩
      · simp only [hconn, if_false] at h
        exact herr _ h
  · simp only [hobj, if_false] at h
    exact herr _ h

/-! ## Handles stay distinct along a run -/

theorem queuedHandles_append_request (q : List Job) (rq : Request) :
    queuedHandles (q ++ [Job.request rq]) = queuedHandles q := by
  induction q with
  | nil => rfl
  | cons j rest ih =>
    cases j with
    | request r =>
      show queuedHandles (rest ++ [Job.request rq]) = queuedHandles rest
      exact ih
    | response r =>
      show r.objects ++ queuedHandles (rest ++ [Job.request rq])
        = r.objects ++ queuedHandles rest
      rw [ih]

theorem queuedHandles_append_response (q : List Job) (rs : Response) :
    queuedHandles (q ++ [Job.response rs]) = queuedHandles q ++ rs.objects := by
  induction q with
  | nil => simp only [List.nil_append, queuedHandles, List.append_nil]
  | cons j rest ih =>
    cases j with
    | request r =>
      show queuedHandles (rest ++ [Job.response rs]) = queuedHandles rest ++ rs.objects
      exact ih
    | response r =>
      show r.objects ++ queuedHandles (rest ++ [Job.response rs])
        = r.objects ++ queuedHandles rest ++ rs.objects
      rw [ih, List.append_assoc]

/-- The property survives every change that only drops handles: each client owns a sublist of
what it owned, the queue carries a sublist of what it carried, and addresses are handed out
upwards. -/
theorem handlesDistinct_mono (s s1 : Twibd) (hinv : s.handlesDistinct)
    (hclients : ∀ c cl1, mapFind s1.clientHeap c = some cl1 →
      ∃ cl, mapFind s.clientHeap c = some cl ∧
        List.Sublist cl1.owned_objects cl.owned_objects)
    (hq : List.Sublist (queuedHandles s1.dispatch_queue) (queuedHandles s.dispatch_queue))
    (hnext : s.nextRef ≤ s1.nextRef) : s1.handlesDistinct := by
  obtain ⟨hown, hnodup, hlt⟩ := hinv
  refine ⟨?_, hq.nodup hnodup, fun o ho => Nat.lt_of_lt_of_le (hlt o (hq.subset ho)) hnext⟩
  intro c cl1 hcl1
  obtain ⟨cl, hcl, hsub⟩ := hclients c cl1 hcl1
  obtain ⟨h1, h2⟩ := hown c cl hcl
  refine ⟨hsub.nodup h1, ?_⟩
  intro o ho
  obtain ⟨h3, h4⟩ := h2 o (hsub.subset ho)
  exact ⟨Nat.lt_of_lt_of_le h3 hnext, fun hmem => h4 (hq.subset hmem)⟩

/-- A message that arrives on a TCP connection keeps the handles distinct: the handles it
brings are new addresses. -/
theorem handlesDistinct_incoming (env : Env) (s s1 : Twibd) (dev : Nat) (mh : MessageHeader)
    (payload object_ids : List Nat) (hinv : s.handlesDistinct)
    (h : s.TCPBackend_Device_IncomingMessage env dev mh payload object_ids = some s1) :
    s1.handlesDistinct := by
  cases hd : mapFind s.deviceHeap dev with
  | none =>
    simp only [Twibd.TCPBackend_Device_IncomingMessage, hd] at h
    cases h
  | some d =>
    obtain ⟨s0, d1, h1, _, _, _, _, _, _, _, hheap, _, hnext, hshort, henough⟩ :=
      IncomingMessage_effect env s dev d mh payload object_ids hd
    rw [h1] at h
    cases h
    have hsame : s1.dispatch_queue = s.dispatch_queue → s1.handlesDistinct := by
      intro hq
      refine handlesDistinct_mono s s1 hinv ?_ (by rw [hq]) hnext
      intro c cl1 hc
      rw [hheap] at hc
      exact ⟨cl1, hc, List.Sublist.refl _⟩
    by_cases hlen : 4 * mh.object_count ≤ object_ids.length
    · obtain ⟨_, hnew, hcases⟩ := henough hlen
      rcases hcases with ⟨_, hq⟩ | ⟨_, hq⟩
      · exact hsame hq
      · obtain ⟨hown, hnodup, hlt⟩ := hinv
        have hqh : queuedHandles s1.dispatch_queue
            = queuedHandles s.dispatch_queue ++ List.range' s.nextRef mh.object_count := by
          rw [hq, queuedHandles_append_response]
        refine ⟨?_, ?_, ?_⟩
        · intro c cl hc
          rw [hheap] at hc
          obtain ⟨h2, h3⟩ := hown c cl hc
          refine ⟨h2, ?_⟩
          intro o ho
          obtain ⟨h4, h5⟩ := h3 o ho
          refine ⟨Nat.lt_of_lt_of_le h4 hnext, ?_⟩
          rw [hqh, List.mem_append]
          rintro (hmem | hmem)
          · exact h5 hmem
          · have := (List.mem_range'_1.mp hmem).1
            omega
        · rw [hqh]
          refine List.Nodup.append hnodup (List.nodup_range' _ _) ?_
          intro o ho1 ho2
          have := hlt o ho1
          have := (List.mem_range'_1.mp ho2).1
          omega
        · intro o ho
          rw [hqh, List.mem_append] at ho
          rw [hnew]
          rcases ho with ho | ho
          · have := hlt o ho
            omega
          · exact (List.mem_range'_1.mp ho).2
    · exact hsame (hshort hlen).2.2

/-- Dispatching a request keeps the handles distinct: answers of the daemon carry no handles,
and a close request only removes handles from the issuer's list. -/
theorem handlesDistinct_ProcessRequest (env : Env) (s s1 : Twibd) (rq : Request)
    (hinv : s.handlesDistinct) (h : s.ProcessRequest env rq = some s1) :
    s1.handlesDistinct := by
  have herr : ∀ code, (s.RespondError rq code).map s.PostResponse = some s1 →
      s1.handlesDistinct := by
    intro code hmap
    cases hr : s.RespondError rq code with
    | none => rw [hr] at hmap; cases hmap
    | some r =>
      rw [hr] at hmap
      cases hmap
      refine handlesDistinct_mono s _ hinv (fun c cl1 hc => ⟨cl1, hc, List.Sublist.refl _⟩) ?_
        (Nat.le_refl _)
      simp only [Twibd.PostResponse, queuedHandles_append_response,
        RespondError_objects s rq code r hr, List.append_nil]
      exact List.Sublist.refl _
  unfold Twibd.ProcessRequest at h
  cases hc : rq.client with
  | none => simp only [hc] at h; cases h
  | some c =>
    cases hclient : mapFind s.clientHeap c with
    | none => simp only [hc, hclient] at h; cases h
    | some client =>
      simp only [hc, hclient] at h
      by_cases hid : rq.device_id = 0
      · simp only [hid, if_true] at h
        cases hh : s.HandleRequest env rq with
        | none => rw [hh] at h; cases h
        | some p =>
          obtain ⟨s2, r⟩ := p
          rw [hh] at h
          cases h
          obtain ⟨f1, f2, f3, f4⟩ := HandleRequest_frame env s s2 rq r hh
          refine handlesDistinct_mono s _ hinv ?_ ?_ f4
          · intro c0 cl1 hc0
            simp only [Twibd.PostResponse] at hc0
            rw [f2] at hc0
            exact ⟨cl1, hc0, List.Sublist.refl _⟩
          · simp only [Twibd.PostResponse, queuedHandles_append_response, f1, f3,
              List.append_nil]
            exact List.Sublist.refl _
      · simp only [hid, if_false] at h
        cases hentry : mapFind s.devices rq.device_id with
        | none => simp only [hentry] at h; exact herr _ h
        | some i =>
          cases hdev : mapFind s.deviceHeap i with
          | none => simp only [hentry, hdev] at h; exact herr _ h
          | some device =>
            simp only [hentry, hdev] at h
            by_cases hdel : device.deletion_flag = true
            · simp only [hdel, if_true] at h
              exact herr _ h
            · simp only [hdel, if_false, Bool.false_eq_true] at h
              obtain ⟨f1, f2, f3, _⟩ := Device_SendRequest_frame _ _ _ _ h
              by_cases hclose : rq.command_id = 0xffffffff
              · simp only [hclose, if_true] at f1 f2 f3
                have hn : (s.disownObjects c rq.object_id).nextRef = s.nextRef := by
                  simp only [Twibd.disownObjects, hclient]
                refine handlesDistinct_mono s s1 hinv ?_ ?_ (Nat.le_of_eq (hn.symm.trans f3.symm))
                · intro c0 cl1 hc0
                  rw [f1] at hc0
                  simp only [Twibd.disownObjects, hclient] at hc0
                  by_cases hcc : c0 = c
                  · subst hcc
                    rw [mapFind_mapAssign_self] at hc0
                    cases hc0
                    refine ⟨client, hclient, ?_⟩
                    simp only [disown_fst]
                    exact List.filter_sublist _
                  · rw [mapFind_mapAssign_ne _ _ _ _ hcc] at hc0
                    exact ⟨cl1, hc0, List.Sublist.refl _⟩
                · rw [f2, (disownObjects_deviceHeap s c rq.object_id).2.2]
              · simp only [hclose, if_false] at f1 f2 f3
                refine handlesDistinct_mono s s1 hinv ?_ (by rw [f2])
                  (Nat.le_of_eq f3.symm)
                intro c0 cl1 hc0
                rw [f1] at hc0
                exact ⟨cl1, hc0, List.Sublist.refl _⟩

/-- Dispatching a response keeps the handles distinct: the handles it carries were queued, so
they are distinct from each other, from the handles the client owns and from the handles still
queued. -/
theorem handlesDistinct_ProcessResponse (s s1 : Twibd) (rs : Response) (queue : List Job)
    (hinv : s.handlesDistinct) (hq : s.dispatch_queue = Job.response rs :: queue)
    (h : Twibd.ProcessResponse { s with dispatch_queue := queue } rs = some s1) :
    s1.handlesDistinct := by
  obtain ⟨hown, hnodup, hlt⟩ := hinv
  have hqh : queuedHandles s.dispatch_queue = rs.objects ++ queuedHandles queue := by
    rw [hq]; rfl
  rw [hqh] at hnodup hlt
  have hdrop : Twibd.handlesDistinct { s with dispatch_queue := queue } := by
    refine ⟨?_, (List.nodup_append.mp hnodup).2.1, fun o ho => hlt o (List.mem_append_right _ ho)⟩
    intro c cl hc
    obtain ⟨h1, h2⟩ := hown c cl hc
    refine ⟨h1, fun o ho => ⟨(h2 o ho).1, fun hmem => (h2 o ho).2 ?_⟩⟩
    rw [hqh]
    exact List.mem_append_right _ hmem
  unfold Twibd.ProcessResponse at h
  cases hg : Twibd.GetClient { s with dispatch_queue := queue } rs.client_id with
  | none =>
    rw [hg] at h
    cases h
    exact hdrop
  | some c =>
    rw [hg] at h
    cases hclient : mapFind s.clientHeap c with
    | none => simp only [hclient] at h; cases h
    | some client =>
      simp only [hclient] at h
      cases h
      obtain ⟨h1, h2⟩ := hown c client hclient
      have hdisj := (List.nodup_append.mp hnodup).2.2
      refine ⟨?_, (List.nodup_append.mp hnodup).2.1,
        fun o ho => hlt o (List.mem_append_right _ ho)⟩
      intro c0 cl0 hc0
      by_cases hcc : c0 = c
      · subst hcc
        simp only [mapFind_mapAssign_self, Option.some.injEq] at hc0
        subst hc0
        refine ⟨?_, ?_⟩
        · refine List.Nodup.append h1 (List.nodup_append.mp hnodup).1 ?_
          intro o ho1 ho2
          exact (h2 o ho1).2 (by rw [hqh]; exact List.mem_append_left _ ho2)
        · intro o ho
          rcases List.mem_append.mp ho with ho | ho
          · refine ⟨(h2 o ho).1, fun hmem => (h2 o ho).2 ?_⟩
            rw [hqh]
            exact List.mem_append_right _ hmem
          · exact ⟨hlt o (List.mem_append_left _ ho), fun hmem => hdisj ho hmem⟩
      · simp only [mapFind_mapAssign_ne _ _ _ _ hcc] at hc0
        exact hdrop.1 c0 cl0 hc0

/-- Every step of a run keeps the handles distinct. -/
theorem handlesDistinct_step (env : Env) (s s1 : Twibd) (st : DispatchStep)
    (hinv : s.handlesDistinct) (h : s.step env st = some s1) : s1.handlesDistinct := by
  cases st with
  | incoming dev mh payload object_ids =>
    exact handlesDistinct_incoming env s s1 dev mh payload object_ids hinv h
  | post rq =>
    simp only [Twibd.step, Option.some.injEq] at h
    subst h
    refine handlesDistinct_mono s _ hinv (fun c cl1 hc => ⟨cl1, hc, List.Sublist.refl _⟩) ?_
      (Nat.le_refl _)
    simp only [Twibd.PostRequest, queuedHandles_append_request]
    exact List.Sublist.refl _
  | process =>
    simp only [Twibd.step, Twibd.Process] at h
    cases hq : s.dispatch_queue with
    | nil => simp only [hq] at h; cases h
    | cons j queue =>
      cases j with
      | request rq =>
        simp only [hq] at h
        refine handlesDistinct_ProcessRequest env _ s1 rq ?_ h
        refine handlesDistinct_mono s _ hinv (fun c cl1 hc => ⟨cl1, hc, List.Sublist.refl _⟩)
          ?_ (Nat.le_refl _)
        rw [hq]
        exact List.Sublist.refl _
      | response rs =>
        simp only [hq] at h
        exact handlesDistinct_ProcessResponse s s1 rs queue hinv hq h

/-- The property holds in a state when it holds for every entry of the client heap. -/
theorem handlesDistinct_of_entries (s : Twibd)
    (hclients : ∀ e ∈ s.clientHeap, e.2.owned_objects.Nodup ∧
      ∀ o ∈ e.2.owned_objects, o < s.nextRef ∧ o ∉ queuedHandles s.dispatch_queue)
    (hnodup : (queuedHandles s.dispatch_queue).Nodup)
    (hlt : ∀ o ∈ queuedHandles s.dispatch_queue, o < s.nextRef) : s.handlesDistinct := by
  refine ⟨?_, hnodup, hlt⟩
  intro c cl hc
  have hmem : ∀ (m : Map Client), mapFind m c = some cl → (c, cl) ∈ m := by
    intro m
    induction m with
    | nil => intro h; cases h
    | cons e rest ih =>
      intro h
      obtain ⟨k, v⟩ := e
      unfold mapFind at h
      by_cases hk : k = c
      · simp only [hk, if_true, Option.some.injEq] at h
        subst h
        subst hk
        exact List.mem_cons_self _ _
      · simp only [hk, if_false] at h
        exact List.mem_cons_of_mem _ (ih h)
  exact hclients (c, cl) (hmem _ hc)

/-- C23 (amended). In every state reached by a run of arriving device messages
(`IncomingMessage`), posted requests and dispatches by `Twibd::Process`, from a state in which
the handles owned and queued are distinct, no client's `owned_objects` contains the same handle
twice (and the handles still queued are distinct from each other and from the owned ones).
Handles are compared, not the remote objects behind them: `Process` appends the handles of a
response without looking at `device_id` and `object_id`. -/
theorem run_keeps_handles_distinct (env : Env) (steps : List DispatchStep) (s0 s : Twibd)
    (hinit : s0.handlesDistinct) (hrun : s0.run env steps = some s) :
    s.handlesDistinct ∧
    ∀ c cl, mapFind s.clientHeap c = some cl → cl.owned_objects.Nodup := by
  have key : s.handlesDistinct := by
    induction steps generalizing s0 with
    | nil =>
      simp only [Twibd.run, Option.some.injEq] at hrun
      subst hrun
      exact hinit
    | cons st rest ih =>
      simp only [Twibd.run] at hrun
      cases hs : s0.step env st with
      | none => rw [hs] at hrun; cases hrun
      | some s1 =>
        rw [hs] at hrun
        exact ih s1 (handlesDistinct_step env s0 s1 st hinit hs) hrun
  exact ⟨key, fun c cl hc => (key.1 c cl hc).1⟩

/-- C23 (amended) at the example: the run in which the device answers twice with the same
object id ends in a state in which client 21 owns the three handles 30, 40 and 41. -/
theorem run_keeps_handles_distinct_witness :
    exampleOwning.handlesDistinct ∧
    ∃ s : Twibd, exampleOwning.run exampleEnv exampleSameObjectTwice = some s ∧
      (mapFind s.clientHeap 4).map (fun cl => cl.owned_objects) = some [30, 40, 41] ∧
      ∀ c cl, mapFind s.clientHeap c = some cl → cl.owned_objects.Nodup := by
  have hinit : exampleOwning.handlesDistinct :=
    handlesDistinct_of_entries exampleOwning (by decide) (by decide) (by decide)
  refine ⟨hinit, ?_⟩
  cases hrun : exampleOwning.run exampleEnv exampleSameObjectTwice with
  | none => exact absurd hrun (by decide)
  | some s =>
    refine ⟨s, rfl, ?_,
      (run_keeps_handles_distinct exampleEnv exampleSameObjectTwice exampleOwning s hinit
        hrun).2⟩
    have h : (exampleOwning.run exampleEnv exampleSameObjectTwice).bind
        (fun s => (mapFind s.clientHeap 4).map (fun cl => cl.owned_objects))
        = some [30, 40, 41] := by decide
    rw [hrun] at h
    exact h

/-! ## The event loop of the TCP backend: logs of calls -/

theorem addedAtMostOnce_append (log new : List LifecycleCall) (h : addedAtMostOnce log)
    (hnew : ∀ dev, LifecycleCall.AddDevice dev ∉ new) : addedAtMostOnce (log ++ new) := by
  intro dev
  rw [List.count_append, List.count_eq_zero_of_not_mem (hnew dev)]
  exact h dev

theorem addedAtMostOnce_snoc (log : List LifecycleCall) (c : Nat) (h : addedAtMostOnce log)
    (hc : LifecycleCall.AddDevice c ∉ log) :
    addedAtMostOnce (log ++ [LifecycleCall.AddDevice c]) := by
  intro dev
  rw [List.count_append]
  by_cases hd : dev = c
  · subst hd
    rw [List.count_eq_zero_of_not_mem hc]
    simp
  · have : LifecycleCall.AddDevice dev ∉ [LifecycleCall.AddDevice c] := by
      simp [hd]
    rw [List.count_eq_zero_of_not_mem this]
    exact h dev

theorem removedAfterAdded_append (log new : List LifecycleCall) (h : removedAfterAdded log)
    (hnew : ∀ dev, LifecycleCall.RemoveDevice dev ∈ new → LifecycleCall.AddDevice dev ∈ log) :
    removedAfterAdded (log ++ new) := by
  intro pre dev post heq
  rcases List.append_eq_append_iff.mp heq with ⟨a, hpre, hn⟩ | ⟨c, hlog, hc⟩
  · rw [hpre]
    exact List.mem_append_left _ (hnew dev (by rw [hn]; simp))
  · cases c with
    | nil =>
      simp only [List.nil_append] at hc
      simp only [List.append_nil] at hlog
      rw [← hlog]
      exact hnew dev (by rw [← hc]; simp)
    | cons x rest =>
      simp only [List.cons_append, List.cons.injEq] at hc
      obtain ⟨hx, _⟩ := hc
      subst hx
      exact h pre dev rest hlog

theorem erasedAfterRemoved_append (l1 l2 : List LifecycleCall) (h1 : erasedAfterRemoved l1)
    (h2 : erasedAfterRemoved l2) : erasedAfterRemoved (l1 ++ l2) := by
  intro pre dev post heq
  rcases List.append_eq_append_iff.mp heq with ⟨a, _, hn⟩ | ⟨c, hlog, hc⟩
  · exact h2 a dev post hn
  · cases c with
    | nil =>
      simp only [List.nil_append] at hc
      exact h2 [] dev post hc.symm
    | cons x rest =>
      simp only [List.cons_append, List.cons.injEq] at hc
      obtain ⟨hx, hpost⟩ := hc
      subst hx
      obtain ⟨post1, hp⟩ := h1 pre dev rest hlog
      refine ⟨post1 ++ l2, ?_⟩
      rw [hpost, hp]
      rfl

/-- Sequencing keeps a trace lawful. -/
theorem lawful_andThen (log : List LifecycleCall) (t : Traced) (f : Twibd → Traced)
    (ht : t.lawful log) (hf : ∀ s, t.2 = some s → (f s).lawful (log ++ t.1)) :
    (t.andThen f).lawful log := by
  unfold Traced.andThen
  cases hs : t.2 with
  | none => exact ht
  | some s =>
    have := hf s hs
    unfold Traced.lawful at this ⊢
    simp only [List.append_assoc] at this
    exact this

/-- Sequencing keeps a trace tidy. -/
theorem tidy_andThen (t : Traced) (f : Twibd → Traced)
    (ht : t.tidy) (hf : ∀ s, t.2 = some s → (f s).tidy) : (t.andThen f).tidy := by
  unfold Traced.andThen
  cases hs : t.2 with
  | none =>
    intro hne
    exact absurd hs hne
  | some s =>
    intro hne
    exact erasedAfterRemoved_append _ _ (ht (by rw [hs]; exact fun h => Option.noConfusion h))
      (hf s hs hne)

/-- A step that makes no call is lawful when the state it reaches satisfies the invariant. -/
theorem lawful_silent (log : List LifecycleCall) (o : Option Twibd)
    (hA : addedAtMostOnce log) (hR : removedAfterAdded log)
    (h : ∀ s, o = some s → s.lifecycleInvariant log) :
    Traced.lawful log (([], o) : Traced) := by
  unfold Traced.lawful
  simp only [List.append_nil]
  exact ⟨hA, hR, h⟩

/-- The invariant survives every change of the devices that keeps the connection list and the
`added_flag` of the devices there are, and hands out addresses upwards. -/
theorem lifecycleInvariant_of_update (s s1 : Twibd) (log : List LifecycleCall)
    (hinv : s.lifecycleInvariant log) (hconn : s1.connections = s.connections)
    (hnext : s.nextRef ≤ s1.nextRef)
    (hheap : ∀ c d1, mapFind s1.deviceHeap c = some d1 →
      ∃ d, mapFind s.deviceHeap c = some d ∧ d1.added_flag = d.added_flag) :
    s1.lifecycleInvariant log := by
  obtain ⟨h1, h2, h3, h4⟩ := hinv
  refine ⟨by rw [hconn]; exact h1, ?_, fun c hc => Nat.lt_of_lt_of_le (h3 c hc) hnext, ?_⟩
  · intro c hc
    rw [hconn] at hc
    exact Nat.lt_of_lt_of_le (h2 c hc) hnext
  · intro c hc d1 hd1
    rw [hconn] at hc
    obtain ⟨d, hd, hflag⟩ := hheap c d1 hd1
    rw [hflag]
    exact h4 c hc d hd

/-! ## The event loop of the TCP backend: what its steps change -/

theorem sameLifecycle_refl (s : Twibd) : s.sameLifecycle s :=
  ⟨rfl, Nat.le_refl _, fun _ d1 h => ⟨d1, h, rfl⟩⟩

theorem sameLifecycle_trans (s s1 s2 : Twibd) (h1 : s.sameLifecycle s1)
    (h2 : s1.sameLifecycle s2) : s.sameLifecycle s2 := by
  obtain ⟨a1, a2, a3⟩ := h1
  obtain ⟨b1, b2, b3⟩ := h2
  refine ⟨b1.trans a1, Nat.le_trans a2 b2, ?_⟩
  intro c d2 hd2
  obtain ⟨d1, hd1, hf1⟩ := b3 c d2 hd2
  obtain ⟨d, hd, hf⟩ := a3 c d1 hd1
  exact ⟨d, hd, hf1.trans hf⟩

theorem lifecycleInvariant_sameLifecycle (s s1 : Twibd) (log : List LifecycleCall)
    (hinv : s.lifecycleInvariant log) (h : s.sameLifecycle s1) : s1.lifecycleInvariant log :=
  lifecycleInvariant_of_update s s1 log hinv h.1 h.2.1 h.2.2

/-- Flagging a device for deletion keeps the connection list and every `added_flag`, and
touches no other device. -/
theorem connection_error_effect (s : Twibd) (i : Nat) :
    s.sameLifecycle (s.connection_error i) ∧
    (∀ j, j ≠ i → mapFind (s.connection_error i).deviceHeap j = mapFind s.deviceHeap j) := by
  unfold Twibd.connection_error
  cases hd : mapFind s.deviceHeap i with
  | none => exact ⟨sameLifecycle_refl s, fun _ _ => rfl⟩
  | some obj =>
    refine ⟨⟨rfl, Nat.le_refl _, ?_⟩, fun j hj => mapFind_mapAssign_ne _ _ _ _ hj⟩
    intro c d1 hd1
    by_cases hc : c = i
    · subst hc
      simp only [mapFind_mapAssign_self, Option.some.injEq] at hd1
      subst hd1
      exact ⟨obj, hd, rfl⟩
    · simp only [mapFind_mapAssign_ne _ _ _ _ hc] at hd1
      exact ⟨d1, hd1, rfl⟩

/-- The i/o loop keeps the connection list and every `added_flag`. -/
theorem event_thread_pump_effect (s : Twibd) (input : LoopInput) :
    s.sameLifecycle (s.event_thread_pump input) := by
  unfold Twibd.event_thread_pump
  generalize s.connections = l
  induction l generalizing s with
  | nil => exact sameLifecycle_refl s
  | cons mc rest ih =>
    simp only [List.foldl_cons]
    refine sameLifecycle_trans s _ _ ?_ (ih _)
    by_cases he : (input.arrival mc).error = true
    · simp only [he, if_true]
      exact (connection_error_effect s mc).1
    · simp only [he, if_false, Bool.false_eq_true]
      exact sameLifecycle_refl s

/-- The frames delivered on connection `i` keep the connection list and every `added_flag`, and
touch no other device. -/
theorem MessageConnection_frames_effect (env : Env) (i : Nat)
    (frames : List (MessageHeader × List Nat × List Nat)) (s s1 : Twibd)
    (h : Twibd.MessageConnection_frames env i frames s = some s1) :
    s.sameLifecycle s1 ∧ (∀ j, j ≠ i → mapFind s1.deviceHeap j = mapFind s.deviceHeap j) := by
  induction frames generalizing s with
  | nil =>
    simp only [Twibd.MessageConnection_frames, Option.some.injEq] at h
    subst h
    exact ⟨sameLifecycle_refl s, fun _ _ => rfl⟩
  | cons frame rest ih =>
    obtain ⟨mh, payload, object_ids⟩ := frame
    simp only [Twibd.MessageConnection_frames] at h
    cases hd : mapFind s.deviceHeap i with
    | none =>
      simp only [Twibd.TCPBackend_Device_IncomingMessage, hd] at h
      cases h
    | some d =>
      obtain ⟨s2, d1, h1, h2, h3, h4, _, h6, _, _, _, _, h11, _, _⟩ :=
        IncomingMessage_effect env s i d mh payload object_ids hd
      rw [h1] at h
      simp only [Option.some_bind] at h
      obtain ⟨r1, r2⟩ := ih s2 h
      have hstep : s.sameLifecycle s2 := by
        refine ⟨h6, h11, ?_⟩
        intro c dc hdc
        by_cases hc : c = i
        · subst hc
          rw [h2] at hdc
          cases hdc
          exact ⟨d, hd, h4⟩
        · rw [h3 c hc] at hdc
          exact ⟨dc, hdc, rfl⟩
      exact ⟨sameLifecycle_trans s s2 s1 hstep r1, fun j hj => (r2 j hj).trans (h3 j hj)⟩

/-- Processing the input of connection `i` keeps the connection list and every `added_flag`,
and touches no other device. -/
theorem MessageConnection_Process_effect (env : Env) (i : Nat) (arrival : Arrival)
    (s s1 : Twibd) (h : s.MessageConnection_Process env i arrival = some s1) :
    s.sameLifecycle s1 ∧ (∀ j, j ≠ i → mapFind s1.deviceHeap j = mapFind s.deviceHeap j) := by
  unfold Twibd.MessageConnection_Process at h
  cases hf : Twibd.MessageConnection_frames env i arrival.frames s with
  | none => rw [hf] at h; cases h
  | some s2 =>
    rw [hf] at h
    simp only [Option.map_some', Option.some.injEq] at h
    obtain ⟨r1, r2⟩ := MessageConnection_frames_effect env i arrival.frames s s2 hf
    by_cases ho : arrival.oversized = true
    · simp only [ho, if_true] at h
      subst h
      obtain ⟨e1, e2⟩ := connection_error_effect s2 i
      exact ⟨sameLifecycle_trans s s2 _ r1 e1, fun j hj => (e2 j hj).trans (r2 j hj)⟩
    · simp only [ho, if_false, Bool.false_eq_true] at h
      subst h
      exact ⟨r1, r2⟩

/-- What `AddDevice` leaves alone. -/
theorem AddDevice_effect (s : Twibd) (device : Nat) (d : Device)
    (hd : mapFind s.deviceHeap device = some d) :
    ∃ s1 : Twibd, s.AddDevice device = some s1 ∧ s1.deviceHeap = s.deviceHeap ∧
      s1.connections = s.connections ∧ s1.nextRef = s.nextRef := by
  unfold Twibd.AddDevice
  simp only [hd]
  exact ⟨_, rfl, rfl, rfl, rfl⟩

/-- What `RemoveDevice` leaves alone. -/
theorem RemoveDevice_effect (s s1 : Twibd) (device : Nat)
    (h : s.RemoveDevice device = some s1) :
    s1.deviceHeap = s.deviceHeap ∧ s1.connections = s.connections ∧ s1.nextRef = s.nextRef := by
  unfold Twibd.RemoveDevice at h
  cases hd : mapFind s.deviceHeap device with
  | none => simp only [hd] at h; cases h
  | some d =>
    simp only [hd] at h
    cases he : mapFind s.devices d.device_id with
    | none => simp only [he] at h; cases h
    | some w =>
      simp only [he, Option.some.injEq] at h
      subst h
      exact ⟨rfl, rfl, rfl⟩

/-- What the listen-socket branch changes: nothing, or it appends one connection, at the next
free address, whose device is new and not added. -/
theorem event_thread_listen_effect (env : Env) (s s1 : Twibd)
    (datagram : Option (List Nat × SockAddr))
    (h : s.event_thread_listen env datagram = some s1) :
    s1 = s ∨
    (s1.connections = s.connections ++ [s.nextRef] ∧ s1.nextRef = s.nextRef + 1 ∧
      (∀ j, j ≠ s.nextRef → mapFind s1.deviceHeap j = mapFind s.deviceHeap j) ∧
      ∃ d, mapFind s1.deviceHeap s.nextRef = some d ∧ d.added_flag = false) := by
  cases datagram with
  | none =>
    simp only [Twibd.event_thread_listen, Option.some.injEq] at h
    exact Or.inl h.symm
  | some p =>
    obtain ⟨payload, source⟩ := p
    simp only [Twibd.event_thread_listen, Twibd.event_thread_datagram] at h
    split at h
    · unfold Twibd.TCPBackend_Connect_addr at h
      split at h
      · dsimp only at h
        split at h
        · simp only [Option.map_some', Option.some.injEq] at h
          exact Or.inl h.symm
        · simp only [Option.map_some', Option.some.injEq] at h
          exact Or.inl h.symm
        · rename_i fd _
          right
          simp only [Twibd.TCPBackend_Device_Begin, Twibd.TCPBackend_Device_SendRequest,
            mapFind_mapAssign_self, Option.map_some', Option.some.injEq] at h
          subst h
          refine ⟨rfl, rfl, ?_, _, mapFind_mapAssign_self _ _ _, rfl⟩
          intro j hj
          exact (mapFind_mapAssign_ne _ _ _ _ hj).trans (mapFind_mapAssign_ne _ _ _ _ hj)
      · simp only [Option.map_some', Option.some.injEq] at h
        exact Or.inl h.symm
    · simp only [Option.map_some', Option.some.injEq] at h
      exact Or.inl h.symm

/-- The invariant survives the opening of a connection: the connection is appended at the next
free address, and its device is new and not added. -/
theorem lifecycleInvariant_connection (s s1 : Twibd) (log : List LifecycleCall)
    (hinv : s.lifecycleInvariant log)
    (h : s1 = s ∨
      (s1.connections = s.connections ++ [s.nextRef] ∧ s1.nextRef = s.nextRef + 1 ∧
        (∀ j, j ≠ s.nextRef → mapFind s1.deviceHeap j = mapFind s.deviceHeap j) ∧
        ∃ d, mapFind s1.deviceHeap s.nextRef = some d ∧ d.added_flag = false)) :
    s1.lifecycleInvariant log := by
  rcases h with heq | ⟨hconn, hnext, hother, d, hd, hflag⟩
  · rw [heq]; exact hinv
  · obtain ⟨h1, h2, h3, h4⟩ := hinv
    refine ⟨?_, ?_, ?_, ?_⟩
    · rw [hconn]
      refine List.Nodup.append h1 (List.nodup_singleton _) ?_
      intro c hc1 hc2
      have := h2 c hc1
      have := List.mem_singleton.mp hc2
      omega
    · intro c hc
      rw [hconn, List.mem_append] at hc
      rw [hnext]
      rcases hc with hc | hc
      · exact Nat.lt_succ_of_lt (h2 c hc)
      · rw [List.mem_singleton.mp hc]; exact Nat.lt_succ_self _
    · intro c hc
      rw [hnext]
      exact Nat.lt_succ_of_lt (h3 c hc)
    · intro c hc dc hdc
      rw [hconn, List.mem_append] at hc
      rcases hc with hc | hc
      · have hne : c ≠ s.nextRef := Nat.ne_of_lt (h2 c hc)
        rw [hother c hne] at hdc
        exact h4 c hc dc hdc
      · have hceq := List.mem_singleton.mp hc
        subst hceq
        rw [hd] at hdc
        cases hdc
        constructor
        · intro ht
          rw [hflag] at ht
          cases ht
        · intro hmem
          exact absurd (h3 _ hmem) (Nat.lt_irrefl _)

/-- What the connect path of `CONNECT_TCP` changes: nothing, or it appends one connection, at
the next free address, whose device is new and not added. -/
theorem TCPBackend_Connect_effect (env : Env) (s s1 : Twibd) (hostname port msg : List Nat)
    (h : s.TCPBackend_Connect env hostname port = some (s1, msg)) :
    s1 = s ∨
    (s1.connections = s.connections ++ [s.nextRef] ∧ s1.nextRef = s.nextRef + 1 ∧
      (∀ j, j ≠ s.nextRef → mapFind s1.deviceHeap j = mapFind s.deviceHeap j) ∧
      ∃ d, mapFind s1.deviceHeap s.nextRef = some d ∧ d.added_flag = false) := by
  unfold Twibd.TCPBackend_Connect at h
  split at h
  · simp only [Option.some.injEq, Prod.mk.injEq] at h
    exact Or.inl h.1.symm
  · simp only [Option.some.injEq, Prod.mk.injEq] at h
    exact Or.inl h.1.symm
  · simp only [Option.some.injEq, Prod.mk.injEq] at h
    exact Or.inl h.1.symm
  · right
    simp only [Twibd.TCPBackend_Device_Begin, Twibd.TCPBackend_Device_SendRequest,
      mapFind_mapAssign_self, Option.map_some', Option.some.injEq, Prod.mk.injEq] at h
    obtain ⟨h1, _⟩ := h
    subst h1
    refine ⟨rfl, rfl, ?_, _, mapFind_mapAssign_self _ _ _, rfl⟩
    intro j hj
    exact (mapFind_mapAssign_ne _ _ _ _ hj).trans (mapFind_mapAssign_ne _ _ _ _ hj)

/-- The listen-socket branch is lawful: a connection it opens is at a new address, and its
device has not been added. -/
theorem event_thread_listen_lawful (env : Env) (s : Twibd) (log : List LifecycleCall)
    (datagram : Option (List Nat × SockAddr))
    (hinv : s.lifecycleInvariant log) (hA : addedAtMostOnce log)
    (hR : removedAfterAdded log) :
    Traced.lawful log (([], s.event_thread_listen env datagram) : Traced) := by
  refine lawful_silent log _ hA hR ?_
  intro s1 h
  exact lifecycleInvariant_connection s s1 log hinv
    (event_thread_listen_effect env s s1 datagram h)

/-- The registration step for a connection of the list is lawful, and it keeps the connection
list. -/
theorem event_thread_add_logged_lawful (s : Twibd) (log : List LifecycleCall) (c : Nat)
    (hinv : s.lifecycleInvariant log) (hA : addedAtMostOnce log)
    (hR : removedAfterAdded log) (hc : c ∈ s.connections) :
    (s.event_thread_add_logged c).lawful log ∧
    (∀ s1, (s.event_thread_add_logged c).2 = some s1 → s1.connections = s.connections) ∧
    (∀ dev, LifecycleCall.RemoveDevice dev ∉ (s.event_thread_add_logged c).1) ∧
    (∀ dev, LifecycleCall.erase dev ∉ (s.event_thread_add_logged c).1) := by
  unfold Twibd.event_thread_add_logged
  cases hd : mapFind s.deviceHeap c with
  | none =>
    exact ⟨lawful_silent log none hA hR (fun _ h => Option.noConfusion h),
      fun _ h => Option.noConfusion h, fun _ => List.not_mem_nil _,
      fun _ => List.not_mem_nil _⟩
  | some obj =>
    by_cases hcond : (obj.ready_flag && !obj.added_flag) = true
    · simp only [hcond, if_true]
      have hflag : obj.added_flag = false := by
        cases hf : obj.added_flag
        · rfl
        · rw [hf] at hcond; simp at hcond
      obtain ⟨h1, h2, h3, h4⟩ := hinv
      have hnot : LifecycleCall.AddDevice c ∉ log := by
        intro hmem
        have := (h4 c hc obj hd).mpr hmem
        rw [hflag] at this
        cases this
      obtain ⟨sA, hadd, a1, a2, a3⟩ := AddDevice_effect s c obj hd
      have hstate : s.event_thread_add c = some
          { sA with deviceHeap := mapAssign c { obj with added_flag := true } sA.deviceHeap } := by
        unfold Twibd.event_thread_add
        simp only [hd, hcond, if_true, hadd, Option.map_some']
      rw [hstate]
      refine ⟨⟨addedAtMostOnce_snoc log c hA hnot, removedAfterAdded_append log _ hR ?_, ?_⟩,
        ?_, ?_, ?_⟩
      · intro dev hmem
        simp at hmem
      · intro s1 hs1
        simp only [Option.some.injEq] at hs1
        subst hs1
        refine ⟨by rw [a2]; exact h1, ?_, ?_, ?_⟩
        · intro c1 hc1
          rw [a2] at hc1
          rw [a3]
          exact h2 c1 hc1
        · intro c1 hc1
          rw [a3]
          rcases List.mem_append.mp hc1 with hm | hm
          · exact h3 c1 hm
          · simp only [List.mem_singleton, LifecycleCall.AddDevice.injEq] at hm
            rw [hm]
            exact h2 c hc
        · intro c1 hc1 d1 hd1
          rw [a2] at hc1
          by_cases hcc : c1 = c
          · subst hcc
            simp only [mapFind_mapAssign_self, Option.some.injEq] at hd1
            subst hd1
            simp
          · simp only [mapFind_mapAssign_ne _ _ _ _ hcc, a1] at hd1
            rw [h4 c1 hc1 d1 hd1]
            simp [hcc]
      · intro s1 hs1
        simp only [Option.some.injEq] at hs1
        subst hs1
        exact a2
      · intro dev hmem
        simp at hmem
      · intro dev hmem
        simp at hmem
    · simp only [hcond, if_false, Bool.false_eq_true]
      exact ⟨lawful_silent log _ hA hR (fun s1 h => (by cases h; exact hinv)),
        fun s1 h => (by cases h; rfl), fun _ => List.not_mem_nil _,
        fun _ => List.not_mem_nil _⟩

/-- Erasing the connection `i` keeps the invariant, whatever calls other than `AddDevice` are
logged with it. -/
theorem lifecycleInvariant_erase (s sR : Twibd) (log new : List LifecycleCall) (i : Nat)
    (hinv : s.lifecycleInvariant log) (hnew : ∀ c, LifecycleCall.AddDevice c ∉ new)
    (e1 : sR.deviceHeap = s.deviceHeap) (e2 : sR.connections = s.connections)
    (e3 : sR.nextRef = s.nextRef) :
    Twibd.lifecycleInvariant
      { sR with connections := sR.connections.filter (fun j => j != i),
                deviceHeap := mapErase i sR.deviceHeap } (log ++ new) := by
  obtain ⟨h1, h2, h3, h4⟩ := hinv
  have hlog : ∀ c, LifecycleCall.AddDevice c ∈ log ++ new ↔ LifecycleCall.AddDevice c ∈ log := by
    intro c
    rw [List.mem_append]
    constructor
    · rintro (h | h)
      · exact h
      · exact absurd h (hnew c)
    · exact Or.inl
  refine ⟨?_, ?_, ?_, ?_⟩
  · show (sR.connections.filter (fun j => j != i)).Nodup
    rw [e2]
    exact h1.filter _
  · intro c hc
    have hc1 : c ∈ sR.connections.filter (fun j => j != i) := hc
    rw [e2] at hc1
    show c < sR.nextRef
    rw [e3]
    exact h2 c (List.mem_filter.mp hc1).1
  · intro c hc
    show c < sR.nextRef
    rw [e3]
    exact h3 c ((hlog c).mp hc)
  · intro c hc d hd
    have hc1 : c ∈ sR.connections.filter (fun j => j != i) := hc
    rw [e2] at hc1
    obtain ⟨hmem, hne⟩ := List.mem_filter.mp hc1
    have hci : c ≠ i := by simpa using hne
    have hd1 : mapFind (mapErase i sR.deviceHeap) c = some d := hd
    rw [mapFind_mapErase_ne _ _ _ hci, e1] at hd1
    rw [hlog c]
    exact h4 c hmem d hd1

/-- The state after the last step of the loop for a device flagged for deletion. -/
theorem event_thread_reap_flagged (s sR : Twibd) (i : Nat) (obj : Device)
    (hd : mapFind s.deviceHeap i = some obj) (hdel : obj.deletion_flag = true)
    (hR : (if obj.added_flag then s.RemoveDevice i else some s) = some sR) :
    s.event_thread_reap i = some
      { sR with connections := sR.connections.filter (fun j => j != i),
                deviceHeap := mapErase i sR.deviceHeap } := by
  unfold Twibd.event_thread_reap
  simp only [hd, hdel, if_true, hR, Option.map_some']

/-- The last step of the loop for a connection of the list is lawful. -/
theorem event_thread_reap_logged_lawful (s : Twibd) (log : List LifecycleCall) (i : Nat)
    (hinv : s.lifecycleInvariant log) (hA : addedAtMostOnce log)
    (hR : removedAfterAdded log) (hi : i ∈ s.connections) :
    (s.event_thread_reap_logged i).lawful log := by
  unfold Twibd.event_thread_reap_logged
  cases hd : mapFind s.deviceHeap i with
  | none => exact lawful_silent log none hA hR (fun _ h => Option.noConfusion h)
  | some obj =>
    by_cases hdel : obj.deletion_flag = true
    · simp only [hdel, if_true]
      by_cases hadd : obj.added_flag = true
      · simp only [hadd, if_true]
        have hlogged : LifecycleCall.AddDevice i ∈ log := (hinv.2.2.2 i hi obj hd).mp hadd
        cases hrem : s.RemoveDevice i with
        | none =>
          refine ⟨addedAtMostOnce_append log _ hA (fun dev h => by simp at h),
            removedAfterAdded_append log _ hR ?_, fun _ h => Option.noConfusion h⟩
          intro dev hmem
          simp only [List.mem_singleton, LifecycleCall.RemoveDevice.injEq] at hmem
          rw [hmem]
          exact hlogged
        | some sR =>
          obtain ⟨e1, e2, e3⟩ := RemoveDevice_effect s sR i hrem
          have hstate := event_thread_reap_flagged s sR i obj hd hdel
            (by rw [hadd]; exact hrem)
          refine ⟨addedAtMostOnce_append log _ hA (fun dev h => by simp at h),
            removedAfterAdded_append log _ hR ?_, ?_⟩
          · intro dev hmem
            simp only [List.mem_cons, LifecycleCall.RemoveDevice.injEq, List.mem_singleton,
              reduceCtorEq, or_false, List.not_mem_nil] at hmem
            rw [hmem]
            exact hlogged
          · intro s1 hs1
            simp only [hstate, Option.some.injEq] at hs1
            subst hs1
            exact lifecycleInvariant_erase s sR log _ i hinv (fun c h => by simp at h) e1 e2 e3
      · simp only [hadd, if_false, Bool.false_eq_true]
        have hstate := event_thread_reap_flagged s s i obj hd hdel
          (by simp only [hadd, if_false, Bool.false_eq_true])
        refine ⟨addedAtMostOnce_append log _ hA (fun dev h => by simp at h),
          removedAfterAdded_append log _ hR (fun dev h => by simp at h), ?_⟩
        intro s1 hs1
        simp only [hstate, Option.some.injEq] at hs1
        subst hs1
        exact lifecycleInvariant_erase s s log _ i hinv (fun c h => by simp at h) rfl rfl rfl
    · simp only [hdel, if_false, Bool.false_eq_true]
      exact lawful_silent log _ hA hR (fun s1 h => (by cases h; exact hinv))

/-- A sequence that ends in a defined state went through a defined state in between. -/
theorem andThen_eq_some (t : Traced) (f : Twibd → Traced) (calls : List LifecycleCall)
    (s1 : Twibd) (h : t.andThen f = (calls, some s1)) :
    ∃ sM, t.2 = some sM ∧ calls = t.1 ++ (f sM).1 ∧ (f sM).2 = some s1 := by
  unfold Traced.andThen at h
  cases ht : t.2 with
  | none =>
    simp only [ht] at h
    have : t.2 = some s1 := by rw [h]
    rw [ht] at this
    cases this
  | some sM =>
    simp only [ht, Prod.mk.injEq] at h
    exact ⟨sM, rfl, h.1.symm, h.2⟩

/-- What the last step of the loop does for the connection `i`: it touches no other device, and
either the device is not flagged for deletion and nothing happens, or the connection is erased
from the list, directly after the call of `RemoveDevice` if there is one. -/
theorem event_thread_reap_logged_effect (s : Twibd) (i : Nat) :
    (s.event_thread_reap_logged i).tidy ∧
    ∀ s1, (s.event_thread_reap_logged i).2 = some s1 →
      (∀ j, j ≠ i → mapFind s1.deviceHeap j = mapFind s.deviceHeap j) ∧
      ((s1 = s ∧ (s.event_thread_reap_logged i).1 = [] ∧
          ∃ d, mapFind s.deviceHeap i = some d ∧ d.deletion_flag = false) ∨
       (s1.connections = s.connections.filter (fun j => j != i) ∧
          (∀ dev, LifecycleCall.erase dev ∈ (s.event_thread_reap_logged i).1 → dev = i) ∧
          ∃ d, mapFind s.deviceHeap i = some d ∧ d.deletion_flag = true)) := by
  have hnil : erasedAfterRemoved [] := by
    intro pre dev post h
    cases pre <;> cases h
  have hone : erasedAfterRemoved [LifecycleCall.erase i] := by
    intro pre dev post h
    cases pre with
    | nil => cases h
    | cons x rest =>
      simp only [List.cons_append, List.cons.injEq] at h
      cases rest <;> cases h.2
  have htwo : erasedAfterRemoved [LifecycleCall.RemoveDevice i, LifecycleCall.erase i] := by
    intro pre dev post h
    cases pre with
    | nil =>
      simp only [List.nil_append, List.cons.injEq, LifecycleCall.RemoveDevice.injEq] at h
      exact ⟨[], by rw [← h.2, h.1]⟩
    | cons x rest =>
      simp only [List.cons_append, List.cons.injEq] at h
      exact hone rest dev post h.2
  unfold Twibd.event_thread_reap_logged
  cases hd : mapFind s.deviceHeap i with
  | none => exact ⟨fun h => absurd rfl h, fun _ h => Option.noConfusion h⟩
  | some obj =>
    by_cases hdel : obj.deletion_flag = true
    · simp only [hdel, if_true]
      by_cases hadd : obj.added_flag = true
      · simp only [hadd, if_true]
        cases hrem : s.RemoveDevice i with
        | none => exact ⟨fun h => absurd rfl h, fun _ h => Option.noConfusion h⟩
        | some sR =>
          obtain ⟨e1, e2, _⟩ := RemoveDevice_effect s sR i hrem
          have hstate := event_thread_reap_flagged s sR i obj hd hdel
            (by rw [hadd]; exact hrem)
          refine ⟨fun _ => htwo, ?_⟩
          intro s1 hs1
          simp only [hstate, Option.some.injEq] at hs1
          subst hs1
          refine ⟨fun j hj => ?_, Or.inr ⟨by rw [← e2], ?_, obj, rfl, hdel⟩⟩
          · show mapFind (mapErase i sR.deviceHeap) j = mapFind s.deviceHeap j
            rw [mapFind_mapErase_ne _ _ _ hj, e1]
          · intro dev hmem
            simp only [List.mem_cons, reduceCtorEq, LifecycleCall.erase.injEq,
              List.mem_singleton, false_or, List.not_mem_nil, or_false] at hmem
            exact hmem
      · simp only [hadd, if_false, Bool.false_eq_true]
        have hstate := event_thread_reap_flagged s s i obj hd hdel
          (by simp only [hadd, if_false, Bool.false_eq_true])
        refine ⟨fun _ => hone, ?_⟩
        intro s1 hs1
        simp only [hstate, Option.some.injEq] at hs1
        subst hs1
        refine ⟨fun j hj => mapFind_mapErase_ne _ _ _ hj, Or.inr ⟨rfl, ?_, obj, rfl, hdel⟩⟩
        intro dev hmem
        simp only [List.mem_singleton, LifecycleCall.erase.injEq] at hmem
        exact hmem
    · simp only [hdel, if_false, Bool.false_eq_true]
      refine ⟨fun _ => hnil, ?_⟩
      intro s1 hs1
      simp only [Option.some.injEq] at hs1
      subst hs1
      refine ⟨fun _ _ => rfl, Or.inl ⟨rfl, trivial, obj, rfl, ?_⟩⟩
      cases hf : obj.deletion_flag
      · rfl
      · exact absurd hf hdel

/-- The registration step calls nothing but `AddDevice` for its connection and keeps the
connection list. -/
theorem event_thread_add_logged_effect (s : Twibd) (c : Nat) :
    (∀ x ∈ (s.event_thread_add_logged c).1, x = LifecycleCall.AddDevice c) ∧
    ∀ s1, (s.event_thread_add_logged c).2 = some s1 → s1.connections = s.connections := by
  unfold Twibd.event_thread_add_logged
  cases hd : mapFind s.deviceHeap c with
  | none => exact ⟨fun x h => absurd h (List.not_mem_nil _), fun _ h => Option.noConfusion h⟩
  | some obj =>
    by_cases hcond : (obj.ready_flag && !obj.added_flag) = true
    · simp only [hcond, if_true]
      refine ⟨fun x h => List.mem_singleton.mp h, ?_⟩
      intro s1 hs1
      obtain ⟨sA, hadd, _, a2, _⟩ := AddDevice_effect s c obj hd
      unfold Twibd.event_thread_add at hs1
      simp only [hd, hcond, if_true, hadd, Option.map_some', Option.some.injEq] at hs1
      subst hs1
      exact a2
    · simp only [hcond, if_false, Bool.false_eq_true]
      exact ⟨fun x h => absurd h (List.not_mem_nil _), fun s1 h => (by cases h; rfl)⟩

/-- The registration loop calls nothing but `AddDevice` and keeps the connection list. -/
theorem registration_loop_effect (l : List Nat) (s : Twibd) :
    (∀ x ∈ (forEachConnection (fun c s0 => s0.event_thread_add_logged c) l s).1,
      ∃ c, x = LifecycleCall.AddDevice c) ∧
    ∀ s1, (forEachConnection (fun c s0 => s0.event_thread_add_logged c) l s).2 = some s1 →
      s1.connections = s.connections := by
  induction l generalizing s with
  | nil =>
    exact ⟨fun x h => absurd h (List.not_mem_nil _), fun s1 h => (by cases h; rfl)⟩
  | cons c rest ih =>
    obtain ⟨e1, e2⟩ := event_thread_add_logged_effect s c
    simp only [forEachConnection, Traced.andThen]
    cases hs : (s.event_thread_add_logged c).2 with
    | none =>
      simp only []
      refine ⟨fun x hx => ⟨c, e1 x hx⟩, ?_⟩
      intro s1 h1
      rw [hs] at h1
      cases h1
    | some sM =>
      simp only []
      obtain ⟨i1, i2⟩ := ih sM
      refine ⟨?_, fun s1 h1 => (i2 s1 h1).trans (e2 sM hs)⟩
      intro x hx
      rcases List.mem_append.mp hx with hx | hx
      · exact ⟨c, e1 x hx⟩
      · exact i1 x hx

/-- What the last loop does for the connection `i`, from `Process` on: it touches no other
device, and either the connection stays, its device not being flagged for deletion, or the
connection is erased from the list, directly after the call of `RemoveDevice` if there is
one. -/
theorem event_thread_finish_effect (env : Env) (input : LoopInput) (i : Nat) (s : Twibd) :
    (Twibd.event_thread_finish env input i s).tidy ∧
    ∀ sM, (Twibd.event_thread_finish env input i s).2 = some sM →
      (∀ j, j ≠ i → mapFind sM.deviceHeap j = mapFind s.deviceHeap j) ∧
      ((sM.connections = s.connections ∧ (Twibd.event_thread_finish env input i s).1 = [] ∧
          ∃ d, mapFind sM.deviceHeap i = some d ∧ d.deletion_flag = false) ∨
       (sM.connections = s.connections.filter (fun j => j != i) ∧
          ∀ dev, LifecycleCall.erase dev ∈ (Twibd.event_thread_finish env input i s).1 →
            dev = i)) := by
  unfold Twibd.event_thread_finish Traced.andThen
  cases hp : s.MessageConnection_Process env i (input.arrival i) with
  | none => exact ⟨fun h => absurd rfl h, fun _ h => Option.noConfusion h⟩
  | some sP =>
    simp only [List.nil_append]
    obtain ⟨p1, p2⟩ := MessageConnection_Process_effect env i (input.arrival i) s sP hp
    obtain ⟨r1, r2⟩ := event_thread_reap_logged_effect sP i
    refine ⟨r1, ?_⟩
    intro sM hsM
    obtain ⟨q1, q2⟩ := r2 sM hsM
    refine ⟨fun j hj => (q1 j hj).trans (p2 j hj), ?_⟩
    rcases q2 with ⟨heq, hcalls, d, hd, hdel⟩ | ⟨hconn, herase, _⟩
    · left
      subst heq
      exact ⟨p1.1, hcalls, d, hd, hdel⟩
    · right
      exact ⟨by rw [hconn, p1.1], herase⟩

/-- The last loop of the event thread over the connections `l`: in the state it ends in, the
connections are connections from before, devices outside `l` are untouched, no connection of `l`
that is still in the list has a device flagged for deletion, and no erased connection is in the
list; every call of `RemoveDevice` is directly followed by the erasure. -/
theorem finish_loop_effect (env : Env) (input : LoopInput) (l : List Nat) (s s1 : Twibd)
    (calls : List LifecycleCall)
    (h : forEachConnection (Twibd.event_thread_finish env input) l s = (calls, some s1)) :
    erasedAfterRemoved calls ∧
    (∀ c, c ∈ s1.connections → c ∈ s.connections) ∧
    (∀ c, c ∉ l → mapFind s1.deviceHeap c = mapFind s.deviceHeap c) ∧
    (∀ c ∈ l, c ∈ s1.connections → ∀ d, mapFind s1.deviceHeap c = some d →
      d.deletion_flag = false) ∧
    (∀ dev, LifecycleCall.erase dev ∈ calls → dev ∉ s1.connections) := by
  induction l generalizing s calls with
  | nil =>
    simp only [forEachConnection, Prod.mk.injEq, Option.some.injEq] at h
    obtain ⟨h1, h2⟩ := h
    subst h1
    subst h2
    refine ⟨?_, fun _ hc => hc, fun _ _ => rfl, fun c hc => absurd hc (List.not_mem_nil _),
      fun _ hm => absurd hm (List.not_mem_nil _)⟩
    intro pre dev post heq
    cases pre <;> cases heq
  | cons i rest ih =>
    simp only [forEachConnection] at h
    obtain ⟨sM, hM, hcalls, hrest⟩ := andThen_eq_some _ _ _ _ h
    obtain ⟨t1, t2⟩ := event_thread_finish_effect env input i s
    obtain ⟨q1, q2⟩ := t2 sM hM
    obtain ⟨i1, i2, i3, i4, i5⟩ := ih sM
      (forEachConnection (Twibd.event_thread_finish env input) rest sM).1 (by rw [← hrest])
    have hsub : ∀ c, c ∈ sM.connections → c ∈ s.connections := by
      intro c hc
      rcases q2 with ⟨hconn, _, _⟩ | ⟨hconn, _⟩
      · rw [hconn] at hc; exact hc
      · rw [hconn] at hc; exact (List.mem_filter.mp hc).1
    subst hcalls
    refine ⟨?_, fun c hc => hsub c (i2 c hc), ?_, ?_, ?_⟩
    · exact erasedAfterRemoved_append _ _
        (t1 (by rw [hM]; exact fun hn => Option.noConfusion hn)) i1
    · intro c hc
      have hci : c ≠ i := fun hh => hc (by rw [hh]; exact List.mem_cons_self _ _)
      have hcr : c ∉ rest := fun hh => hc (List.mem_cons_of_mem _ hh)
      exact (i3 c hcr).trans (q1 c hci)
    · intro c hc hmem d hd
      by_cases hcr : c ∈ rest
      · exact i4 c hcr hmem d hd
      · have hci : c = i := by
          rcases List.mem_cons.mp hc with hh | hh
          · exact hh
          · exact absurd hh hcr
        subst hci
        rw [i3 c hcr] at hd
        rcases q2 with ⟨_, _, d0, hd0, hdel⟩ | ⟨hconn, _⟩
        · rw [hd0] at hd
          cases hd
          exact hdel
        · have := i2 c hmem
          rw [hconn] at this
          have := (List.mem_filter.mp this).2
          simp at this
    · intro dev hmem
      rcases List.mem_append.mp hmem with hm | hm
      · rcases q2 with ⟨_, hnil, _⟩ | ⟨hconn, herase⟩
        · rw [hnil] at hm
          cases hm
        · have hdi := herase dev hm
          subst hdi
          intro hin
          have := i2 dev hin
          rw [hconn] at this
          have := (List.mem_filter.mp this).2
          simp at this
      · exact i5 dev hm

/-! ## The event loop of the TCP backend: lawful passes -/

/-- The registration loop over connections of the list is lawful. -/
theorem registration_loop_lawful (l : List Nat) (s : Twibd) (log : List LifecycleCall)
    (hinv : s.lifecycleInvariant log) (hA : addedAtMostOnce log)
    (hR : removedAfterAdded log) (hl : ∀ c ∈ l, c ∈ s.connections) :
    (forEachConnection (fun c s0 => s0.event_thread_add_logged c) l s).lawful log := by
  induction l generalizing s log with
  | nil => exact lawful_silent log _ hA hR (fun s1 h => (by cases h; exact hinv))
  | cons c rest ih =>
    simp only [forEachConnection]
    obtain ⟨h1, h2, _, _⟩ := event_thread_add_logged_lawful s log c hinv hA hR
      (hl c (List.mem_cons_self _ _))
    refine lawful_andThen log _ _ h1 ?_
    intro sM hM
    refine ih sM _ (h1.2.2 sM hM) h1.1 h1.2.1 ?_
    intro c1 hc1
    rw [h2 sM hM]
    exact hl c1 (List.mem_cons_of_mem _ hc1)

/-- The last loop, for a connection of the list, is lawful. -/
theorem event_thread_finish_lawful (env : Env) (input : LoopInput) (i : Nat) (s : Twibd)
    (log : List LifecycleCall)
    (hinv : s.lifecycleInvariant log) (hA : addedAtMostOnce log)
    (hR : removedAfterAdded log) (hi : i ∈ s.connections) :
    (Twibd.event_thread_finish env input i s).lawful log := by
  unfold Twibd.event_thread_finish
  refine lawful_andThen log _ _ ?_ ?_
  · refine lawful_silent log _ hA hR ?_
    intro sP hP
    exact lifecycleInvariant_sameLifecycle s sP log hinv
      (MessageConnection_Process_effect env i (input.arrival i) s sP hP).1
  · intro sP hP
    have hsame := (MessageConnection_Process_effect env i (input.arrival i) s sP hP).1
    simp only [List.append_nil]
    exact event_thread_reap_logged_lawful sP log i
      (lifecycleInvariant_sameLifecycle s sP log hinv hsame) hA hR (by rw [hsame.1]; exact hi)

/-- The last loop over distinct connections of the list is lawful. -/
theorem finish_loop_lawful (env : Env) (input : LoopInput) (l : List Nat) (s : Twibd)
    (log : List LifecycleCall)
    (hinv : s.lifecycleInvariant log) (hA : addedAtMostOnce log)
    (hR : removedAfterAdded log) (hl : ∀ c ∈ l, c ∈ s.connections) (hnd : l.Nodup) :
    (forEachConnection (Twibd.event_thread_finish env input) l s).lawful log := by
  induction l generalizing s log with
  | nil => exact lawful_silent log _ hA hR (fun s1 h => (by cases h; exact hinv))
  | cons i rest ih =>
    simp only [forEachConnection]
    have h1 := event_thread_finish_lawful env input i s log hinv hA hR
      (hl i (List.mem_cons_self _ _))
    refine lawful_andThen log _ _ h1 ?_
    intro sM hM
    obtain ⟨hni, hnr⟩ := List.nodup_cons.mp hnd
    refine ih sM _ (h1.2.2 sM hM) h1.1 h1.2.1 ?_ hnr
    intro c hc
    have hcs := hl c (List.mem_cons_of_mem _ hc)
    have hci : c ≠ i := fun hh => hni (by rw [← hh]; exact hc)
    rcases ((event_thread_finish_effect env input i s).2 sM hM).2 with ⟨hconn, _, _⟩ | ⟨hconn, _⟩
    · rw [hconn]; exact hcs
    · rw [hconn]
      exact List.mem_filter.mpr ⟨hcs, by simpa using hci⟩

/-- A pass of the event loop is lawful. -/
theorem event_thread_pass_lawful (env : Env) (input : LoopInput) (s : Twibd)
    (log : List LifecycleCall)
    (hinv : s.lifecycleInvariant log) (hA : addedAtMostOnce log)
    (hR : removedAfterAdded log) :
    (s.event_thread_pass env input).lawful log := by
  unfold Twibd.event_thread_pass
  have h1 := registration_loop_lawful s.connections s log hinv hA hR (fun _ hc => hc)
  refine lawful_andThen log _ _ h1 ?_
  intro s1 hs1
  have h2 := event_thread_listen_lawful env s1 _ input.datagram (h1.2.2 s1 hs1) h1.1 h1.2.1
  refine lawful_andThen _ _ _ h2 ?_
  intro s2 hs2
  have hinv2 := h2.2.2 s2 hs2
  have hinv3 := lifecycleInvariant_sameLifecycle s2 _ _ hinv2
    (event_thread_pump_effect s2 input)
  exact finish_loop_lawful env input _ _ _ hinv3 h2.1 h2.2.1 (fun _ hc => hc) hinv3.1

/-- A run of the event loop is lawful. -/
theorem event_thread_run_lawful (env : Env) (events : List LoopEvent) (s : Twibd)
    (log : List LifecycleCall)
    (hinv : s.lifecycleInvariant log) (hA : addedAtMostOnce log)
    (hR : removedAfterAdded log) :
    (Twibd.event_thread_run env events s).lawful log := by
  induction events generalizing s log with
  | nil => exact lawful_silent log _ hA hR (fun s1 h => (by cases h; exact hinv))
  | cons event rest ih =>
    simp only [Twibd.event_thread_run]
    have h1 : (s.event_thread_event env event).lawful log := by
      cases event with
      | pass input => exact event_thread_pass_lawful env input s log hinv hA hR
      | connect hostname port =>
        refine lawful_silent log _ hA hR ?_
        intro s1 hs1
        cases hc : s.TCPBackend_Connect env hostname port with
        | none => rw [hc] at hs1; cases hs1
        | some p =>
          obtain ⟨s2, msg⟩ := p
          rw [hc] at hs1
          simp only [Option.map_some', Option.some.injEq] at hs1
          subst hs1
          exact lifecycleInvariant_connection s s2 log hinv
            (TCPBackend_Connect_effect env s s2 hostname port msg hc)
    refine lawful_andThen log _ _ h1 ?_
    intro s1 hs1
    exact ih s1 _ (h1.2.2 s1 hs1) h1.1 h1.2.1

/-- What a pass of the event loop that ends in a defined state has done: every call of
`RemoveDevice` is directly followed by the erasure of the connection, no connection left in the
list has a device flagged for deletion, and no erased connection is in the list. -/
theorem event_thread_pass_effect (env : Env) (input : LoopInput) (s s1 : Twibd)
    (calls : List LifecycleCall) (h : s.event_thread_pass env input = (calls, some s1)) :
    erasedAfterRemoved calls ∧
    (∀ c ∈ s1.connections, ∀ d, mapFind s1.deviceHeap c = some d → d.deletion_flag = false) ∧
    (∀ dev, LifecycleCall.erase dev ∈ calls → dev ∉ s1.connections) := by
  unfold Twibd.event_thread_pass at h
  obtain ⟨sA, hA, hcalls, hrest⟩ := andThen_eq_some _ _ _ _ h
  obtain ⟨a1, _⟩ := registration_loop_effect s.connections s
  have hrest2 : Traced.andThen ([], sA.event_thread_listen env input.datagram)
      (fun s2 => forEachConnection (Twibd.event_thread_finish env input)
        (s2.event_thread_pump input).connections (s2.event_thread_pump input))
      = ((Traced.andThen ([], sA.event_thread_listen env input.datagram)
          (fun s2 => forEachConnection (Twibd.event_thread_finish env input)
            (s2.event_thread_pump input).connections (s2.event_thread_pump input))).1,
         some s1) := by
    rw [← hrest]
  obtain ⟨sL, _, hcalls2, hfin⟩ := andThen_eq_some _ _ _ _ hrest2
  obtain ⟨f1, f2, _, f4, f5⟩ := finish_loop_effect env input _ _ s1
    (forEachConnection (Twibd.event_thread_finish env input)
      (sL.event_thread_pump input).connections (sL.event_thread_pump input)).1
    (by rw [← hfin])
  simp only [List.nil_append] at hcalls2
  rw [hcalls2] at hcalls
  subst hcalls
  have hadd : erasedAfterRemoved
      (forEachConnection (fun c s0 => s0.event_thread_add_logged c) s.connections s).1 := by
    intro pre dev post heq
    have hmem : LifecycleCall.RemoveDevice dev ∈
        (forEachConnection (fun c s0 => s0.event_thread_add_logged c) s.connections s).1 := by
      rw [heq]; simp
    obtain ⟨c, hc⟩ := a1 _ hmem
    cases hc
  refine ⟨erasedAfterRemoved_append _ _ hadd f1, fun c hc d hd => f4 c (f2 c hc) hc d hd, ?_⟩
  intro dev hmem
  rcases List.mem_append.mp hmem with hm | hm
  · obtain ⟨c, hc⟩ := a1 _ hm
    cases hc
  · exact f5 dev hm

/-! ## Claims on the TCP backend: the lifecycle of a device -/

/-- The lifecycle calls of runs that stay defined.  The event loop runs from a state whose
connections are distinct, at addresses that have been handed out, with devices not yet added.  Over every run of passes of the loop, whatever
arrives and whatever connections the dispatcher opens in between: `AddDevice` is called at most once for each device, and before every call of
`RemoveDevice` for a device there is a call of `AddDevice` for that device.  In every pass that
ends in a defined state, every call of `RemoveDevice` is directly followed by the erasure of the
connection of that device, no connection that is left in the list has a device with
`deletion_flag` set, and no connection that was erased is in the list. -/
theorem event_loop_lifecycle (env : Env) (events : List LoopEvent) (s0 : Twibd)
    (hnodup : s0.connections.Nodup)
    (hfresh : ∀ c ∈ s0.connections, c < s0.nextRef)
    (hnew : ∀ c ∈ s0.connections, ∀ d, mapFind s0.deviceHeap c = some d →
      d.added_flag = false) :
    (∀ dev, (Twibd.event_thread_run env events s0).1.count (LifecycleCall.AddDevice dev) ≤ 1) ∧
    (∀ pre dev post,
      (Twibd.event_thread_run env events s0).1 = pre ++ LifecycleCall.RemoveDevice dev :: post →
      LifecycleCall.AddDevice dev ∈ pre) ∧
    (∀ (input : LoopInput) (s s1 : Twibd) (calls : List LifecycleCall),
      s.event_thread_pass env input = (calls, some s1) →
      (∀ pre dev post, calls = pre ++ LifecycleCall.RemoveDevice dev :: post →
        ∃ post1, post = LifecycleCall.erase dev :: post1) ∧
      (∀ c ∈ s1.connections, ∀ d, mapFind s1.deviceHeap c = some d →
        d.deletion_flag = false) ∧
      (∀ dev, LifecycleCall.erase dev ∈ calls → dev ∉ s1.connections)) := by
  have hinv : s0.lifecycleInvariant [] := by
    refine ⟨hnodup, hfresh, fun c h => absurd h (List.not_mem_nil _), ?_⟩
    intro c hc d hd
    constructor
    · intro h
      rw [hnew c hc d hd] at h
      cases h
    · intro h
      exact absurd h (List.not_mem_nil _)
  have hA : addedAtMostOnce [] := fun dev => by simp
  have hR : removedAfterAdded [] := by
    intro pre dev post h
    cases pre <;> cases h
  obtain ⟨h1, h2, _⟩ := event_thread_run_lawful env events s0 [] hinv hA hR
  simp only [List.nil_append] at h1 h2
  exact ⟨h1, h2, fun input s s1 calls h => event_thread_pass_effect env input s s1 calls h⟩

/-- The lifecycle calls at the example: the device of connection 2 is identified in a first
pass; in a second pass it is added, an error is reported on its socket, and it is removed and its connection
erased. -/
theorem event_loop_lifecycle_witness :
    (Twibd.event_thread_run exampleEnv exampleLifecycle
        exampleIdentifying).1
      = [LifecycleCall.AddDevice 2, LifecycleCall.RemoveDevice 2, LifecycleCall.erase 2] ∧
    (∀ dev, (Twibd.event_thread_run exampleEnv exampleLifecycle
        exampleIdentifying).1.count (LifecycleCall.AddDevice dev) ≤ 1) ∧
    (∀ pre dev post,
      (Twibd.event_thread_run exampleEnv exampleLifecycle
        exampleIdentifying).1 = pre ++ LifecycleCall.RemoveDevice dev :: post →
      LifecycleCall.AddDevice dev ∈ pre) := by
  have hnew : ∀ c ∈ exampleIdentifying.connections, ∀ d,
      mapFind exampleIdentifying.deviceHeap c = some d → d.added_flag = false := by
    intro c hc d hd
    have hc2 : c = 2 := by
      have : c ∈ [2] := hc
      simpa using this
    subst hc2
    have h2 : mapFind exampleIdentifying.deviceHeap 2 = some exampleTcpBegun := by decide
    rw [h2] at hd
    cases hd
    rfl
  obtain ⟨h1, h2, _⟩ := event_loop_lifecycle exampleEnv
    exampleLifecycle exampleIdentifying (by decide) (by decide) hnew
  exact ⟨by decide, h1, h2⟩

/-! ## Claims on the meta object: a registry entry whose device is gone -/

/-- C12 (the code diverges).  Two consoles connect over TCP and identify themselves with serial
numbers that hash to 218 and 219; both devices are added.  The console of connection 2 then sends
a second identification response, which carries the other serial number, and its connection
fails: the event thread calls `RemoveDevice` for it, which erases the entry 219 of the other
device, and destroys it, so the registry is left with the one entry 218, whose device is gone.
For the `LIST_DEVICES` request of the live client 21 a response can be opened, but
`HandleRequest` does not return one: the loop dereferences the null pointer that `lock()` gives
for the entry (Twibd.cpp:181-187). -/
theorem HandleRequest_LIST_DEVICES_expired_entry :
    exampleExpiredEntry.1
      = [LifecycleCall.AddDevice 2, LifecycleCall.AddDevice 6, LifecycleCall.RemoveDevice 2,
         LifecycleCall.erase 2] ∧
    exampleExpiredEntry.2.map
        (fun s => (s.devices, s.connections, (mapFind s.deviceHeap 2).isSome,
          (s.RespondOk exampleListRequest).isSome,
          (s.HandleRequest exampleEnv exampleListRequest).isSome))
      = some ([(218, 2)], [6], false, true, false) := by
  decide

/-- C10 (the code diverges).  In the daemon of the run above, whose registry holds the one entry
218 of a device that is gone and whose dispatch queue is empty, client 21 posts a `LIST_DEVICES`
request to the meta object: `Process` does not return and enqueues no response, as
`HandleRequest` dereferences the null pointer of the expired entry.  A request of the same client
for the device 218 itself is answered with `UNRECOGNIZED_DEVICE`: `Process` checks the locked
pointer on that path (Twibd.cpp:114-118). -/
theorem Process_LIST_DEVICES_expired_entry :
    exampleExpiredEntry.2.map (fun s => (s.devices, (mapFind s.deviceHeap 2).isSome,
        s.dispatch_queue)) = some ([(218, 2)], false, []) ∧
    (exampleExpiredEntry.2.bind fun s => (s.PostRequest exampleListRequest).Process exampleEnv)
      = none ∧
    (exampleExpiredEntry.2.bind fun s =>
        (s.PostRequest exampleRequestTo218).Process exampleEnv).map (fun s => s.dispatch_queue)
      = some [Job.response
          { device_id := 218, client_id := 21, object_id := 0, result_code := 1001, tag := 84,
            payload := [], objects := [] }] := by
  decide

/-- C26 (the code diverges).  Two TCP connections (2 and 6) lead to one console, so both devices
have the device id 5, and the registry is empty.  In one pass of the event loop both devices are
added, `select` reports an error on both sockets, and the last loop removes the device of
connection 2 and erases the connection; the call of `RemoveDevice` for connection 6, whose entry
the first call erased, then erases the end iterator.  The pass does not end in a defined state,
and the connection 6, whose device is flagged for deletion, is not erased: before the last call
it is the one connection in the list, flagged and added, and the registry is empty.  The same
happens when the registry holds a USB device under the id 5. -/
theorem event_loop_pass_second_removal_undefined :
    exampleEmptyRegistry.event_thread_pass exampleEnv exampleErrorInput
      = ([LifecycleCall.AddDevice 2, LifecycleCall.AddDevice 6, LifecycleCall.RemoveDevice 2,
          LifecycleCall.erase 2, LifecycleCall.RemoveDevice 6], none) ∧
    exampleSecondRemoval.map
        (fun s => (s.devices, s.connections,
          (mapFind s.deviceHeap 6).map (fun d => (d.deletion_flag, d.added_flag)),
          (s.RemoveDevice 6).isSome))
      = some ([], [6], some (true, true), false) ∧
    exampleState.event_thread_pass exampleEnv exampleErrorInput
      = ([LifecycleCall.AddDevice 2, LifecycleCall.AddDevice 6, LifecycleCall.RemoveDevice 2,
          LifecycleCall.erase 2, LifecycleCall.RemoveDevice 6], none) := by
  decide

end Twili
